import Mathlib

/-!
# Verification development for the `slack` Go library

The development embeds:

* the decoding rules of Go's `encoding/json` that the decoders of the library
  run on (namespace `json`);
* the declarations of the root package `slack` that the events refer to
  (namespace `slack`);
* `slackevents/inner_events.go`: the inner event shapes, the custom decoder
  `MessageEvent.UnmarshalJSON`, the `EventsAPIType` constants and the catalogue
  `EventsAPIInnerEventMapping` (namespace `slackevents`).

Go structs are embedded as data: a `GoType` describes a declared type, a `GoVal`
is a value of it, and `json.unmarshalValue` is the decoder `encoding/json` runs
for a destination of that type.
-/

namespace json

/-- A JSON document after the syntax check. Numbers keep their literal text,
because decoding into an integer field parses that text. Object members keep
their order and their duplicates, because the decoder visits them one by one. -/
inductive JSON where
  | null
  | bool (b : Bool)
  | num (lit : String)
  | str (s : String)
  | arr (xs : List JSON)
  | obj (kvs : List (String × JSON))

/-- A Go type as the decoder sees it. A struct lists its exported fields in
declaration order as (Go name, JSON name, type); the JSON name is the name in
the `json` tag, or the Go name for a field without a tag. `int` is the 64-bit
`int` of the platforms the library is built for. `iface` is `interface{}`,
`mapIface` is `map[string]interface{}`. `foreign` is a named type whose
declaration lies in another package. -/
inductive GoType where
  | string
  | bool
  | int
  | int64
  | iface
  | mapIface
  | ptr (t : GoType)
  | slice (t : GoType)
  | struct (fields : List (String × String × GoType))
  | foreign (name : String)

/-- A Go value. `ptr none` is the nil pointer, `iface none` the nil interface,
`map none` the nil map; an interface or map holds the JSON values it was decoded
from. A slice is nil or not, has a length, and keeps the
elements of its backing array (those beyond the length are stale values that a
later decode into the same slice picks up again). A struct maps each Go field
name to its value, in declaration order. -/
inductive GoVal where
  | str (s : String)
  | bool (b : Bool)
  | int (n : Int)
  | iface (v : Option JSON)
  | map (m : Option (List (String × JSON)))
  | ptr (p : Option GoVal)
  | slice (isNil : Bool) (len : Nat) (backing : List GoVal)
  | struct (fs : List (String × GoVal))

/-- The error `json.Unmarshal` returns: the bytes are not a JSON document, or a
JSON value does not fit the Go type it is decoded into (`UnmarshalTypeError`,
with the description of the JSON value Go reports). -/
inductive UnmarshalError where
  | invalidDocument
  | typeMismatch (value : String)
  | other (msg : String)
deriving DecidableEq

/-- What a decode step returns: the destination afterwards and the error saved
so far. -/
abbrev Result := GoVal × Option UnmarshalError

/-- Decoders and zero values of the named types declared outside the embedded
sources, by type name. An error of such a decoder is kept like a saved error;
Go returns it at once instead, which changes neither whether an error is
returned nor what a caller that drops the destination on error observes. -/
structure Foreign where
  zero : String → GoVal
  unmarshal : String → JSON → GoVal → Result

/-- The description of a JSON value in an `UnmarshalTypeError`. -/
def JSON.describe : JSON → String
  | .null => "null"
  | .bool _ => "bool"
  | .num _ => "number"
  | .str _ => "string"
  | .arr _ => "array"
  | .obj _ => "object"

/-- Case folding of one rune of a member name, as `foldName` does it for the
comparison with ASCII field names: ASCII lower case goes to upper case, and the
two non-ASCII runes whose fold orbit contains an ASCII letter (KELVIN SIGN and
LATIN SMALL LETTER LONG S) go to that letter. -/
def foldRune (c : Char) : Char :=
  if 'a'.toNat ≤ c.toNat ∧ c.toNat ≤ 'z'.toNat then Char.ofNat (c.toNat - 32)
  else if c.toNat = 0x212A then 'K'
  else if c.toNat = 0x017F then 'S'
  else c

/-- The folded form of a member name; two names match case-insensitively when
their folded forms are equal. -/
def foldName (s : String) : String :=
  String.mk (s.data.map foldRune)

/-- The JSON name of the field a member with key `k` is decoded into: the field
whose name is exactly `k`, and failing that the first field whose name equals
`k` under case folding. -/
def selectField (names : List String) (k : String) : Option String :=
  if k ∈ names then some k
  else names.find? (fun n => foldName n = foldName k)

/-- Value of the field with Go name `g`. -/
def getField (g : String) : List (String × GoVal) → Option GoVal
  | [] => none
  | (n, w) :: rest => if n = g then some w else getField g rest

/-- Assignment to the field with Go name `g`. -/
def setField (g : String) (v : GoVal) : List (String × GoVal) → List (String × GoVal)
  | [] => []
  | (n, w) :: rest => if n = g then (n, v) :: rest else (n, w) :: setField g v rest

/-- Insertion of a key into a Go map. -/
def mapInsert (k : String) (v : JSON) : List (String × JSON) → List (String × JSON)
  | [] => [(k, v)]
  | (n, w) :: rest => if n = k then (n, v) :: rest else (n, w) :: mapInsert k v rest

/-- The range of a 64-bit signed integer. -/
def fitsInt64 (n : Int) : Bool :=
  decide (-(2 : Int) ^ 63 ≤ n) && decide (n < (2 : Int) ^ 63)

/-- Decoding of a number literal into an integer destination: the literal must
be the text of an integer that fits 64 bits. -/
def parseInt (lit : String) : Option Int :=
  match lit.toInt? with
  | some n => if fitsInt64 n then some n else none
  | none => none

/-- Keeps the first error. -/
def saveError (saved new : Option UnmarshalError) : Option UnmarshalError :=
  match saved with
  | some e => some e
  | none => new

mutual
/-- The zero value of a type. -/
def zero (F : Foreign) : GoType → GoVal
  | .string => .str ""
  | .bool => .bool false
  | .int => .int 0
  | .int64 => .int 0
  | .iface => .iface none
  | .mapIface => .map none
  | .ptr _ => .ptr none
  | .slice _ => .slice true 0 []
  | .struct fields => .struct (zeroFields F fields)
  | .foreign name => F.zero name
/-- The zero values of the fields of a struct. -/
def zeroFields (F : Foreign) : List (String × String × GoType) → List (String × GoVal)
  | [] => []
  | (g, _, t) :: rest => (g, zero F t) :: zeroFields F rest
end

/-- Decoding of an integer destination. -/
def unmarshalInt (j : JSON) (cur : GoVal) : Result :=
  match j with
  | .null => (cur, none)
  | .num lit =>
    match parseInt lit with
    | some n => (.int n, none)
    | none => (cur, some (.typeMismatch ("number " ++ lit)))
  | _ => (cur, some (.typeMismatch j.describe))

mutual
/-- The decoder `encoding/json` runs for a destination of type `t` holding `cur`
and a JSON value `j`. A value that does not fit the type leaves the destination
as it is and saves the error; decoding goes on and the first saved error is the
one returned. `null` resets pointers, interfaces, maps and slices and leaves
every other destination untouched. -/
def unmarshalValue (F : Foreign) : GoType → JSON → GoVal → Result
  | .string, j, cur =>
    match j with
    | .null => (cur, none)
    | .str s => (.str s, none)
    | _ => (cur, some (.typeMismatch j.describe))
  | .bool, j, cur =>
    match j with
    | .null => (cur, none)
    | .bool b => (.bool b, none)
    | _ => (cur, some (.typeMismatch j.describe))
  | .int, j, cur => unmarshalInt j cur
  | .int64, j, cur => unmarshalInt j cur
  | .iface, j, _ =>
    match j with
    | .null => (.iface none, none)
    | _ => (.iface (some j), none)
  | .mapIface, j, cur =>
    match j with
    | .null => (.map none, none)
    | .obj kvs =>
      let m := match cur with
        | .map (some m) => m
        | _ => []
      (.map (some (kvs.foldl (fun acc kv => mapInsert kv.1 kv.2 acc) m)), none)
    | _ => (cur, some (.typeMismatch j.describe))
  | .ptr t, j, cur =>
    match j with
    | .null => (.ptr none, none)
    | _ =>
      let pointee := match cur with
        | .ptr (some p) => p
        | _ => zero F t
      let r := unmarshalValue F t j pointee
      (.ptr (some r.1), r.2)
  | .slice t, j, cur =>
    match j with
    | .null => (.slice true 0 [], none)
    | .arr xs =>
      let old := match cur with
        | .slice _ _ backing => backing
        | _ => []
      let r := xs.foldl (fun (acc : List GoVal × Option UnmarshalError) x =>
        let e := unmarshalValue F t x ((old.get? acc.1.length).getD (zero F t))
        (acc.1 ++ [e.1], saveError acc.2 e.2)) ([], none)
      (.slice false xs.length (if xs.isEmpty then [] else r.1 ++ old.drop xs.length), r.2)
    | _ => (cur, some (.typeMismatch j.describe))
  | .struct fields, j, cur =>
    match j with
    | .null => (cur, none)
    | .obj kvs =>
      let vals := match cur with
        | .struct vs => vs
        | _ => zeroFields F fields
      let r := kvs.foldl (fun (acc : List (String × GoVal) × Option UnmarshalError) kv =>
        match selectField (fields.map (fun f => f.2.1)) kv.1 with
        | none => acc
        | some n =>
          let e := unmarshalField F fields n kv.2 acc.1
          (e.1, saveError acc.2 e.2)) (vals, none)
      (.struct r.1, r.2)
    | _ => (cur, some (.typeMismatch j.describe))
  | .foreign name, j, cur => F.unmarshal name j cur
/-- Decoding of one object member into the field with JSON name `n`. -/
def unmarshalField (F : Foreign) :
    List (String × String × GoType) → String → JSON → List (String × GoVal) →
      List (String × GoVal) × Option UnmarshalError
  | [], _, _, vals => (vals, none)
  | (g, m, t) :: rest, n, j, vals =>
    if m = n then
      let r := unmarshalValue F t j ((getField g vals).getD (zero F t))
      (setField g r.1 vals, r.2)
    else unmarshalField F rest n j vals
end

/-- The fields of a struct type. -/
def GoType.fields : GoType → List (String × String × GoType)
  | .struct fields => fields
  | _ => []

/-- The field a member with key `k` is decoded into, if any. -/
def fieldFor (fields : List (String × String × GoType)) (k : String) :
    Option (String × String × GoType) :=
  match selectField (fields.map (fun f => f.2.1)) k with
  | none => none
  | some n => fields.find? (fun f => f.2.1 = n)

/-- Whether a member with key `k` is decoded into the field with Go name `g`. -/
def hits (fields : List (String × String × GoType)) (g : String) (k : String) : Bool :=
  match fieldFor fields k with
  | some f => f.1 = g
  | none => false

/-- One step of the struct decoder: the member `kv` is decoded into the field it
selects, or skipped when it selects none. -/
def memberStep (F : Foreign) (fields : List (String × String × GoType))
    (acc : List (String × GoVal) × Option UnmarshalError) (kv : String × JSON) :
    List (String × GoVal) × Option UnmarshalError :=
  match fieldFor fields kv.1 with
  | none => acc
  | some f =>
    let r := unmarshalValue F f.2.2 kv.2 ((getField f.1 acc.1).getD (zero F f.2.2))
    (setField f.1 r.1 acc.1, saveError acc.2 r.2)

/-- The values of the members of an object whose key spells `name`, case
folding included, in document order. -/
def members (name : String) (kvs : List (String × JSON)) : List JSON :=
  (kvs.filter (fun kv => foldName kv.1 = foldName name)).map Prod.snd

/-- The values of the members of a document whose key spells `name`; a document
that is not an object has none. -/
def docMembers (name : String) : JSON → List JSON
  | .obj kvs => members name kvs
  | _ => []

/-- An object is tagged `d`: it has a member spelling "type", and every such
member holds the string `d`. -/
def tagged (d : String) (kvs : List (String × JSON)) : Prop :=
  members "type" kvs ≠ [] ∧ ∀ v ∈ members "type" kvs, v = .str d

/-- Whether a type is `string`. -/
def GoType.isString : GoType → Bool
  | .string => true
  | _ => false

/-- Whether a type is a struct that declares the field `Type string` under the
JSON name "type", with fields distinct in their Go names and in their JSON
names up to case. -/
def wellTagged : GoType → Bool
  | .struct fields =>
    fields.any (fun f => decide (f.1 = "Type") && decide (f.2.1 = "type") && f.2.2.isString) &&
      decide ((fields.map (fun f => f.1)).Nodup) &&
      decide ((fields.map (fun f => foldName f.2.1)).Nodup)
  | _ => false

/-- Successive decoding of the values `js` into one destination of type `t`. -/
def decodeAll (F : Foreign) (t : GoType) (js : List JSON) (cur : GoVal) : GoVal :=
  js.foldl (fun c j => (unmarshalValue F t j c).1) cur

/-- Whether a JSON value is of a kind the decoder rejects for a destination of
type `t`: not `null`, and not the kind of value the type is decoded from. -/
def kindMismatch : GoType → JSON → Bool
  | .string, j =>
    match j with
    | .null => false
    | .str _ => false
    | _ => true
  | .bool, j =>
    match j with
    | .null => false
    | .bool _ => false
    | _ => true
  | .int, j =>
    match j with
    | .null => false
    | .num _ => false
    | _ => true
  | .int64, j =>
    match j with
    | .null => false
    | .num _ => false
    | _ => true
  | .iface, _ => false
  | .mapIface, j =>
    match j with
    | .null => false
    | .obj _ => false
    | _ => true
  | .ptr t, j =>
    match j with
    | .null => false
    | _ => kindMismatch t j
  | .slice _, j =>
    match j with
    | .null => false
    | .arr _ => false
    | _ => true
  | .struct _, j =>
    match j with
    | .null => false
    | .obj _ => false
    | _ => true
  | .foreign _, _ => false


/-- Value of the field with Go name `g` of a struct value. -/
def GoVal.field (v : GoVal) (g : String) : Option GoVal :=
  match v with
  | .struct fs => getField g fs
  | _ => none

/-- The value a pointer points to; none for the nil pointer. -/
def GoVal.deref : GoVal → Option GoVal
  | .ptr p => p
  | _ => none

/-- The field `g` of the struct a pointer field `p` points to, as in `e.p.g`. -/
def GoVal.fieldOfPtr (v : GoVal) (p g : String) : Option GoVal :=
  ((v.field p).bind GoVal.deref).bind (fun m => m.field g)

/-- Struct value after the assignment of `w` to the field with Go name `g`. -/
def GoVal.withField (v : GoVal) (g : String) (w : GoVal) : GoVal :=
  match v with
  | .struct fs => .struct (setField g w fs)
  | _ => v

/-- The comparison `x == nil` for a field value. -/
def isNil : Option GoVal → Bool
  | some (.ptr (some _)) => false
  | _ => true

/-- Embedding of `json.Unmarshal(data, &dst)`. The input is the outcome of the
syntax check Go runs over the bytes first: `none` for bytes that are not a JSON
document, in which case the destination is not touched. -/
def Unmarshal (F : Foreign) (data : Option JSON) (t : GoType) (dst : GoVal) : Result :=
  match data with
  | none => (dst, some .invalidDocument)
  | some j => unmarshalValue F t j dst

end json

namespace slack
open json

/-- The declarations of the root package that the event shapes depend on and
that are not among the embedded sources: the fields of `Msg` beyond those listed
in `Msg`, and the decoders of the named types reached through `GoType.foreign`. -/
structure Pkg where
  msgRest : List (String × String × GoType)
  foreign : Foreign

/-- Modelled from the spec: the struct `slack.Msg`, declared in the root package
and not among the embedded sources. The listed fields are the ones the embedded
sources and the spec's scenario frames use: `Type`, `Channel`, `User`, `Text`
and `Timestamp` are assigned in slacktest/server.go, `Edited` is read by
`MessageEvent.IsEdited`; their JSON names are those of the frames the spec shows
and of the same fields of `MessageEvent`. Every further field is in `P.msgRest`.
The type has no decoder of its own. -/
def Msg (P : Pkg) : GoType :=
  .struct ([
    ("Type", "type", .string),
    ("Channel", "channel", .string),
    ("User", "user", .string),
    ("Text", "text", .string),
    ("Timestamp", "ts", .string),
    ("Edited", "edited", .ptr (.foreign "slack.Edited"))] ++ P.msgRest)

/-- A package in which `Msg` declares no further field and every foreign type
keeps the document it is decoded from; the concrete package of the examples. -/
def minimalPkg : Pkg where
  msgRest := []
  foreign := { zero := fun _ => .iface none, unmarshal := fun _ j _ => (.iface (some j), none) }

/-- The declaration of `Msg` is well formed: no two fields share a Go name, and
no two share a JSON name up to case. -/
def Pkg.WellFormed (P : Pkg) : Prop :=
  ((Msg P).fields.map (fun f => f.1)).Nodup ∧
    ((Msg P).fields.map (fun f => foldName f.2.1)).Nodup

end slack

namespace slackevents
open json

/-- Go type EventsAPIInnerEvent (inner_events.go, line 12). -/
def EventsAPIInnerEvent : GoType :=
  .struct [
    ("Type", "type", .string),
    ("Data", "Data", .iface)]

/-- Go type AssistantThreadContext (inner_events.go, line 40). -/
def AssistantThreadContext : GoType :=
  .struct [
    ("ChannelID", "channel_id", .string),
    ("TeamID", "team_id", .string),
    ("EnterpriseID", "enterprise_id", .string)]

/-- Go type AssistantThread (inner_events.go, line 32). -/
def AssistantThread : GoType :=
  .struct [
    ("UserID", "user_id", .string),
    ("Context", "context", AssistantThreadContext),
    ("ChannelID", "channel_id", .string),
    ("ThreadTimeStamp", "thread_ts", .string)]

/-- Go type AssistantThreadStartedEvent (inner_events.go, line 18). -/
def AssistantThreadStartedEvent : GoType :=
  .struct [
    ("Type", "type", .string),
    ("AssistantThread", "assistant_thread", AssistantThread),
    ("EventTimestamp", "event_ts", .string)]

/-- Go type AssistantThreadContextChangedEvent (inner_events.go, line 25). -/
def AssistantThreadContextChangedEvent : GoType :=
  .struct [
    ("Type", "type", .string),
    ("AssistantThread", "assistant_thread", AssistantThread),
    ("EventTimestamp", "event_ts", .string)]

/-- Go type Edited (inner_events.go, line 549). -/
def Edited : GoType :=
  .struct [
    ("User", "user", .string),
    ("TimeStamp", "ts", .string)]

/-- Go type AppMentionEvent (inner_events.go, line 47). -/
def AppMentionEvent : GoType :=
  .struct [
    ("Type", "type", .string),
    ("User", "user", .string),
    ("Text", "text", .string),
    ("TimeStamp", "ts", .string),
    ("ThreadTimeStamp", "thread_ts", .string),
    ("Channel", "channel", .string),
    ("EventTimeStamp", "event_ts", .string),
    ("UserTeam", "user_team", .string),
    ("SourceTeam", "source_team", .string),
    ("BotID", "bot_id", .string),
    ("Edited", "edited", (.ptr Edited))]

/-- Go type AppHomeOpenedEvent (inner_events.go, line 68). -/
def AppHomeOpenedEvent : GoType :=
  .struct [
    ("Type", "type", .string),
    ("User", "user", .string),
    ("Channel", "channel", .string),
    ("EventTimeStamp", "event_ts", .string),
    ("Tab", "tab", .string),
    ("View", "view", (.ptr (.foreign "slack.View")))]

/-- Go type AppUninstalledEvent (inner_events.go, line 78). -/
def AppUninstalledEvent : GoType :=
  .struct [
    ("Type", "type", .string)]

/-- Go type ChannelCreatedInfo (inner_events.go, line 135). -/
def ChannelCreatedInfo : GoType :=
  .struct [
    ("ID", "id", .string),
    ("IsChannel", "is_channel", .bool),
    ("Name", "name", .string),
    ("Created", "created", .int),
    ("Creator", "creator", .string)]

/-- Go type ChannelCreatedEvent (inner_events.go, line 83). -/
def ChannelCreatedEvent : GoType :=
  .struct [
    ("Type", "type", .string),
    ("Channel", "channel", ChannelCreatedInfo),
    ("EventTimestamp", "event_ts", .string)]

/-- Go type ChannelDeletedEvent (inner_events.go, line 90). -/
def ChannelDeletedEvent : GoType :=
  .struct [
    ("Type", "type", .string),
    ("Channel", "channel", .string),
    ("EventTimestamp", "event_ts", .string)]

/-- Go type ChannelArchiveEvent (inner_events.go, line 97). -/
def ChannelArchiveEvent : GoType :=
  .struct [
    ("Type", "type", .string),
    ("Channel", "channel", .string),
    ("User", "user", .string),
    ("EventTimestamp", "event_ts", .string)]

/-- Go type ChannelUnarchiveEvent (inner_events.go, line 105). -/
def ChannelUnarchiveEvent : GoType :=
  .struct [
    ("Type", "type", .string),
    ("Channel", "channel", .string),
    ("User", "user", .string),
    ("EventTimestamp", "event_ts", .string)]

/-- Go type ChannelLeftEvent (inner_events.go, line 113). -/
def ChannelLeftEvent : GoType :=
  .struct [
    ("Type", "type", .string),
    ("Channel", "channel", .string),
    ("EventTimestamp", "event_ts", .string)]

/-- Go type ChannelRenameInfo (inner_events.go, line 144). -/
def ChannelRenameInfo : GoType :=
  .struct [
    ("ID", "id", .string),
    ("Name", "name", .string),
    ("Created", "created", .int)]

/-- Go type ChannelRenameEvent (inner_events.go, line 120). -/
def ChannelRenameEvent : GoType :=
  .struct [
    ("Type", "type", .string),
    ("Channel", "channel", ChannelRenameInfo),
    ("EventTimestamp", "event_ts", .string)]

/-- Go type ChannelIDChangedEvent (inner_events.go, line 127). -/
def ChannelIDChangedEvent : GoType :=
  .struct [
    ("Type", "type", .string),
    ("OldChannelID", "old_channel_id", .string),
    ("NewChannelID", "new_channel_id", .string),
    ("EventTimestamp", "event_ts", .string)]

/-- Go type ChannelUnsharedEvent (inner_events.go, line 151). -/
def ChannelUnsharedEvent : GoType :=
  .struct [
    ("Type", "type", .string),
    ("PreviouslyConnectedTeamID", "previously_connected_team_id", .string),
    ("Channel", "channel", .string),
    ("IsExtShared", "is_ext_shared", .bool),
    ("EventTimestamp", "event_ts", .string)]

/-- Go type GroupDeletedEvent (inner_events.go, line 160). -/
def GroupDeletedEvent : GoType :=
  .struct [
    ("Type", "type", .string),
    ("Channel", "channel", .string),
    ("EventTimestamp", "event_ts", .string)]

/-- Go type GroupArchiveEvent (inner_events.go, line 167). -/
def GroupArchiveEvent : GoType :=
  .struct [
    ("Type", "type", .string),
    ("Channel", "channel", .string),
    ("EventTimestamp", "event_ts", .string)]

/-- Go type GroupUnarchiveEvent (inner_events.go, line 174). -/
def GroupUnarchiveEvent : GoType :=
  .struct [
    ("Type", "type", .string),
    ("Channel", "channel", .string),
    ("EventTimestamp", "event_ts", .string)]

/-- Go type GroupLeftEvent (inner_events.go, line 181). -/
def GroupLeftEvent : GoType :=
  .struct [
    ("Type", "type", .string),
    ("Channel", "channel", .string),
    ("EventTimestamp", "event_ts", .string)]

/-- Go type GroupRenameInfo (inner_events.go, line 195). -/
def GroupRenameInfo : GoType :=
  .struct [
    ("ID", "id", .string),
    ("Name", "name", .string),
    ("Created", "created", .int)]

/-- Go type GroupRenameEvent (inner_events.go, line 188). -/
def GroupRenameEvent : GoType :=
  .struct [
    ("Type", "type", .string),
    ("Channel", "channel", GroupRenameInfo),
    ("EventTimestamp", "event_ts", .string)]

/-- Go type FileEventFile (inner_events.go, line 238). -/
def FileEventFile : GoType :=
  .struct [
    ("ID", "id", .string)]

/-- Go type FileChangeEvent (inner_events.go, line 203). -/
def FileChangeEvent : GoType :=
  .struct [
    ("Type", "type", .string),
    ("FileID", "file_id", .string),
    ("File", "file", FileEventFile)]

/-- Go type FileDeletedEvent (inner_events.go, line 211). -/
def FileDeletedEvent : GoType :=
  .struct [
    ("Type", "type", .string),
    ("FileID", "file_id", .string),
    ("EventTimestamp", "event_ts", .string)]

/-- Go type FileSharedEvent (inner_events.go, line 219). -/
def FileSharedEvent : GoType :=
  .struct [
    ("Type", "type", .string),
    ("ChannelID", "channel_id", .string),
    ("FileID", "file_id", .string),
    ("UserID", "user_id", .string),
    ("File", "file", FileEventFile),
    ("EventTimestamp", "event_ts", .string)]

/-- Go type FileUnsharedEvent (inner_events.go, line 230). -/
def FileUnsharedEvent : GoType :=
  .struct [
    ("Type", "type", .string),
    ("FileID", "file_id", .string),
    ("File", "file", FileEventFile)]

/-- Go type GridMigrationFinishedEvent (inner_events.go, line 243). -/
def GridMigrationFinishedEvent : GoType :=
  .struct [
    ("Type", "type", .string),
    ("EnterpriseID", "enterprise_id", .string)]

/-- Go type GridMigrationStartedEvent (inner_events.go, line 249). -/
def GridMigrationStartedEvent : GoType :=
  .struct [
    ("Type", "type", .string),
    ("EnterpriseID", "enterprise_id", .string)]

/-- Go type SharedLinks (inner_events.go, line 269). -/
def SharedLinks : GoType :=
  .struct [
    ("Domain", "domain", .string),
    ("URL", "url", .string)]

/-- Go type LinkSharedEvent (inner_events.go, line 255). -/
def LinkSharedEvent : GoType :=
  .struct [
    ("Type", "type", .string),
    ("User", "user", .string),
    ("TimeStamp", "ts", .string),
    ("Channel", "channel", .string),
    ("MessageTimeStamp", "message_ts", .string),
    ("ThreadTimeStamp", "thread_ts", .string),
    ("Links", "links", (.slice SharedLinks)),
    ("EventTimestamp", "event_ts", .string)]

/-- Go type Icon (inner_events.go, line 555). -/
def Icon : GoType :=
  .struct [
    ("IconURL", "icon_url", .string),
    ("IconEmoji", "icon_emoji", .string)]

/-- Go type MessageEvent (inner_events.go, line 281). -/
def MessageEvent (P : slack.Pkg) : GoType :=
  .struct [
    ("ClientMsgID", "client_msg_id", .string),
    ("Type", "type", .string),
    ("User", "user", .string),
    ("Text", "text", .string),
    ("ThreadTimeStamp", "thread_ts", .string),
    ("TimeStamp", "ts", .string),
    ("Channel", "channel", .string),
    ("ChannelType", "channel_type", .string),
    ("EventTimeStamp", "event_ts", .string),
    ("UserTeam", "user_team", .string),
    ("SourceTeam", "source_team", .string),
    ("Message", "message", (.ptr (slack.Msg P))),
    ("Root", "root", (.ptr (slack.Msg P))),
    ("PreviousMessage", "previous_message", (.ptr (slack.Msg P))),
    ("DeletedTimeStamp", "deleted_ts", .string),
    ("SubType", "subtype", .string),
    ("BotID", "bot_id", .string),
    ("Username", "username", .string),
    ("Icons", "icons", (.ptr Icon))]

/-- Go type MemberJoinedChannelEvent (inner_events.go, line 355). -/
def MemberJoinedChannelEvent : GoType :=
  .struct [
    ("Type", "type", .string),
    ("User", "user", .string),
    ("Channel", "channel", .string),
    ("ChannelType", "channel_type", .string),
    ("Team", "team", .string),
    ("Inviter", "inviter", .string),
    ("EventTimestamp", "event_ts", .string)]

/-- Go type MemberLeftChannelEvent (inner_events.go, line 366). -/
def MemberLeftChannelEvent : GoType :=
  .struct [
    ("Type", "type", .string),
    ("User", "user", .string),
    ("Channel", "channel", .string),
    ("ChannelType", "channel_type", .string),
    ("Team", "team", .string),
    ("EventTimestamp", "event_ts", .string)]

/-- Go type ItemMessage (inner_events.go, line 571). -/
def ItemMessage : GoType :=
  .struct [
    ("Type", "type", .string),
    ("User", "user", .string),
    ("Text", "text", .string),
    ("Timestamp", "ts", .string),
    ("PinnedTo", "pinned_to", (.slice .string)),
    ("ReplaceOriginal", "replace_original", .bool),
    ("DeleteOriginal", "delete_original", .bool)]

/-- Go type File (inner_events.go, line 498). -/
def File : GoType :=
  .struct [
    ("ID", "id", .string),
    ("Created", "created", .int),
    ("Timestamp", "timestamp", .int),
    ("Name", "name", .string),
    ("Title", "title", .string),
    ("Mimetype", "mimetype", .string),
    ("Filetype", "filetype", .string),
    ("PrettyType", "pretty_type", .string),
    ("User", "user", .string),
    ("Editable", "editable", .bool),
    ("Size", "size", .int),
    ("Mode", "mode", .string),
    ("IsExternal", "is_external", .bool),
    ("ExternalType", "external_type", .string),
    ("IsPublic", "is_public", .bool),
    ("PublicURLShared", "public_url_shared", .bool),
    ("DisplayAsBot", "display_as_bot", .bool),
    ("Username", "username", .string),
    ("URLPrivate", "url_private", .string),
    ("FileAccess", "file_access", .string),
    ("URLPrivateDownload", "url_private_download", .string),
    ("Thumb64", "thumb_64", .string),
    ("Thumb80", "thumb_80", .string),
    ("Thumb360", "thumb_360", .string),
    ("Thumb360W", "thumb_360_w", .int),
    ("Thumb360H", "thumb_360_h", .int),
    ("Thumb480", "thumb_480", .string),
    ("Thumb480W", "thumb_480_w", .int),
    ("Thumb480H", "thumb_480_h", .int),
    ("Thumb160", "thumb_160", .string),
    ("Thumb720", "thumb_720", .string),
    ("Thumb720W", "thumb_720_w", .int),
    ("Thumb720H", "thumb_720_h", .int),
    ("Thumb800", "thumb_800", .string),
    ("Thumb800W", "thumb_800_w", .int),
    ("Thumb800H", "thumb_800_h", .int),
    ("Thumb960", "thumb_960", .string),
    ("Thumb960W", "thumb_960_w", .int),
    ("Thumb960H", "thumb_960_h", .int),
    ("Thumb1024", "thumb_1024", .string),
    ("Thumb1024W", "thumb_1024_w", .int),
    ("Thumb1024H", "thumb_1024_h", .int),
    ("ImageExifRotation", "image_exif_rotation", .int),
    ("OriginalW", "original_w", .int),
    ("OriginalH", "original_h", .int),
    ("Permalink", "permalink", .string),
    ("PermalinkPublic", "permalink_public", .string)]

/-- Go type JSONTime (inner_events.go, line 486). -/
def JSONTime : GoType :=
  .int64

/-- Go type Comment (inner_events.go, line 489). -/
def Comment : GoType :=
  .struct [
    ("ID", "id", .string),
    ("Created", "created", JSONTime),
    ("Timestamp", "timestamp", JSONTime),
    ("User", "user", .string),
    ("Comment", "comment", .string)]

/-- Go type Item (inner_events.go, line 561). -/
def Item : GoType :=
  .struct [
    ("Type", "type", .string),
    ("Channel", "channel", .string),
    ("Message", "message", (.ptr ItemMessage)),
    ("File", "file", (.ptr File)),
    ("Comment", "comment", (.ptr Comment)),
    ("Timestamp", "ts", .string)]

/-- Go type pinEvent (inner_events.go, line 375). -/
def pinEvent : GoType :=
  .struct [
    ("Type", "type", .string),
    ("User", "user", .string),
    ("Item", "item", Item),
    ("Channel", "channel_id", .string),
    ("EventTimestamp", "event_ts", .string),
    ("HasPins", "has_pins", .bool)]

/-- Go type reactionEvent (inner_events.go, line 384). -/
def reactionEvent : GoType :=
  .struct [
    ("Type", "type", .string),
    ("User", "user", .string),
    ("Reaction", "reaction", .string),
    ("ItemUser", "item_user", .string),
    ("Item", "item", Item),
    ("EventTimestamp", "event_ts", .string)]

/-- Go type ReactionAddedEvent (inner_events.go, line 394). -/
def ReactionAddedEvent : GoType :=
  reactionEvent

/-- Go type ReactionRemovedEvent (inner_events.go, line 397). -/
def ReactionRemovedEvent : GoType :=
  reactionEvent

/-- Go type PinAddedEvent (inner_events.go, line 400). -/
def PinAddedEvent : GoType :=
  pinEvent

/-- Go type PinRemovedEvent (inner_events.go, line 403). -/
def PinRemovedEvent : GoType :=
  pinEvent

/-- Go type tokens (inner_events.go, line 405). -/
def tokens : GoType :=
  .struct [
    ("Oauth", "oauth", (.slice .string)),
    ("Bot", "bot", (.slice .string))]

/-- Go type TeamJoinEvent (inner_events.go, line 411). -/
def TeamJoinEvent : GoType :=
  .struct [
    ("Type", "type", .string),
    ("User", "user", (.ptr (.foreign "slack.User"))),
    ("EventTimestamp", "event_ts", .string)]

/-- Go type TokensRevokedEvent (inner_events.go, line 418). -/
def TokensRevokedEvent : GoType :=
  .struct [
    ("Type", "type", .string),
    ("Tokens", "tokens", tokens),
    ("EventTimestamp", "event_ts", .string)]

/-- Go type EmojiChangedEvent (inner_events.go, line 425). -/
def EmojiChangedEvent : GoType :=
  .struct [
    ("Type", "type", .string),
    ("Subtype", "subtype", .string),
    ("EventTimeStamp", "event_ts", .string),
    ("Name", "name", .string),
    ("Names", "names", (.slice .string)),
    ("OldName", "old_name", .string),
    ("NewName", "new_name", .string),
    ("Value", "value", .string)]

/-- Go type MessageMetadataPostedEvent (inner_events.go, line 445). -/
def MessageMetadataPostedEvent : GoType :=
  .struct [
    ("Type", "type", .string),
    ("AppId", "app_id", .string),
    ("BotId", "bot_id", .string),
    ("UserId", "user_id", .string),
    ("TeamId", "team_id", .string),
    ("ChannelId", "channel_id", .string),
    ("Metadata", "metadata", (.ptr (.foreign "slack.SlackMetadata"))),
    ("MessageTimestamp", "message_ts", .string),
    ("EventTimestamp", "event_ts", .string)]

/-- Go type MessageMetadataUpdatedEvent (inner_events.go, line 458). -/
def MessageMetadataUpdatedEvent : GoType :=
  .struct [
    ("Type", "type", .string),
    ("ChannelId", "channel_id", .string),
    ("EventTimestamp", "event_ts", .string),
    ("PreviousMetadata", "previous_metadata", (.ptr (.foreign "slack.SlackMetadata"))),
    ("AppId", "app_id", .string),
    ("BotId", "bot_id", .string),
    ("UserId", "user_id", .string),
    ("TeamId", "team_id", .string),
    ("MessageTimestamp", "message_ts", .string),
    ("Metadata", "metadata", (.ptr (.foreign "slack.SlackMetadata")))]

/-- Go type MessageMetadataDeletedEvent (inner_events.go, line 472). -/
def MessageMetadataDeletedEvent : GoType :=
  .struct [
    ("Type", "type", .string),
    ("ChannelId", "channel_id", .string),
    ("EventTimestamp", "event_ts", .string),
    ("PreviousMetadata", "previous_metadata", (.ptr (.foreign "slack.SlackMetadata"))),
    ("AppId", "app_id", .string),
    ("BotId", "bot_id", .string),
    ("UserId", "user_id", .string),
    ("TeamId", "team_id", .string),
    ("MessageTimestamp", "message_ts", .string),
    ("DeletedTimestamp", "deleted_ts", .string)]

/-- Go type TeamAccessGrantedEvent (inner_events.go, line 588). -/
def TeamAccessGrantedEvent : GoType :=
  .struct [
    ("Type", "type", .string),
    ("TeamIDs", "team_ids", (.slice .string))]

/-- Go type TeamAccessRevokedEvent (inner_events.go, line 594). -/
def TeamAccessRevokedEvent : GoType :=
  .struct [
    ("Type", "type", .string),
    ("TeamIDs", "team_ids", (.slice .string))]

/-- Go type UserProfileChangedEvent (inner_events.go, line 600). -/
def UserProfileChangedEvent : GoType :=
  .struct [
    ("User", "user", (.ptr (.foreign "slack.User"))),
    ("CacheTs", "cache_ts", .int),
    ("Type", "type", .string),
    ("EventTs", "event_ts", .string)]

/-- Go type SlackEventIcon (inner_events.go, line 663). -/
def SlackEventIcon : GoType :=
  .struct [
    ("ImageDefault", "image_default", .bool),
    ("Image34", "image_34", .string),
    ("Image44", "image_44", .string),
    ("Image68", "image_68", .string),
    ("Image88", "image_88", .string),
    ("Image102", "image_102", .string),
    ("Image132", "image_132", .string),
    ("Image230", "image_230", .string)]

/-- Go type SlackEventTeam (inner_events.go, line 650). -/
def SlackEventTeam : GoType :=
  .struct [
    ("ID", "id", .string),
    ("Name", "name", .string),
    ("Icon", "icon", (.ptr SlackEventIcon)),
    ("AvatarBaseURL", "avatar_base_url", .string),
    ("IsVerified", "is_verified", .bool),
    ("Domain", "domain", .string),
    ("DateCreated", "date_created", .int),
    ("RequiresSponsorship", "requires_sponsorship", .bool)]

/-- Go type SlackEventUser (inner_events.go, line 675). -/
def SlackEventUser : GoType :=
  .struct [
    ("ID", "id", .string),
    ("TeamID", "team_id", .string),
    ("Name", "name", .string),
    ("Updated", "updated", .int),
    ("Profile", "profile", (.ptr (.foreign "slack.UserProfile"))),
    ("WhoCanShareContactCard", "who_can_share_contact_card", .string)]

/-- Go type SharedInvite (inner_events.go, line 693). -/
def SharedInvite : GoType :=
  .struct [
    ("ID", "id", .string),
    ("DateCreated", "date_created", .int),
    ("DateInvalid", "date_invalid", .int),
    ("InvitingTeam", "inviting_team", (.ptr SlackEventTeam)),
    ("InvitingUser", "inviting_user", (.ptr SlackEventUser)),
    ("RecipientEmail", "recipient_email", .string),
    ("RecipientUserID", "recipient_user_id", .string),
    ("IsSponsored", "is_sponsored", .bool),
    ("IsExternalLimited", "is_external_limited", .bool)]

/-- Go type SharedChannelInviteApprovedEvent (inner_events.go, line 608). -/
def SharedChannelInviteApprovedEvent : GoType :=
  .struct [
    ("Type", "type", .string),
    ("Invite", "invite", (.ptr SharedInvite)),
    ("Channel", "channel", (.ptr (.foreign "slack.Conversation"))),
    ("ApprovingTeamID", "approving_team_id", .string),
    ("TeamsInChannel", "teams_in_channel", (.slice (.ptr SlackEventTeam))),
    ("ApprovingUser", "approving_user", (.ptr SlackEventUser)),
    ("EventTs", "event_ts", .string)]

/-- Go type SharedChannel (inner_events.go, line 685). -/
def SharedChannel : GoType :=
  .struct [
    ("ID", "id", .string),
    ("IsPrivate", "is_private", .bool),
    ("IsIm", "is_im", .bool),
    ("Name", "name", .string)]

/-- Go type SharedChannelInviteAcceptedEvent (inner_events.go, line 619). -/
def SharedChannelInviteAcceptedEvent : GoType :=
  .struct [
    ("Type", "type", .string),
    ("ApprovalRequired", "approval_required", .bool),
    ("Invite", "invite", (.ptr SharedInvite)),
    ("Channel", "channel", (.ptr SharedChannel)),
    ("TeamsInChannel", "teams_in_channel", (.slice (.ptr SlackEventTeam))),
    ("AcceptingUser", "accepting_user", (.ptr SlackEventUser)),
    ("EventTs", "event_ts", .string),
    ("RequiresSponsorship", "requires_sponsorship", .bool)]

/-- Go type SharedChannelInviteDeclinedEvent (inner_events.go, line 631). -/
def SharedChannelInviteDeclinedEvent : GoType :=
  .struct [
    ("Type", "type", .string),
    ("Invite", "invite", (.ptr SharedInvite)),
    ("Channel", "channel", (.ptr SharedChannel)),
    ("DecliningTeamID", "declining_team_id", .string),
    ("TeamsInChannel", "teams_in_channel", (.slice (.ptr SlackEventTeam))),
    ("DecliningUser", "declining_user", (.ptr SlackEventUser)),
    ("EventTs", "event_ts", .string)]

/-- Go type SharedChannelInviteReceivedEvent (inner_events.go, line 642). -/
def SharedChannelInviteReceivedEvent : GoType :=
  .struct [
    ("Type", "type", .string),
    ("Invite", "invite", (.ptr SharedInvite)),
    ("Channel", "channel", (.ptr SharedChannel)),
    ("EventTs", "event_ts", .string)]

/-- Go type ChannelHistoryChangedEvent (inner_events.go, line 705). -/
def ChannelHistoryChangedEvent : GoType :=
  .struct [
    ("Type", "type", .string),
    ("Latest", "latest", .string),
    ("Ts", "ts", .string),
    ("EventTs", "event_ts", .string)]

/-- Go type CommandsChangedEvent (inner_events.go, line 712). -/
def CommandsChangedEvent : GoType :=
  .struct [
    ("Type", "type", .string),
    ("EventTs", "event_ts", .string)]

/-- Go type DndUpdatedEvent (inner_events.go, line 717). -/
def DndUpdatedEvent : GoType :=
  .struct [
    ("Type", "type", .string),
    ("User", "user", .string),
    ("DndStatus", "dnd_status", (.struct [
        ("DndEnabled", "dnd_enabled", .bool),
        ("NextDndStartTs", "next_dnd_start_ts", .int64),
        ("NextDndEndTs", "next_dnd_end_ts", .int64),
        ("SnoozeEnabled", "snooze_enabled", .bool),
        ("SnoozeEndtime", "snooze_endtime", .int64)]))]

/-- Go type DndUpdatedUserEvent (inner_events.go, line 729). -/
def DndUpdatedUserEvent : GoType :=
  .struct [
    ("Type", "type", .string),
    ("User", "user", .string),
    ("DndStatus", "dnd_status", (.struct [
        ("DndEnabled", "dnd_enabled", .bool),
        ("NextDndStartTs", "next_dnd_start_ts", .int64),
        ("NextDndEndTs", "next_dnd_end_ts", .int64)]))]

/-- Go type EmailDomainChangedEvent (inner_events.go, line 739). -/
def EmailDomainChangedEvent : GoType :=
  .struct [
    ("Type", "type", .string),
    ("EmailDomain", "email_domain", .string),
    ("EventTs", "event_ts", .string)]

/-- Go type GroupCloseEvent (inner_events.go, line 745). -/
def GroupCloseEvent : GoType :=
  .struct [
    ("Type", "type", .string),
    ("User", "user", .string),
    ("Channel", "channel", .string)]

/-- Go type GroupHistoryChangedEvent (inner_events.go, line 751). -/
def GroupHistoryChangedEvent : GoType :=
  .struct [
    ("Type", "type", .string),
    ("Latest", "latest", .string),
    ("Ts", "ts", .string),
    ("EventTs", "event_ts", .string)]

/-- Go type GroupOpenEvent (inner_events.go, line 758). -/
def GroupOpenEvent : GoType :=
  .struct [
    ("Type", "type", .string),
    ("User", "user", .string),
    ("Channel", "channel", .string)]

/-- Go type ImCloseEvent (inner_events.go, line 764). -/
def ImCloseEvent : GoType :=
  .struct [
    ("Type", "type", .string),
    ("User", "user", .string),
    ("Channel", "channel", .string)]

/-- Go type ImCreatedEvent (inner_events.go, line 770). -/
def ImCreatedEvent : GoType :=
  .struct [
    ("Type", "type", .string),
    ("User", "user", .string),
    ("Channel", "channel", (.struct [
        ("ID", "id", .string)]))]

/-- Go type ImHistoryChangedEvent (inner_events.go, line 778). -/
def ImHistoryChangedEvent : GoType :=
  .struct [
    ("Type", "type", .string),
    ("Latest", "latest", .string),
    ("Ts", "ts", .string),
    ("EventTs", "event_ts", .string)]

/-- Go type ImOpenEvent (inner_events.go, line 785). -/
def ImOpenEvent : GoType :=
  .struct [
    ("Type", "type", .string),
    ("User", "user", .string),
    ("Channel", "channel", .string)]

/-- Go type SubTeam (inner_events.go, line 791). -/
def SubTeam : GoType :=
  .struct [
    ("ID", "id", .string),
    ("TeamID", "team_id", .string),
    ("IsUsergroup", "is_usergroup", .bool),
    ("Name", "name", .string),
    ("Description", "description", .string),
    ("Handle", "handle", .string),
    ("IsExternal", "is_external", .bool),
    ("DateCreate", "date_create", .int64),
    ("DateUpdate", "date_update", .int64),
    ("DateDelete", "date_delete", .int64),
    ("AutoType", "auto_type", .string),
    ("CreatedBy", "created_by", .string),
    ("UpdatedBy", "updated_by", .string),
    ("DeletedBy", "deleted_by", .string),
    ("Prefs", "prefs", (.struct [
        ("Channels", "channels", (.slice .string)),
        ("Groups", "groups", (.slice .string))])),
    ("Users", "users", (.slice .string)),
    ("UserCount", "user_count", .int)]

/-- Go type SubteamCreatedEvent (inner_events.go, line 814). -/
def SubteamCreatedEvent : GoType :=
  .struct [
    ("Type", "type", .string),
    ("Subteam", "subteam", SubTeam)]

/-- Go type SubteamMembersChangedEvent (inner_events.go, line 819). -/
def SubteamMembersChangedEvent : GoType :=
  .struct [
    ("Type", "type", .string),
    ("SubteamID", "subteam_id", .string),
    ("TeamID", "team_id", .string),
    ("DatePreviousUpdate", "date_previous_update", .int),
    ("DateUpdate", "date_update", .int64),
    ("AddedUsers", "added_users", (.slice .string)),
    ("AddedUsersCount", "added_users_count", .int),
    ("RemovedUsers", "removed_users", (.slice .string)),
    ("RemovedUsersCount", "removed_users_count", .int)]

/-- Go type SubteamSelfAddedEvent (inner_events.go, line 831). -/
def SubteamSelfAddedEvent : GoType :=
  .struct [
    ("Type", "type", .string),
    ("SubteamID", "subteam_id", .string)]

/-- Go type SubteamSelfRemovedEvent (inner_events.go, line 836). -/
def SubteamSelfRemovedEvent : GoType :=
  .struct [
    ("Type", "type", .string),
    ("SubteamID", "subteam_id", .string)]

/-- Go type SubteamUpdatedEvent (inner_events.go, line 841). -/
def SubteamUpdatedEvent : GoType :=
  .struct [
    ("Type", "type", .string),
    ("Subteam", "subteam", SubTeam)]

/-- Go type TeamDomainChangeEvent (inner_events.go, line 846). -/
def TeamDomainChangeEvent : GoType :=
  .struct [
    ("Type", "type", .string),
    ("URL", "url", .string),
    ("Domain", "domain", .string),
    ("TeamID", "team_id", .string)]

/-- Go type TeamRenameEvent (inner_events.go, line 853). -/
def TeamRenameEvent : GoType :=
  .struct [
    ("Type", "type", .string),
    ("Name", "name", .string),
    ("TeamID", "team_id", .string)]

/-- Go type Profile (inner_events.go, line 1084). -/
def Profile : GoType :=
  .struct [
    ("Title", "title", .string),
    ("Phone", "phone", .string),
    ("Skype", "skype", .string),
    ("RealName", "real_name", .string),
    ("RealNameNormalized", "real_name_normalized", .string),
    ("DisplayName", "display_name", .string),
    ("DisplayNameNormalized", "display_name_normalized", .string),
    ("Fields", "fields", .mapIface),
    ("StatusText", "status_text", .string),
    ("StatusEmoji", "status_emoji", .string),
    ("StatusEmojiDisplayInfo", "status_emoji_display_info", (.slice .iface)),
    ("StatusExpiration", "status_expiration", .int),
    ("AvatarHash", "avatar_hash", .string),
    ("FirstName", "first_name", .string),
    ("LastName", "last_name", .string),
    ("Image24", "image_24", .string),
    ("Image32", "image_32", .string),
    ("Image48", "image_48", .string),
    ("Image72", "image_72", .string),
    ("Image192", "image_192", .string),
    ("Image512", "image_512", .string),
    ("StatusTextCanonical", "status_text_canonical", .string),
    ("Team", "team", .string)]

/-- Go type User (inner_events.go, line 1060). -/
def User : GoType :=
  .struct [
    ("ID", "id", .string),
    ("TeamID", "team_id", .string),
    ("Name", "name", .string),
    ("Deleted", "deleted", .bool),
    ("Color", "color", .string),
    ("RealName", "real_name", .string),
    ("TZ", "tz", .string),
    ("TZLabel", "tz_label", .string),
    ("TZOffset", "tz_offset", .int),
    ("Profile", "profile", Profile),
    ("IsAdmin", "is_admin", .bool),
    ("IsOwner", "is_owner", .bool),
    ("IsPrimaryOwner", "is_primary_owner", .bool),
    ("IsRestricted", "is_restricted", .bool),
    ("IsUltraRestricted", "is_ultra_restricted", .bool),
    ("IsBot", "is_bot", .bool),
    ("IsAppUser", "is_app_user", .bool),
    ("Updated", "updated", .int64),
    ("IsEmailConfirmed", "is_email_confirmed", .bool),
    ("WhoCanShareContactCard", "who_can_share_contact_card", .string),
    ("Locale", "locale", .string)]

/-- Go type UserChangeEvent (inner_events.go, line 859). -/
def UserChangeEvent : GoType :=
  .struct [
    ("Type", "type", .string),
    ("User", "user", User),
    ("CacheTS", "cache_ts", .int64),
    ("EventTS", "event_ts", .string)]

/-- Go type AppDeletedEvent (inner_events.go, line 866). -/
def AppDeletedEvent : GoType :=
  .struct [
    ("Type", "type", .string),
    ("AppID", "app_id", .string),
    ("AppName", "app_name", .string),
    ("AppOwnerID", "app_owner_id", .string),
    ("TeamID", "team_id", .string),
    ("TeamDomain", "team_domain", .string),
    ("EventTs", "event_ts", .string)]

/-- Go type AppInstalledEvent (inner_events.go, line 876). -/
def AppInstalledEvent : GoType :=
  .struct [
    ("Type", "type", .string),
    ("AppID", "app_id", .string),
    ("AppName", "app_name", .string),
    ("AppOwnerID", "app_owner_id", .string),
    ("UserID", "user_id", .string),
    ("TeamID", "team_id", .string),
    ("TeamDomain", "team_domain", .string),
    ("EventTs", "event_ts", .string)]

/-- Go type AppRequestedEvent (inner_events.go, line 887). -/
def AppRequestedEvent : GoType :=
  .struct [
    ("Type", "type", .string),
    ("AppRequest", "app_request", (.struct [
        ("ID", "id", .string),
        ("App", "app", (.struct [
            ("ID", "id", .string),
            ("Name", "name", .string),
            ("Description", "description", .string),
            ("HelpURL", "help_url", .string),
            ("PrivacyPolicyURL", "privacy_policy_url", .string),
            ("AppHomepageURL", "app_homepage_url", .string),
            ("AppDirectoryURL", "app_directory_url", .string),
            ("IsAppDirectoryApproved", "is_app_directory_approved", .bool),
            ("IsInternal", "is_internal", .bool),
            ("AdditionalInfo", "additional_info", .string)])),
        ("PreviousResolution", "previous_resolution", (.struct [
            ("Status", "status", .string),
            ("Scopes", "scopes", (.slice (.struct [
                ("Name", "name", .string),
                ("Description", "description", .string),
                ("IsSensitive", "is_sensitive", .bool),
                ("TokenType", "token_type", .string)])))])),
        ("User", "user", (.struct [
            ("ID", "id", .string),
            ("Name", "name", .string),
            ("Email", "email", .string)])),
        ("Team", "team", (.struct [
            ("ID", "id", .string),
            ("Name", "name", .string),
            ("Domain", "domain", .string)])),
        ("Enterprise", "enterprise", .iface),
        ("Scopes", "scopes", (.slice (.struct [
            ("Name", "name", .string),
            ("Description", "description", .string),
            ("IsSensitive", "is_sensitive", .bool),
            ("TokenType", "token_type", .string)]))),
        ("Message", "message", .string)]))]

/-- Go type AppUninstalledTeamEvent (inner_events.go, line 933). -/
def AppUninstalledTeamEvent : GoType :=
  .struct [
    ("Type", "type", .string),
    ("AppID", "app_id", .string),
    ("AppName", "app_name", .string),
    ("AppOwnerID", "app_owner_id", .string),
    ("UserID", "user_id", .string),
    ("TeamID", "team_id", .string),
    ("TeamDomain", "team_domain", .string),
    ("EventTs", "event_ts", .string)]

/-- Go type CallRejectedEvent (inner_events.go, line 944). -/
def CallRejectedEvent : GoType :=
  .struct [
    ("Token", "token", .string),
    ("TeamID", "team_id", .string),
    ("APIAppID", "api_app_id", .string),
    ("Event", "event", (.struct [
        ("Type", "type", .string),
        ("CallID", "call_id", .string),
        ("UserID", "user_id", .string),
        ("ChannelID", "channel_id", .string),
        ("ExternalUniqueID", "external_unique_id", .string)])),
    ("Type", "type", .string),
    ("EventID", "event_id", .string),
    ("AuthedUsers", "authed_users", (.slice .string))]

/-- Go type ChannelSharedEvent (inner_events.go, line 960). -/
def ChannelSharedEvent : GoType :=
  .struct [
    ("Type", "type", .string),
    ("ConnectedTeamID", "connected_team_id", .string),
    ("Channel", "channel", .string),
    ("EventTs", "event_ts", .string)]

/-- Go type FileCreatedEvent (inner_events.go, line 967). -/
def FileCreatedEvent : GoType :=
  .struct [
    ("Type", "type", .string),
    ("FileID", "file_id", .string),
    ("File", "file", (.struct [
        ("ID", "id", .string)]))]

/-- Go type FilePublicEvent (inner_events.go, line 975). -/
def FilePublicEvent : GoType :=
  .struct [
    ("Type", "type", .string),
    ("FileID", "file_id", .string),
    ("File", "file", (.struct [
        ("ID", "id", .string)]))]

/-- Go type FunctionExecutedEvent (inner_events.go, line 983). -/
def FunctionExecutedEvent : GoType :=
  .struct [
    ("Type", "type", .string),
    ("Function", "function", (.struct [
        ("ID", "id", .string),
        ("CallbackID", "callback_id", .string),
        ("Title", "title", .string),
        ("Description", "description", .string),
        ("Type", "type", .string),
        ("InputParameters", "input_parameters", (.slice (.struct [
            ("Type", "type", .string),
            ("Name", "name", .string),
            ("Description", "description", .string),
            ("Title", "title", .string),
            ("IsRequired", "is_required", .bool)]))),
        ("OutputParameters", "output_parameters", (.slice (.struct [
            ("Type", "type", .string),
            ("Name", "name", .string),
            ("Description", "description", .string),
            ("Title", "title", .string),
            ("IsRequired", "is_required", .bool)]))),
        ("AppID", "app_id", .string),
        ("DateCreated", "date_created", .int64),
        ("DateUpdated", "date_updated", .int64),
        ("DateDeleted", "date_deleted", .int64)])),
    ("Inputs", "inputs", .mapIface),
    ("FunctionExecutionID", "function_execution_id", .string),
    ("WorkflowExecutionID", "workflow_execution_id", .string),
    ("EventTs", "event_ts", .string),
    ("BotAccessToken", "bot_access_token", .string)]

/-- Go type InviteRequestedEvent (inner_events.go, line 1017). -/
def InviteRequestedEvent : GoType :=
  .struct [
    ("Type", "type", .string),
    ("InviteRequest", "invite_request", (.struct [
        ("ID", "id", .string),
        ("Email", "email", .string),
        ("DateCreated", "date_created", .int64),
        ("RequesterIDs", "requester_ids", (.slice .string)),
        ("ChannelIDs", "channel_ids", (.slice .string)),
        ("InviteType", "invite_type", .string),
        ("RealName", "real_name", .string),
        ("DateExpire", "date_expire", .int64),
        ("RequestReason", "request_reason", .string),
        ("Team", "team", (.struct [
            ("ID", "id", .string),
            ("Name", "name", .string),
            ("Domain", "domain", .string)]))]))]

/-- Go type StarAddedEvent (inner_events.go, line 1037). -/
def StarAddedEvent : GoType :=
  .struct [
    ("Type", "type", .string),
    ("User", "user", .string),
    ("Item", "item", (.struct [])),
    ("EventTS", "event_ts", .string)]

/-- Go type StarRemovedEvent (inner_events.go, line 1045). -/
def StarRemovedEvent : GoType :=
  .struct [
    ("Type", "type", .string),
    ("User", "user", .string),
    ("Item", "item", (.struct [])),
    ("EventTS", "event_ts", .string)]

/-- Go type UserHuddleChangedEvent (inner_events.go, line 1053). -/
def UserHuddleChangedEvent : GoType :=
  .struct [
    ("Type", "type", .string),
    ("User", "user", User),
    ("CacheTS", "cache_ts", .int64),
    ("EventTS", "event_ts", .string)]

/-- Go type UserStatusChangedEvent (inner_events.go, line 1110). -/
def UserStatusChangedEvent : GoType :=
  .struct [
    ("Type", "type", .string),
    ("User", "user", User),
    ("CacheTS", "cache_ts", .int64),
    ("EventTS", "event_ts", .string)]

/-- Go type Actor (inner_events.go, line 1117). -/
def Actor : GoType :=
  .struct [
    ("ID", "id", .string),
    ("Name", "name", .string),
    ("IsBot", "is_bot", .bool),
    ("TeamID", "team_id", .string),
    ("Timezone", "timezone", .string),
    ("RealName", "real_name", .string),
    ("DisplayName", "display_name", .string)]

/-- Go type TargetUser (inner_events.go, line 1127). -/
def TargetUser : GoType :=
  .struct [
    ("Email", "email", .string),
    ("InviteID", "invite_id", .string)]

/-- Go type TeamIcon (inner_events.go, line 1132). -/
def TeamIcon : GoType :=
  .struct [
    ("Image34", "image_34", .string),
    ("ImageDefault", "image_default", .bool)]

/-- Go type Team (inner_events.go, line 1137). -/
def Team : GoType :=
  .struct [
    ("ID", "id", .string),
    ("Icon", "icon", TeamIcon),
    ("Name", "name", .string),
    ("Domain", "domain", .string),
    ("IsVerified", "is_verified", .bool),
    ("DateCreated", "date_created", .int64),
    ("AvatarBaseURL", "avatar_base_url", .string),
    ("RequiresSponsorship", "requires_sponsorship", .bool)]

/-- Go type SharedChannelInviteRequestedEvent (inner_events.go, line 1148). -/
def SharedChannelInviteRequestedEvent : GoType :=
  .struct [
    ("Actor", "actor", Actor),
    ("ChannelID", "channel_id", .string),
    ("EventType", "event_type", .string),
    ("ChannelName", "channel_name", .string),
    ("ChannelType", "channel_type", .string),
    ("TargetUsers", "target_users", (.slice TargetUser)),
    ("TeamsInChannel", "teams_in_channel", (.slice Team)),
    ("IsExternalLimited", "is_external_limited", .bool),
    ("ChannelDateCreated", "channel_date_created", .int64),
    ("ChannelMessageLatestCounted", "channel_message_latest_counted_timestamp", .int64)]


/-- Embedding of `func (e *MessageEvent) UnmarshalJSON(data []byte) error`: the
receiver before the call is `e`, the result is the receiver afterwards and the
returned error. `MessageEventAlias` has the shape of `MessageEvent` and no
methods, so the first pass is the plain struct decoder. -/
def MessageEvent.UnmarshalJSON (P : slack.Pkg) (data : Option JSON) (e : GoVal) : Result :=
  let alias0 := zero P.foreign (MessageEvent P)
  match Unmarshal P.foreign data (MessageEvent P) alias0 with
  | (_, some err) => (e, some err)
  | (alias1, none) =>
    let e := alias1
    if isNil (e.field "Message") then
      let msg := zero P.foreign (slack.Msg P)
      match Unmarshal P.foreign data (slack.Msg P) msg with
      | (_, some err) => (e, some err)
      | (msg, none) => (e.withField "Message" (.ptr (some msg)), none)
    else (e, none)

/-- Go type EventsAPIType (inner_events.go, line 1161). -/
abbrev EventsAPIType := String

def AppDeleted : EventsAPIType := "app_deleted"
def AppHomeOpened : EventsAPIType := "app_home_opened"
def AppInstalled : EventsAPIType := "app_installed"
def AppMention : EventsAPIType := "app_mention"
def AppRequested : EventsAPIType := "app_requested"
def AppUninstalled : EventsAPIType := "app_uninstalled"
def AppUninstalledTeam : EventsAPIType := "app_uninstalled_team"
def AssistantThreadContextChanged : EventsAPIType := "assistant_thread_context_changed"
def AssistantThreadStarted : EventsAPIType := "assistant_thread_started"
def CallRejected : EventsAPIType := "call_rejected"
def ChannelArchive : EventsAPIType := "channel_archive"
def ChannelCreated : EventsAPIType := "channel_created"
def ChannelDeleted : EventsAPIType := "channel_deleted"
def ChannelHistoryChanged : EventsAPIType := "channel_history_changed"
def ChannelIDChanged : EventsAPIType := "channel_id_changed"
def ChannelLeft : EventsAPIType := "channel_left"
def ChannelRename : EventsAPIType := "channel_rename"
def ChannelShared : EventsAPIType := "channel_shared"
def ChannelUnarchive : EventsAPIType := "channel_unarchive"
def ChannelUnshared : EventsAPIType := "channel_unshared"
def CommandsChanged : EventsAPIType := "commands_changed"
def DndUpdated : EventsAPIType := "dnd_updated"
def DndUpdatedUser : EventsAPIType := "dnd_updated_user"
def EmailDomainChanged : EventsAPIType := "email_domain_changed"
def EmojiChanged : EventsAPIType := "emoji_changed"
def FileChange : EventsAPIType := "file_change"
def FileCreated : EventsAPIType := "file_created"
def FileDeleted : EventsAPIType := "file_deleted"
def FilePublic : EventsAPIType := "file_public"
def FileShared : EventsAPIType := "file_shared"
def FileUnshared : EventsAPIType := "file_unshared"
def FunctionExecuted : EventsAPIType := "function_executed"
def GridMigrationFinished : EventsAPIType := "grid_migration_finished"
def GridMigrationStarted : EventsAPIType := "grid_migration_started"
def GroupArchive : EventsAPIType := "group_archive"
def GroupClose : EventsAPIType := "group_close"
def GroupDeleted : EventsAPIType := "group_deleted"
def GroupHistoryChanged : EventsAPIType := "group_history_changed"
def GroupLeft : EventsAPIType := "group_left"
def GroupOpen : EventsAPIType := "group_open"
def GroupRename : EventsAPIType := "group_rename"
def GroupUnarchive : EventsAPIType := "group_unarchive"
def ImClose : EventsAPIType := "im_close"
def ImCreated : EventsAPIType := "im_created"
def ImHistoryChanged : EventsAPIType := "im_history_changed"
def ImOpen : EventsAPIType := "im_open"
def InviteRequested : EventsAPIType := "invite_requested"
def LinkShared : EventsAPIType := "link_shared"
def MemberJoinedChannel : EventsAPIType := "member_joined_channel"
def MemberLeftChannel : EventsAPIType := "member_left_channel"
def Message : EventsAPIType := "message"
def MessageMetadataDeleted : EventsAPIType := "message_metadata_deleted"
def MessageMetadataPosted : EventsAPIType := "message_metadata_posted"
def MessageMetadataUpdated : EventsAPIType := "message_metadata_updated"
def PinAdded : EventsAPIType := "pin_added"
def PinRemoved : EventsAPIType := "pin_removed"
def ReactionAdded : EventsAPIType := "reaction_added"
def ReactionRemoved : EventsAPIType := "reaction_removed"
def SharedChannelInviteAccepted : EventsAPIType := "shared_channel_invite_accepted"
def SharedChannelInviteApproved : EventsAPIType := "shared_channel_invite_approved"
def SharedChannelInviteDeclined : EventsAPIType := "shared_channel_invite_declined"
def SharedChannelInviteReceived : EventsAPIType := "shared_channel_invite_received"
def SharedChannelInviteRequested : EventsAPIType := "shared_channel_invite_requested"
def StarAdded : EventsAPIType := "star_added"
def StarRemoved : EventsAPIType := "star_removed"
def SubteamCreated : EventsAPIType := "subteam_created"
def SubteamMembersChanged : EventsAPIType := "subteam_members_changed"
def SubteamSelfAdded : EventsAPIType := "subteam_self_added"
def SubteamSelfRemoved : EventsAPIType := "subteam_self_removed"
def SubteamUpdated : EventsAPIType := "subteam_updated"
def TeamAccessGranted : EventsAPIType := "team_access_granted"
def TeamAccessRevoked : EventsAPIType := "team_access_revoked"
def TeamDomainChange : EventsAPIType := "team_domain_change"
def TeamJoin : EventsAPIType := "team_join"
def TeamRename : EventsAPIType := "team_rename"
def TokensRevoked : EventsAPIType := "tokens_revoked"
def UserChange : EventsAPIType := "user_change"
def UserHuddleChanged : EventsAPIType := "user_huddle_changed"
def UserProfileChanged : EventsAPIType := "user_profile_changed"
def UserStatusChanged : EventsAPIType := "user_status_changed"
def WorkflowStepExecute : EventsAPIType := "workflow_step_execute"

/-- The constants of type EventsAPIType, in declaration order. -/
def declaredEventsAPITypes : List EventsAPIType :=
  [AppDeleted,
   AppHomeOpened,
   AppInstalled,
   AppMention,
   AppRequested,
   AppUninstalled,
   AppUninstalledTeam,
   AssistantThreadContextChanged,
   AssistantThreadStarted,
   CallRejected,
   ChannelArchive,
   ChannelCreated,
   ChannelDeleted,
   ChannelHistoryChanged,
   ChannelIDChanged,
   ChannelLeft,
   ChannelRename,
   ChannelShared,
   ChannelUnarchive,
   ChannelUnshared,
   CommandsChanged,
   DndUpdated,
   DndUpdatedUser,
   EmailDomainChanged,
   EmojiChanged,
   FileChange,
   FileCreated,
   FileDeleted,
   FilePublic,
   FileShared,
   FileUnshared,
   FunctionExecuted,
   GridMigrationFinished,
   GridMigrationStarted,
   GroupArchive,
   GroupClose,
   GroupDeleted,
   GroupHistoryChanged,
   GroupLeft,
   GroupOpen,
   GroupRename,
   GroupUnarchive,
   ImClose,
   ImCreated,
   ImHistoryChanged,
   ImOpen,
   InviteRequested,
   LinkShared,
   MemberJoinedChannel,
   MemberLeftChannel,
   Message,
   MessageMetadataDeleted,
   MessageMetadataPosted,
   MessageMetadataUpdated,
   PinAdded,
   PinRemoved,
   ReactionAdded,
   ReactionRemoved,
   SharedChannelInviteAccepted,
   SharedChannelInviteApproved,
   SharedChannelInviteDeclined,
   SharedChannelInviteReceived,
   SharedChannelInviteRequested,
   StarAdded,
   StarRemoved,
   SubteamCreated,
   SubteamMembersChanged,
   SubteamSelfAdded,
   SubteamSelfRemoved,
   SubteamUpdated,
   TeamAccessGranted,
   TeamAccessRevoked,
   TeamDomainChange,
   TeamJoin,
   TeamRename,
   TokensRevoked,
   UserChange,
   UserHuddleChanged,
   UserProfileChanged,
   UserStatusChanged,
   WorkflowStepExecute]

/-- EventsAPIInnerEventMapping maps inner event types to their struct
implementations; an entry is the key, the name of the registered struct type and
its shape (the registered value is the zero value of that type). -/
def EventsAPIInnerEventMapping (P : slack.Pkg) :
    List (EventsAPIType × String × GoType) :=
  [(AppDeleted, "AppDeletedEvent", AppDeletedEvent),
   (AppHomeOpened, "AppHomeOpenedEvent", AppHomeOpenedEvent),
   (AppInstalled, "AppInstalledEvent", AppInstalledEvent),
   (AppMention, "AppMentionEvent", AppMentionEvent),
   (AppRequested, "AppRequestedEvent", AppRequestedEvent),
   (AppUninstalled, "AppUninstalledEvent", AppUninstalledEvent),
   (AppUninstalledTeam, "AppUninstalledTeamEvent", AppUninstalledTeamEvent),
   (AssistantThreadContextChanged, "AssistantThreadContextChangedEvent", AssistantThreadContextChangedEvent),
   (AssistantThreadStarted, "AssistantThreadStartedEvent", AssistantThreadStartedEvent),
   (CallRejected, "CallRejectedEvent", CallRejectedEvent),
   (ChannelArchive, "ChannelArchiveEvent", ChannelArchiveEvent),
   (ChannelCreated, "ChannelCreatedEvent", ChannelCreatedEvent),
   (ChannelDeleted, "ChannelDeletedEvent", ChannelDeletedEvent),
   (ChannelHistoryChanged, "ChannelHistoryChangedEvent", ChannelHistoryChangedEvent),
   (ChannelIDChanged, "ChannelIDChangedEvent", ChannelIDChangedEvent),
   (ChannelLeft, "ChannelLeftEvent", ChannelLeftEvent),
   (ChannelRename, "ChannelRenameEvent", ChannelRenameEvent),
   (ChannelShared, "ChannelSharedEvent", ChannelSharedEvent),
   (ChannelUnarchive, "ChannelUnarchiveEvent", ChannelUnarchiveEvent),
   (ChannelUnshared, "ChannelUnsharedEvent", ChannelUnsharedEvent),
   (CommandsChanged, "CommandsChangedEvent", CommandsChangedEvent),
   (DndUpdated, "DndUpdatedEvent", DndUpdatedEvent),
   (DndUpdatedUser, "DndUpdatedUserEvent", DndUpdatedUserEvent),
   (EmailDomainChanged, "EmailDomainChangedEvent", EmailDomainChangedEvent),
   (EmojiChanged, "EmojiChangedEvent", EmojiChangedEvent),
   (FileChange, "FileChangeEvent", FileChangeEvent),
   (FileCreated, "FileCreatedEvent", FileCreatedEvent),
   (FileDeleted, "FileDeletedEvent", FileDeletedEvent),
   (FilePublic, "FilePublicEvent", FilePublicEvent),
   (FileShared, "FileSharedEvent", FileSharedEvent),
   (FileUnshared, "FileUnsharedEvent", FileUnsharedEvent),
   (FunctionExecuted, "FunctionExecutedEvent", FunctionExecutedEvent),
   (GridMigrationFinished, "GridMigrationFinishedEvent", GridMigrationFinishedEvent),
   (GridMigrationStarted, "GridMigrationStartedEvent", GridMigrationStartedEvent),
   (GroupArchive, "GroupArchiveEvent", GroupArchiveEvent),
   (GroupClose, "GroupCloseEvent", GroupCloseEvent),
   (GroupDeleted, "GroupDeletedEvent", GroupDeletedEvent),
   (GroupHistoryChanged, "GroupHistoryChangedEvent", GroupHistoryChangedEvent),
   (GroupLeft, "GroupLeftEvent", GroupLeftEvent),
   (GroupOpen, "GroupOpenEvent", GroupOpenEvent),
   (GroupRename, "GroupRenameEvent", GroupRenameEvent),
   (GroupUnarchive, "GroupUnarchiveEvent", GroupUnarchiveEvent),
   (ImClose, "ImCloseEvent", ImCloseEvent),
   (ImCreated, "ImCreatedEvent", ImCreatedEvent),
   (ImHistoryChanged, "ImHistoryChangedEvent", ImHistoryChangedEvent),
   (ImOpen, "ImOpenEvent", ImOpenEvent),
   (InviteRequested, "InviteRequestedEvent", InviteRequestedEvent),
   (LinkShared, "LinkSharedEvent", LinkSharedEvent),
   (MemberJoinedChannel, "MemberJoinedChannelEvent", MemberJoinedChannelEvent),
   (MemberLeftChannel, "MemberLeftChannelEvent", MemberLeftChannelEvent),
   (Message, "MessageEvent", MessageEvent P),
   (MessageMetadataDeleted, "MessageMetadataDeletedEvent", MessageMetadataDeletedEvent),
   (MessageMetadataPosted, "MessageMetadataPostedEvent", MessageMetadataPostedEvent),
   (MessageMetadataUpdated, "MessageMetadataUpdatedEvent", MessageMetadataUpdatedEvent),
   (PinAdded, "PinAddedEvent", PinAddedEvent),
   (PinRemoved, "PinRemovedEvent", PinRemovedEvent),
   (ReactionAdded, "ReactionAddedEvent", ReactionAddedEvent),
   (ReactionRemoved, "ReactionRemovedEvent", ReactionRemovedEvent),
   (SharedChannelInviteAccepted, "SharedChannelInviteAcceptedEvent", SharedChannelInviteAcceptedEvent),
   (SharedChannelInviteApproved, "SharedChannelInviteApprovedEvent", SharedChannelInviteApprovedEvent),
   (SharedChannelInviteDeclined, "SharedChannelInviteDeclinedEvent", SharedChannelInviteDeclinedEvent),
   (SharedChannelInviteReceived, "SharedChannelInviteReceivedEvent", SharedChannelInviteReceivedEvent),
   (SharedChannelInviteRequested, "SharedChannelInviteRequestedEvent", SharedChannelInviteRequestedEvent),
   (StarAdded, "StarAddedEvent", StarAddedEvent),
   (StarRemoved, "StarRemovedEvent", StarRemovedEvent),
   (SubteamCreated, "SubteamCreatedEvent", SubteamCreatedEvent),
   (SubteamMembersChanged, "SubteamMembersChangedEvent", SubteamMembersChangedEvent),
   (SubteamSelfAdded, "SubteamSelfAddedEvent", SubteamSelfAddedEvent),
   (SubteamSelfRemoved, "SubteamSelfRemovedEvent", SubteamSelfRemovedEvent),
   (SubteamUpdated, "SubteamUpdatedEvent", SubteamUpdatedEvent),
   (TeamAccessGranted, "TeamAccessGrantedEvent", TeamAccessGrantedEvent),
   (TeamAccessRevoked, "TeamAccessRevokedEvent", TeamAccessRevokedEvent),
   (TeamDomainChange, "TeamDomainChangeEvent", TeamDomainChangeEvent),
   (TeamJoin, "TeamJoinEvent", TeamJoinEvent),
   (TeamRename, "TeamRenameEvent", TeamRenameEvent),
   (TokensRevoked, "TokensRevokedEvent", TokensRevokedEvent),
   (UserChange, "UserChangeEvent", UserChangeEvent),
   (UserHuddleChanged, "UserHuddleChangedEvent", UserHuddleChangedEvent),
   (UserProfileChanged, "UserProfileChangedEvent", UserProfileChangedEvent),
   (UserStatusChanged, "UserStatusChangedEvent", UserStatusChangedEvent)]

/-- The map lookup `EventsAPIInnerEventMapping[d]`. -/
def lookupInnerEvent (P : slack.Pkg) (d : EventsAPIType) : Option (String × GoType) :=
  (EventsAPIInnerEventMapping P).lookup d

/-- Embedding of `json.Unmarshal` into a fresh value of a registered type, given
by its name and shape: `MessageEvent` is the one type of the catalogue that
declares `UnmarshalJSON`, every other type is decoded by the plain struct
decoder. -/
def unmarshalRegistered (P : slack.Pkg) (target : String × GoType) (data : Option JSON) : Result :=
  if target.1 = "MessageEvent" then
    MessageEvent.UnmarshalJSON P data (zero P.foreign target.2)
  else
    Unmarshal P.foreign data target.2 (zero P.foreign target.2)

/-- The errors of the envelope decoder (spec, section 7). -/
inductive DecodeError where
  | MalformedFrame
  | MissingDiscriminator
  | ShapeMismatch (err : UnmarshalError)

/-- Modelled from the spec: extraction of the discriminator by the envelope
decoder of section 4.2, whose source is not among the embedded sources. The
frame must be a structured document; its discriminator is the string its "type"
member holds (the last one, as for a decoded field); a document without that
member is a decode error of its own kind. -/
def discriminator : JSON → Except DecodeError EventsAPIType
  | .obj kvs =>
    match (members "type" kvs).getLast? with
    | none => .error .MissingDiscriminator
    | some (.str d) => .ok d
    | some v => .error (.ShapeMismatch (.typeMismatch v.describe))
  | _ => .error .MalformedFrame

/-- The generic fallback event: a value of `EventsAPIInnerEvent` that keeps the
discriminator in `Type` and the raw document, untyped, in `Data`. -/
def fallbackEvent (d : EventsAPIType) (doc : JSON) : GoVal :=
  .struct [("Type", .str d), ("Data", .iface (some doc))]

/-- Modelled from the spec: the envelope decoder `decode(rawFrame)` of section
4.2, whose source (the parser that consults the catalogue) is not among the
embedded sources. It parses the frame, extracts the discriminator and consults
the catalogue; if the discriminator is found, the full document is decoded
against the registered shape; if it is absent, the result is the fallback event
retaining the discriminator and the raw document. -/
def decode (P : slack.Pkg) (data : Option JSON) : Except DecodeError (EventsAPIType × GoVal) :=
  match data with
  | none => .error .MalformedFrame
  | some doc =>
    match discriminator doc with
    | .error err => .error err
    | .ok d =>
      match lookupInnerEvent P d with
      | none => .ok (d, fallbackEvent d doc)
      | some target =>
        match unmarshalRegistered P target (some doc) with
        | (v, none) => .ok (d, v)
        | (_, some err) => .error (.ShapeMismatch err)

/-- The frame of the spec's first scenario. -/
def frameHello : JSON :=
  .obj [("type", .str "message"), ("text", .str "hello"), ("channel", .str "C1")]

/-- The frame of the spec's second scenario. -/
def frameEdited : JSON :=
  .obj [("type", .str "message"), ("subtype", .str "message_changed"),
    ("message", .obj [("text", .str "edited")])]

/-- A receiver that holds the zero value. -/
def zeroEvent : GoVal := zero slack.minimalPkg.foreign (MessageEvent slack.minimalPkg)

/-- A frame tagged shared_channel_invite_requested. -/
def frameInviteRequested : List (String × JSON) :=
  [("type", .str "shared_channel_invite_requested"), ("channel_id", .str "C1")]

end slackevents


namespace slackevents
open json

/-- The comparison `x != nil` for a pointer value; `none` for a value that is
not a pointer. -/
def neNil : GoVal → Option Bool
  | .ptr p => some p.isSome
  | _ => none

/-- The selector `p.g` on a pointer `p` to a struct: `none` when `p` is nil (the
dereference panics) or the pointee has no such field. -/
def selectThroughPtr (p : GoVal) (g : String) : Option GoVal :=
  match p with
  | .ptr (some m) => m.field g
  | _ => none

/-- Embedding of `func (e MessageEvent) IsEdited() bool` (inner_events.go, line
582). The result is `none` when the evaluation panics. The right operand of `&&`
is evaluated only when the left operand is true. -/
def MessageEvent.IsEdited (e : GoVal) : Option Bool :=
  match e.field "Message" with
  | none => none
  | some msg =>
    match neNil msg with
    | none => none
    | some false => some false
    | some true =>
      match selectThroughPtr msg "Edited" with
      | none => none
      | some edited => neNil edited

end slackevents

namespace regexp

/-- Embedding of `regexp.MatchString(pattern, s)`: the pattern is compiled, an
invalid pattern gives an error whatever `s` is, a valid one is matched against
`s`. The compiler of the standard library is the parameter `compile`. -/
def MatchString (compile : String → Option (String → Bool)) (pattern s : String) :
    Bool × Option String :=
  match compile pattern with
  | none => (false, some "error parsing regexp")
  | some re => (re s, none)

end regexp

namespace slack
open json

/-- Modelled from the spec: the struct `slack.Message`, declared in the root
package and not among the embedded sources. It embeds `slack.Msg`, whose fields
slacktest/server.go assigns on it (`Type`, `Channel`, `User`, `Text`,
`Timestamp`); every further field is in `rest`. -/
def Message (P : Pkg) (rest : List (String × String × GoType)) : GoType :=
  .struct ((Msg P).fields ++ rest)

/-- Modelled from the spec: the type `slack.MessageEvent` of the root package,
into which slacktest/server.go decodes the recorded bodies and whose `Text` it
reads: a message frame, of the shape of `slack.Message`, with no decoder of its
own. -/
def MessageEvent (P : Pkg) (rest : List (String × String × GoType)) : GoType :=
  Message P rest

end slack

namespace slacktest
open json

/-- Go type messageCollection. Its declaration is not among the embedded
sources; server.go reads its field `messages`. -/
structure messageCollection where
  messages : List String

/-- Modelled from the spec: `observe` of the Observation Log (section 4.5)
appends a frame body. -/
def messageCollection.observe (c : messageCollection) (body : String) : messageCollection :=
  { messages := c.messages ++ [body] }

/-- Modelled from the spec: `all` of the Observation Log (section 4.5), the
method `get`, returns the recorded bodies in order. -/
def messageCollection.get (c : messageCollection) : List String :=
  c.messages

/-- The handlers a route can be bound to: the handlers NewTestServer registers
by default, and the handlers a caller supplies. -/
inductive Handler where
  | conversationsInfoHandler
  | wsHandler
  | rtmStartHandler
  | RTMConnectHandler
  | postMessageHandler
  | createConversationHandler
  | setConversationTopicHandler
  | setConversationPurposeHandler
  | renameConversationHandler
  | inviteConversationHandler
  | inviteSharedConversationHandler
  | usersInfoHandler
  | botsInfoHandler
  | authTestHandler
  | reactionAddHandler
  | appsConnectionsOpenHandler
  | custom (name : String)
deriving DecidableEq

/-- What server.go takes from outside the embedded sources: the declarations of
the root package, the further fields of `slack.Message`, the reading of bytes as
a JSON document and `json.Marshal` of the standard library, the compiler of
regular expressions, whether `http.ServeMux` accepts a pattern given the
patterns it holds (it panics otherwise, as on a pattern registered twice), the
clock, and the constants declared in other files. -/
structure Env where
  pkg : slack.Pkg
  messageRest : List (String × String × GoType)
  parse : String → Option JSON
  Marshal : GoVal → Except String String
  compile : String → Option (String → Bool)
  muxAccepts : List String → String → Bool
  unixNow : Int
  defaultBotName : String
  defaultBotID : String
  defaultNonBotUserID : String
  TYPE_MESSAGE : String

/-- Go type Server (the fields server.go reads and writes in the functions
embedded here). `registered` is the set of patterns, `mux` the routes of the
`http.ServeMux`, each bound to the handler that was passed to `Handle`, the
latest registration first. The two collections are the two objects
NewTestServer allocates. -/
structure Server where
  registered : List String
  mux : List (String × Handler)
  seenInboundMessages : messageCollection
  seenOutboundMessages : messageCollection
  BotName : String
  BotID : String
  ServerAddr : String

/-- A Binder receives the server as a `Customize`, whose one method is
`Handle`: its effect is the sequence of `Handle` calls it makes. -/
abbrev Binder := List (String × Handler)

/-- Embedding of `(*http.ServeMux).Handle`: it registers the handler for the
pattern, or panics (`none`) when the mux does not accept the pattern. -/
def muxHandle (E : Env) (mux : List (String × Handler)) (pattern : String) (handler : Handler) :
    Option (List (String × Handler)) :=
  if E.muxAccepts (mux.map Prod.fst) pattern then some ((pattern, handler) :: mux) else none

/-- The handler the mux serves a pattern with. -/
def Server.route (sts : Server) (pattern : String) : Option Handler :=
  sts.mux.lookup pattern

/-- Embedding of `func (sts *Server) Handle(pattern string, handler
http.HandlerFunc)` (server.go, line 125); `none` when the mux panics. -/
def Server.Handle (E : Env) (sts : Server) (pattern : String) (handler : Handler) :
    Option Server :=
  if pattern ∈ sts.registered then some sts
  else
    match muxHandle E sts.mux pattern handler with
    | none => none
    | some mux => some { sts with registered := pattern :: sts.registered, mux := mux }

/-- The calls `s.Handle(...)` NewTestServer makes after the binders, in order. -/
def defaultRoutes : List (String × Handler) :=
  [("/conversations.info", .conversationsInfoHandler),
   ("/ws", .wsHandler),
   ("/rtm.start", .rtmStartHandler),
   ("/rtm.connect", .RTMConnectHandler),
   ("/chat.postMessage", .postMessageHandler),
   ("/conversations.create", .createConversationHandler),
   ("/conversations.setTopic", .setConversationTopicHandler),
   ("/conversations.setPurpose", .setConversationPurposeHandler),
   ("/conversations.rename", .renameConversationHandler),
   ("/conversations.invite", .inviteConversationHandler),
   ("/conversations.inviteShared", .inviteSharedConversationHandler),
   ("/users.info", .usersInfoHandler),
   ("/users.lookupByEmail", .usersInfoHandler),
   ("/bots.info", .botsInfoHandler),
   ("/auth.test", .authTestHandler),
   ("/reactions.add", .reactionAddHandler),
   ("/apps.connections.open", .appsConnectionsOpenHandler)]

/-- A sequence of `Handle` calls on a server. -/
def Server.handleAll (E : Env) : Option Server → List (String × Handler) → Option Server
  | s, [] => s
  | none, _ => none
  | some sts, (pattern, handler) :: rest =>
    Server.handleAll E (sts.Handle E pattern handler) rest

/-- The value `&Server{...}` NewTestServer starts from (server.go, line 74): no
pattern, no route, two empty collections. -/
def newServer : Server :=
  { registered := [], mux := [], seenInboundMessages := { messages := [] },
    seenOutboundMessages := { messages := [] }, BotName := "", BotID := "", ServerAddr := "" }

/-- Embedding of `func NewTestServer(custom ...Binder) *Server` (server.go, line
68): the server starts with no route and two empty collections, the binders run
in order, then the default routes are registered, then the address and the bot
identity are set. `addr` is the address of the listener. -/
def NewTestServer (E : Env) (addr : String) (custom : List Binder) : Option Server :=
  match Server.handleAll E (Server.handleAll E (some newServer) custom.flatten) defaultRoutes with
  | none => none
  | some s =>
    some { s with ServerAddr := addr, BotName := E.defaultBotName, BotID := E.defaultBotID }

/-- Embedding of `GetSeenInboundMessages` (server.go, line 148). -/
def Server.GetSeenInboundMessages (sts : Server) : List String :=
  sts.seenInboundMessages.get

/-- Embedding of `GetSeenOutboundMessages` (server.go, line 153). -/
def Server.GetSeenOutboundMessages (sts : Server) : List String :=
  sts.seenOutboundMessages.get

/-- Embedding of `evt := &slack.MessageEvent{}; err := json.Unmarshal([]byte(m),
evt)`: the event decoded from a recorded body, and the error. -/
def unmarshalMessageEvent (E : Env) (m : String) : Result :=
  Unmarshal E.pkg.foreign (E.parse m) (slack.MessageEvent E.pkg E.messageRest)
    (zero E.pkg.foreign (slack.MessageEvent E.pkg E.messageRest))

/-- The string `evt.Text`. -/
def eventText (evt : GoVal) : String :=
  match evt.field "Text" with
  | some (.str t) => t
  | _ => ""

/-- The loop of `SawOutgoingMessage` over the bodies. -/
def SawOutgoingMessage.loop (E : Env) (msg : String) : List String → Bool
  | [] => false
  | m :: rest =>
    match unmarshalMessageEvent E m with
    | (_, some _) => SawOutgoingMessage.loop E msg rest
    | (evt, none) =>
      if eventText evt = msg then true else SawOutgoingMessage.loop E msg rest

/-- Embedding of `func (sts *Server) SawOutgoingMessage(msg string) bool`
(server.go, line 158). -/
def Server.SawOutgoingMessage (E : Env) (sts : Server) (msg : String) : Bool :=
  SawOutgoingMessage.loop E msg sts.seenOutboundMessages.get

/-- The loop of `SawOutgoingMessageMatching` over the bodies. -/
def SawOutgoingMessageMatching.loop (E : Env) (pattern : String) : List String → Bool
  | [] => false
  | m :: rest =>
    match unmarshalMessageEvent E m with
    | (_, some _) => SawOutgoingMessageMatching.loop E pattern rest
    | (evt, none) =>
      match regexp.MatchString E.compile pattern (eventText evt) with
      | (true, none) => true
      | _ => SawOutgoingMessageMatching.loop E pattern rest

/-- Embedding of `func (sts *Server) SawOutgoingMessageMatching(pattern string)
bool` (server.go, line 175). -/
def Server.SawOutgoingMessageMatching (E : Env) (sts : Server) (pattern : String) : Bool :=
  SawOutgoingMessageMatching.loop E pattern sts.seenOutboundMessages.messages

/-- The loop of `SawIncomingMessage` over the bodies. -/
def SawIncomingMessage.loop (E : Env) (msg : String) : List String → Bool
  | [] => false
  | m :: rest =>
    match unmarshalMessageEvent E m with
    | (_, some _) => SawIncomingMessage.loop E msg rest
    | (evt, none) =>
      if eventText evt = msg then true else SawIncomingMessage.loop E msg rest

/-- Embedding of `func (sts *Server) SawIncomingMessage(msg string) bool`
(server.go, line 193). -/
def Server.SawIncomingMessage (E : Env) (sts : Server) (msg : String) : Bool :=
  SawIncomingMessage.loop E msg sts.seenInboundMessages.messages

/-- The loop of `SawIncomingMessageMatching` over the bodies. -/
def SawIncomingMessageMatching.loop (E : Env) (pattern : String) : List String → Bool
  | [] => false
  | m :: rest =>
    match unmarshalMessageEvent E m with
    | (_, some _) => SawIncomingMessageMatching.loop E pattern rest
    | (evt, none) =>
      match regexp.MatchString E.compile pattern (eventText evt) with
      | (true, none) => true
      | _ => SawIncomingMessageMatching.loop E pattern rest

/-- Embedding of `func (sts *Server) SawIncomingMessageMatching(pattern string)
bool` (server.go, line 212). -/
def Server.SawIncomingMessageMatching (E : Env) (sts : Server) (pattern : String) : Bool :=
  SawIncomingMessageMatching.loop E pattern sts.seenInboundMessages.messages

/-- The message `m` the three `Send...` functions build: a zero `slack.Message`
with `Type`, `Channel`, `User`, `Text` and `Timestamp` assigned. -/
def newMessage (E : Env) (channel user text : String) : GoVal :=
  ((((((zero E.pkg.foreign (slack.Message E.pkg E.messageRest)).withField "Type"
    (.str E.TYPE_MESSAGE)).withField "Channel" (.str channel)).withField "User"
    (.str user)).withField "Text" (.str text)).withField "Timestamp"
    (.str (toString E.unixNow)))

/-- The tail shared by the three `Send...` functions: the message is marshalled;
on an error the function logs and returns, otherwise the body is observed (and
handed to a goroutine that queues it for the websocket, which is not part of the
state). -/
def Server.sendMessage (E : Env) (sts : Server) (m : GoVal) : Server :=
  match E.Marshal m with
  | .error _ => sts
  | .ok j => { sts with seenOutboundMessages := sts.seenOutboundMessages.observe j }

/-- Embedding of `func (sts *Server) SendMessageToBot(channel, msg string)`
(server.go, line 250). -/
def Server.SendMessageToBot (E : Env) (sts : Server) (channel msg : String) : Server :=
  sts.sendMessage E
    (newMessage E channel E.defaultNonBotUserID ("<@" ++ sts.BotID ++ "> " ++ msg))

/-- Embedding of `func (sts *Server) SendDirectMessageToBot(msg string)`
(server.go, line 269). -/
def Server.SendDirectMessageToBot (E : Env) (sts : Server) (msg : String) : Server :=
  sts.sendMessage E (newMessage E "D024BE91L" E.defaultNonBotUserID msg)

/-- Embedding of `func (sts *Server) SendMessageToChannel(channel, msg string)`
(server.go, line 288). -/
def Server.SendMessageToChannel (E : Env) (sts : Server) (channel msg : String) : Server :=
  sts.sendMessage E (newMessage E channel E.defaultNonBotUserID msg)

/-- Embedding of `func (sts *Server) SendToWebsocket(s string)` (server.go, line
308): the string is observed as is (and handed to a goroutine that queues it for
the websocket, which is not part of the state). -/
def Server.SendToWebsocket (sts : Server) (s : String) : Server :=
  { sts with seenOutboundMessages := sts.seenOutboundMessages.observe s }

/-- Embedding of `func (sts *Server) SetBotName(b string)` (server.go, line
314). -/
def Server.SetBotName (sts : Server) (b : String) : Server :=
  { sts with BotName := b }

/-- The raw string `joinMsg` of `SendBotChannelInvite` (server.go, line 320). -/
def channelJoinMsg : String :=
    "\n" ++
    "\t\x7b\n" ++
    "\t\t\t\"type\":\"channel_joined\",\n" ++
    "\t\t\t\"channel\":\n" ++
    "\t\t\t\t\t\x7b\n" ++
    "\t\t\t\t\t\t\t\"id\": \"C024BE92L\",\n" ++
    "\t\t\t\t\t\t\t\"name\": \"bot-playground\",\n" ++
    "\t\t\t\t\t\t\t\"is_channel\": true,\n" ++
    "\t\t\t\t\t\t\t\"created\": 1360782804,\n" ++
    "\t\t\t\t\t\t\t\"creator\": \"W012A3CDE\",\n" ++
    "\t\t\t\t\t\t\t\"is_archived\": false,\n" ++
    "\t\t\t\t\t\t\t\"is_general\": true,\n" ++
    "\t\t\t\t\t\t\t\"members\": [\n" ++
    "\t\t\t\t\t\t\t\t\t\"W012A3CDE\"\n" ++
    "\t\t\t\t\t\t\t],\n" ++
    "\t\t\t\t\t\t\t\"topic\": \x7b\n" ++
    "\t\t\t\t\t\t\t\t\t\"value\": \"Fun times\",\n" ++
    "\t\t\t\t\t\t\t\t\t\"creator\": \"W012A3CDE\",\n" ++
    "\t\t\t\t\t\t\t\t\t\"last_set\": 1360782804\n" ++
    "\t\t\t\t\t\t\t\x7d,\n" ++
    "\t\t\t\t\t\t\t\"purpose\": \x7b\n" ++
    "\t\t\t\t\t\t\t\t\t\"value\": \"This channel is for fun\",\n" ++
    "\t\t\t\t\t\t\t\t\t\"creator\": \"W012A3CDE\",\n" ++
    "\t\t\t\t\t\t\t\t\t\"last_set\": 1360782804\n" ++
    "\t\t\t\t\t\t\t\x7d,\n" ++
    "\t\t\t\t\t\t\t\"is_member\": true\n" ++
    "\t\t\t\t\t\x7d\n" ++
    "\t\x7d"

/-- The raw string `joinMsg` of `SendBotGroupInvite` (server.go, line 353). -/
def groupJoinMsg : String :=
    "\n" ++
    "\t\x7b\n" ++
    "\t\t\t\"type\":\"group_joined\",\n" ++
    "\t\t\t\"channel\":\n" ++
    "\t\t\t\x7b\n" ++
    "\t\t\t\t\"id\": \"G024BE91L\",\n" ++
    "\t\t\t\t\"name\": \"secretplans\",\n" ++
    "\t\t\t\t\"is_group\": true,\n" ++
    "\t\t\t\t\"created\": 1360782804,\n" ++
    "\t\t\t\t\"creator\": \"W012A3CDE\",\n" ++
    "\t\t\t\t\"is_archived\": false,\n" ++
    "\t\t\t\t\"members\": [\n" ++
    "\t\t\t\t\t\"W012A3CDE\"\n" ++
    "\t\t\t\t],\n" ++
    "\t\t\t\t\"topic\": \x7b\n" ++
    "\t\t\t\t\t\"value\": \"Secret plans on hold\",\n" ++
    "\t\t\t\t\t\"creator\": \"W012A3CDE\",\n" ++
    "\t\t\t\t\t\"last_set\": 1360782804\n" ++
    "\t\t\t\t\x7d,\n" ++
    "\t\t\t\t\"purpose\": \x7b\n" ++
    "\t\t\t\t\t\"value\": \"Discuss secret plans that no-one else should know\",\n" ++
    "\t\t\t\t\t\"creator\": \"W012A3CDE\",\n" ++
    "\t\t\t\t\t\"last_set\": 1360782804\n" ++
    "\t\t\t\t\x7d\n" ++
    "\t\t\t\x7d\n" ++
    "\t\x7d"

/-- Embedding of `func (sts *Server) SendBotChannelInvite()` (server.go, line
319). -/
def Server.SendBotChannelInvite (sts : Server) : Server :=
  sts.SendToWebsocket channelJoinMsg

/-- Embedding of `func (sts *Server) SendBotGroupInvite()` (server.go, line
352). -/
def Server.SendBotGroupInvite (sts : Server) : Server :=
  sts.SendToWebsocket groupJoinMsg

end slacktest

namespace slacktest
open json

/-- Whether a recorded body decodes as a message event whose `Text` matches the
pattern, the pattern being valid. -/
def bodyMatches (E : Env) (pattern : String) (m : String) : Bool :=
  match unmarshalMessageEvent E m with
  | (_, some _) => false
  | (evt, none) =>
    match regexp.MatchString E.compile pattern (eventText evt) with
    | (true, none) => true
    | _ => false

/-- The pattern query of the Observation Log as a scan of the whole log, with no
early return. -/
def matchesWholeLog (E : Env) (pattern : String) (log : List String) : Bool :=
  log.foldl (fun found m => found || bodyMatches E pattern m) false

/-- A binder that registers its own handler for "/users.info". -/
def customUsersInfo : Binder :=
  [("/users.info", Handler.custom "mine")]

/-- A frame whose nested message carries an `edited` object. -/
def frameWithEdited : JSON :=
  .obj [("type", .str "message"), ("subtype", .str "message_changed"),
    ("message", .obj [("text", .str "new"), ("edited", .obj [("user", .str "U1"),
      ("ts", .str "1")])])]

end slacktest

namespace json

/-- A lower-case hexadecimal digit. -/
def hexDigit (n : Nat) : Char :=
  if n < 10 then Char.ofNat (48 + n) else Char.ofNat (87 + n)

/-- The text `json.Marshal` writes for one rune of a string: the quote and the
backslash are escaped with a backslash, the control characters with their short
form or as `\u00XX`, the characters `<`, `>` and `&` as `\u00XX` (HTML
escaping is on by default), U+2028 and U+2029 as `\u202X`. -/
def escapeRune (c : Char) : List Char :=
  if c = '"' then ['\\', '"']
  else if c = '\\' then ['\\', '\\']
  else if c.toNat = 8 then ['\\', 'b']
  else if c.toNat = 12 then ['\\', 'f']
  else if c = '\n' then ['\\', 'n']
  else if c = '\r' then ['\\', 'r']
  else if c = '\t' then ['\\', 't']
  else if c.toNat < 32 ∨ c = '<' ∨ c = '>' ∨ c = '&' then
    ['\\', 'u', '0', '0', hexDigit (c.toNat / 16), hexDigit (c.toNat % 16)]
  else if c.toNat = 0x2028 ∨ c.toNat = 0x2029 then
    ['\\', 'u', '2', '0', '2', hexDigit (c.toNat % 16)]
  else [c]

/-- The text of a JSON string. -/
def renderString (s : String) : List Char :=
  '"' :: (s.data.flatMap escapeRune ++ ['"'])

mutual
/-- The compact text of a JSON document, as `json.Marshal` writes it. -/
def render : JSON → List Char
  | .null => "null".data
  | .bool true => "true".data
  | .bool false => "false".data
  | .num lit => lit.data
  | .str s => renderString s
  | .arr xs => '[' :: (renderElems xs ++ [']'])
  | .obj kvs => '{' :: (renderMembers kvs ++ ['}'])
/-- The elements of an array, separated by commas. -/
def renderElems : List JSON → List Char
  | [] => []
  | [x] => render x
  | x :: y :: rest => render x ++ ',' :: renderElems (y :: rest)
/-- The members of an object, separated by commas. -/
def renderMembers : List (String × JSON) → List Char
  | [] => []
  | [(k, v)] => renderString k ++ ':' :: render v
  | (k, v) :: kv :: rest => renderString k ++ ':' :: render v ++ ',' :: renderMembers (kv :: rest)
end

/-- JSON white space. -/
def isSpace (c : Char) : Bool :=
  c = ' ' || c = '\t' || c = '\r' || c = '\n'

/-- The input after its leading white space. -/
def skipSpace : List Char → List Char
  | [] => []
  | c :: cs => if isSpace c then skipSpace cs else c :: cs

/-- The value of a hexadecimal digit. -/
def hexValue (c : Char) : Option Nat :=
  if '0'.toNat ≤ c.toNat ∧ c.toNat ≤ '9'.toNat then some (c.toNat - 48)
  else if 'a'.toNat ≤ c.toNat ∧ c.toNat ≤ 'f'.toNat then some (c.toNat - 87)
  else if 'A'.toNat ≤ c.toNat ∧ c.toNat ≤ 'F'.toNat then some (c.toNat - 55)
  else none

/-- The code unit written by four hexadecimal digits. -/
def hex4 (a b c d : Char) : Option Nat :=
  match hexValue a, hexValue b, hexValue c, hexValue d with
  | some x, some y, some z, some w => some (((x * 16 + y) * 16 + z) * 16 + w)
  | _, _, _, _ => none

/-- The rune of a code unit that stands alone: a surrogate decodes as U+FFFD. -/
def runeOfUnit (u : Nat) : Char :=
  if 0xD800 ≤ u ∧ u < 0xE000 then Char.ofNat 0xFFFD else Char.ofNat u

/-- The rest of a JSON string after its opening quote: the string read up to the
closing quote, and the input after it. Control characters and unknown escapes are
syntax errors; a `\u` escape of a surrogate pair is one rune. -/
def parseStringBody : Nat → List Char → List Char → Option (String × List Char)
  | 0, _, _ => none
  | _ + 1, [], _ => none
  | fuel + 1, c :: cs, acc =>
    if c = '"' then some (String.mk acc.reverse, cs)
    else if c = '\\' then
      match cs with
      | [] => none
      | e :: cs1 =>
        if e = '"' then parseStringBody fuel cs1 ('"' :: acc)
        else if e = '\\' then parseStringBody fuel cs1 ('\\' :: acc)
        else if e = '/' then parseStringBody fuel cs1 ('/' :: acc)
        else if e = 'b' then parseStringBody fuel cs1 (Char.ofNat 8 :: acc)
        else if e = 'f' then parseStringBody fuel cs1 (Char.ofNat 12 :: acc)
        else if e = 'n' then parseStringBody fuel cs1 ('\n' :: acc)
        else if e = 'r' then parseStringBody fuel cs1 ('\r' :: acc)
        else if e = 't' then parseStringBody fuel cs1 ('\t' :: acc)
        else if e = 'u' then
          match cs1 with
          | a :: b :: c1 :: d :: cs2 =>
            match hex4 a b c1 d with
            | none => none
            | some u =>
              if 0xD800 ≤ u ∧ u < 0xDC00 then
                match cs2 with
                | '\\' :: 'u' :: a2 :: b2 :: c2 :: d2 :: cs3 =>
                  match hex4 a2 b2 c2 d2 with
                  | none => none
                  | some l =>
                    if 0xDC00 ≤ l ∧ l < 0xE000 then
                      parseStringBody fuel cs3
                        (Char.ofNat (0x10000 + (u - 0xD800) * 0x400 + (l - 0xDC00)) :: acc)
                    else parseStringBody fuel cs2 (Char.ofNat 0xFFFD :: acc)
                | _ => parseStringBody fuel cs2 (Char.ofNat 0xFFFD :: acc)
              else parseStringBody fuel cs2 (runeOfUnit u :: acc)
          | _ => none
        else none
    else if c.toNat < 32 then none
    else parseStringBody fuel cs (c :: acc)

/-- A run of decimal digits at the head of the input, and the input after it. -/
def takeDigits : List Char → List Char × List Char
  | [] => ([], [])
  | c :: cs =>
    if c.isDigit then ((takeDigits cs).1.cons c, (takeDigits cs).2) else ([], c :: cs)

/-- A JSON number literal at the head of the input: an optional minus sign, an
integer part without a leading zero, an optional fraction and an optional
exponent. The result is the text of the literal and the input after it. -/
def parseNumber (cs : List Char) : Option (List Char × List Char) :=
  let sign := match cs with
    | '-' :: _ => ['-']
    | _ => []
  let cs0 := cs.drop sign.length
  let ip := takeDigits cs0
  if ip.1 = [] then none
  else if ip.1.head? = some '0' ∧ ip.1.length ≠ 1 then none
  else
    let fr := match ip.2 with
      | '.' :: cs1 => if (takeDigits cs1).1 = [] then none
        else some ('.' :: (takeDigits cs1).1, (takeDigits cs1).2)
      | _ => some ([], ip.2)
    match fr with
    | none => none
    | some (ftext, cs2) =>
      let ex := match cs2 with
        | e :: cs3 =>
          if e = 'e' ∨ e = 'E' then
            let sg := match cs3 with
              | '+' :: _ => ['+']
              | '-' :: _ => ['-']
              | _ => []
            let ds := takeDigits (cs3.drop sg.length)
            if ds.1 = [] then none else some (e :: (sg ++ ds.1), ds.2)
          else some ([], cs2)
        | [] => some ([], cs2)
      match ex with
      | none => none
      | some (etext, cs4) => some (sign ++ ip.1 ++ ftext ++ etext, cs4)

/-- Whether the input starts with the given characters; the input after them. -/
def stripChars : List Char → List Char → Option (List Char)
  | [], cs => some cs
  | _ :: _, [] => none
  | p :: ps, c :: cs => if p = c then stripChars ps cs else none

mutual
/-- A JSON value at the head of the input (after white space), and the input
after it. The fuel bounds the number of nested calls. -/
def parseValue : Nat → List Char → Option (JSON × List Char)
  | 0, _ => none
  | fuel + 1, cs =>
    match skipSpace cs with
    | [] => none
    | c :: rest =>
      if c = '{' then
        match skipSpace rest with
        | '}' :: rest1 => some (.obj [], rest1)
        | _ =>
          match parseMembers fuel rest with
          | none => none
          | some (kvs, rest1) => some (.obj kvs, rest1)
      else if c = '[' then
        match skipSpace rest with
        | ']' :: rest1 => some (.arr [], rest1)
        | _ =>
          match parseElems fuel rest with
          | none => none
          | some (xs, rest1) => some (.arr xs, rest1)
      else if c = '"' then
        match parseStringBody (rest.length + 1) rest [] with
        | none => none
        | some (s, rest1) => some (.str s, rest1)
      else if c = 't' then (stripChars "rue".data rest).map (fun r => (JSON.bool true, r))
      else if c = 'f' then (stripChars "alse".data rest).map (fun r => (JSON.bool false, r))
      else if c = 'n' then (stripChars "ull".data rest).map (fun r => (JSON.null, r))
      else
        match parseNumber (c :: rest) with
        | none => none
        | some (lit, rest1) => some (.num (String.mk lit), rest1)
/-- The elements of an array up to its closing bracket. -/
def parseElems : Nat → List Char → Option (List JSON × List Char)
  | 0, _ => none
  | fuel + 1, cs =>
    match parseValue fuel cs with
    | none => none
    | some (x, rest) =>
      match skipSpace rest with
      | ']' :: rest1 => some ([x], rest1)
      | ',' :: rest1 =>
        match parseElems fuel rest1 with
        | none => none
        | some (xs, rest2) => some (x :: xs, rest2)
      | _ => none
/-- The members of an object up to its closing brace. -/
def parseMembers : Nat → List Char → Option (List (String × JSON) × List Char)
  | 0, _ => none
  | fuel + 1, cs =>
    match skipSpace cs with
    | '"' :: rest =>
      match parseStringBody (rest.length + 1) rest [] with
      | none => none
      | some (k, rest1) =>
        match skipSpace rest1 with
        | ':' :: rest2 =>
          match parseValue fuel rest2 with
          | none => none
          | some (v, rest3) =>
            match skipSpace rest3 with
            | '}' :: rest4 => some ([(k, v)], rest4)
            | ',' :: rest4 =>
              match parseMembers fuel rest4 with
              | none => none
              | some (kvs, rest5) => some ((k, v) :: kvs, rest5)
            | _ => none
        | _ => none
    | _ => none
end

/-- The reading of a text as one JSON document: `none` when the text is not a
JSON value surrounded by optional white space. -/
def parse (s : String) : Option JSON :=
  match parseValue (s.length + 1) s.data with
  | none => none
  | some (j, rest) => if skipSpace rest = [] then some j else none

/-- Whether `json.Marshal` leaves a value out under `omitempty`: false, 0, a nil
pointer or interface, and an empty string, slice or map. -/
def isEmptyValue : GoVal → Bool
  | .str s => s = ""
  | .bool b => !b
  | .int n => n = 0
  | .iface v => v.isNone
  | .map m => (m.getD []).isEmpty
  | .ptr p => p.isNone
  | .slice _ len _ => len = 0
  | .struct _ => false

/-- The members `json.Marshal` writes for the fields of a struct, in declaration
order: a field whose JSON name is in `omitted` (it is tagged `omitempty`) is left
out when its value is empty; `enc` is the encoder of the field values, given the
JSON name and the type of the field. -/
def marshalFields (omitted : List String) (enc : String → GoType → GoVal → JSON)
    (vals : List (String × GoVal)) : List (String × String × GoType) → List (String × JSON)
  | [] => []
  | (g, n, t) :: rest =>
    match getField g vals with
    | none => marshalFields omitted enc vals rest
    | some v =>
      if n ∈ omitted ∧ isEmptyValue v then marshalFields omitted enc vals rest
      else (n, enc n t v) :: marshalFields omitted enc vals rest

/-- The document `json.Marshal` writes for a string, a boolean, an integer or a
nil pointer. -/
def marshalScalar : GoVal → JSON
  | .str s => .str s
  | .bool b => .bool b
  | .int n => .num (toString n)
  | _ => .null

end json

namespace slack
open json

/-- Modelled from the spec: the struct `SlackMetadata` of the root package, the
type of `Msg.Metadata`; it is not among the embedded sources. It holds an event
type and a payload, neither tagged `omitempty`. -/
def SlackMetadata : GoType :=
  .struct [
    ("EventType", "event_type", .string),
    ("EventPayload", "event_payload", .mapIface)]

/-- Modelled from the spec: a package in which `Msg` declares, beyond the fields
listed in `Msg`, the slice `Attachments` and the four fields `json.Marshal`
writes for every message, whatever they hold: the booleans `ReplaceOriginal`
and `DeleteOriginal`, which are not tagged `omitempty`, and the structs
`Metadata` and `Blocks`, which are never empty. `Attachment` and `Blocks` are
foreign types: a value is empty or keeps the document it was decoded from, and
`null` is decoded to the empty value. -/
def wirePkg : Pkg where
  msgRest := [
    ("Attachments", "attachments", .slice (.foreign "slack.Attachment")),
    ("ReplaceOriginal", "replace_original", .bool),
    ("DeleteOriginal", "delete_original", .bool),
    ("Metadata", "metadata", SlackMetadata),
    ("Blocks", "blocks", .foreign "slack.Blocks")]
  foreign :=
    { zero := fun _ => .iface none,
      unmarshal := fun _ j _ =>
        match j with
        | .null => (.iface none, none)
        | _ => (.iface (some j), none) }

/-- The JSON names of the fields of `Msg`, in the package `wirePkg`, that are
tagged `omitempty` to an effect. -/
def wireOmitempty : List String :=
  ["type", "channel", "user", "text", "ts", "edited", "attachments"]

end slack

namespace json

mutual
/-- The document `json.Marshal` writes for a value of a type that has no encoder
of its own. A struct is written field by field in declaration order, a field
whose JSON name is in `omitted` only when it is not empty; a nil pointer, slice,
map or interface is written `null`; a map is written with its keys sorted. A
foreign value and the content of an interface are written as the document they
keep, a number with the literal it was read from. -/
def marshalValue (omitted : List String) : GoType → GoVal → JSON
  | .struct fields, v =>
    match v with
    | .struct vals => .obj (marshalStruct omitted vals fields)
    | _ => .null
  | .ptr t, v =>
    match v with
    | .ptr (some w) => marshalValue omitted t w
    | _ => .null
  | .slice t, v =>
    match v with
    | .slice false len backing =>
      .arr ((backing.take len).map (fun w => marshalValue omitted t w))
    | _ => .null
  | .mapIface, v =>
    match v with
    | .map (some kvs) => .obj (kvs.insertionSort (fun a b => ¬ b.1 < a.1))
    | _ => .null
  | .iface, v =>
    match v with
    | .iface (some j) => j
    | _ => .null
  | .foreign _, v =>
    match v with
    | .iface (some j) => j
    | _ => .null
  | .string, v => marshalScalar v
  | .bool, v => marshalScalar v
  | .int, v => marshalScalar v
  | .int64, v => marshalScalar v
/-- The members `json.Marshal` writes for the fields of a struct. -/
def marshalStruct (omitted : List String) (vals : List (String × GoVal)) :
    List (String × String × GoType) → List (String × JSON)
  | [] => []
  | (g, n, t) :: rest =>
    match getField g vals with
    | none => marshalStruct omitted vals rest
    | some v =>
      if n ∈ omitted ∧ isEmptyValue v then marshalStruct omitted vals rest
      else (n, marshalValue omitted t v) :: marshalStruct omitted vals rest
end

/-- The UTF-8 encoding of a rune. -/
def encodeRune (c : Char) : List Nat :=
  if c.toNat < 0x80 then [c.toNat]
  else if c.toNat < 0x800 then [0xC0 + c.toNat / 64, 0x80 + c.toNat % 64]
  else if c.toNat < 0x10000 then
    [0xE0 + c.toNat / 4096, 0x80 + c.toNat / 64 % 64, 0x80 + c.toNat % 64]
  else
    [0xF0 + c.toNat / 262144, 0x80 + c.toNat / 4096 % 64, 0x80 + c.toNat / 64 % 64,
      0x80 + c.toNat % 64]

/-- The bytes of a Go string that holds the given text. -/
def utf8Bytes (s : String) : List Nat :=
  s.data.flatMap encodeRune

/-- Whether a byte continues a UTF-8 sequence. -/
def isCont (b : Nat) : Bool :=
  decide (0x80 ≤ b) && decide (b < 0xC0)

/-- Go's `utf8.DecodeRune` at the head of a byte sequence: the rune and the
number of bytes it takes. Bytes that do not start the UTF-8 encoding of a rune
(a stray or missing continuation byte, an overlong form, a surrogate, a value
above U+10FFFF) give U+FFFD and the width 1. -/
def decodeRune : List Nat → Char × Nat
  | [] => (Char.ofNat 0xFFFD, 0)
  | b0 :: rest =>
    if b0 < 0x80 then (Char.ofNat b0, 1)
    else if 0xC2 ≤ b0 ∧ b0 < 0xE0 then
      match rest with
      | b1 :: _ =>
        if isCont b1 then (Char.ofNat ((b0 - 0xC0) * 64 + (b1 - 0x80)), 2)
        else (Char.ofNat 0xFFFD, 1)
      | _ => (Char.ofNat 0xFFFD, 1)
    else if 0xE0 ≤ b0 ∧ b0 < 0xF0 then
      match rest with
      | b1 :: b2 :: _ =>
        if (if b0 = 0xE0 then 0xA0 else 0x80) ≤ b1 ∧ b1 < (if b0 = 0xED then 0xA0 else 0xC0) ∧
            isCont b2 then
          (Char.ofNat ((b0 - 0xE0) * 4096 + (b1 - 0x80) * 64 + (b2 - 0x80)), 3)
        else (Char.ofNat 0xFFFD, 1)
      | _ => (Char.ofNat 0xFFFD, 1)
    else if 0xF0 ≤ b0 ∧ b0 < 0xF5 then
      match rest with
      | b1 :: b2 :: b3 :: _ =>
        if (if b0 = 0xF0 then 0x90 else 0x80) ≤ b1 ∧ b1 < (if b0 = 0xF4 then 0x90 else 0xC0) ∧
            isCont b2 ∧ isCont b3 then
          (Char.ofNat ((b0 - 0xF0) * 262144 + (b1 - 0x80) * 4096 + (b2 - 0x80) * 64 +
            (b3 - 0x80)), 4)
        else (Char.ofNat 0xFFFD, 1)
      | _ => (Char.ofNat 0xFFFD, 1)
    else (Char.ofNat 0xFFFD, 1)

/-- The text `json.Marshal` writes between the quotes for a Go string given as
its bytes: each rune escaped as `escapeRune` does, and `\ufffd` in place of every
byte that is not part of the UTF-8 encoding of a rune. The fuel bounds the
number of runes. -/
def quoteRunes : Nat → List Nat → List Char
  | 0, _ => []
  | _ + 1, [] => []
  | fuel + 1, b :: bs =>
    (if (decodeRune (b :: bs)).1 = Char.ofNat 0xFFFD ∧ (decodeRune (b :: bs)).2 = 1 then
        ['\\', 'u', 'f', 'f', 'f', 'd']
      else escapeRune (decodeRune (b :: bs)).1) ++
      quoteRunes fuel ((b :: bs).drop (decodeRune (b :: bs)).2)

/-- The text of a JSON string for a Go string given as its bytes. -/
def quoteBytes (bs : List Nat) : List Char :=
  '"' :: (quoteRunes bs.length bs ++ ['"'])

end json

namespace json

mutual
/-- Whether a document is built from `null`, booleans, strings and objects alone. -/
def plain : JSON → Bool
  | .null => true
  | .bool _ => true
  | .str _ => true
  | .num _ => false
  | .arr _ => false
  | .obj kvs => plainMembers kvs
/-- Whether every member holds a document built so. -/
def plainMembers : List (String × JSON) → Bool
  | [] => true
  | (_, v) :: rest => plain v && plainMembers rest
end

end json

namespace slacktest
open json

/-- Modelled from the spec: `json.Marshal` of a `slack.Message` of the package
`slack.wirePkg`, a struct with no encoder of its own that embeds `slack.Msg`;
the result is the compact text of the document. -/
def marshalMessage (m : GoVal) : Except String String :=
  match m with
  | .struct _ =>
    .ok (String.mk (render
      (marshalValue slack.wireOmitempty (slack.Message slack.wirePkg []) m)))
  | _ => .error "json: unsupported value"

/-- The environment `E` with the declarations of the root package as in
`slack.wirePkg` and with the reader and the writer of JSON text of this
development for `json.Unmarshal` and `json.Marshal`; the compiler of patterns,
the mux, the clock and the constants stay those of `E`. -/
def Env.wire (E : Env) : Env :=
  { E with
    pkg := slack.wirePkg
    messageRest := []
    parse := json.parse
    Marshal := marshalMessage }

/-- A concrete environment: the package `slack.wirePkg`, the reader and the
writer of JSON text of this development, a compiler of patterns that accepts the pattern
"hello" alone (it matches the texts equal to "hello"), a mux that accepts every
non-empty pattern it does not hold yet, and fixed constants. -/
def exampleEnv : Env where
  pkg := slack.wirePkg
  messageRest := []
  parse := parse
  Marshal := marshalMessage
  compile := fun p => if p = "hello" then some (fun s => s = "hello") else none
  muxAccepts := fun held p => decide (p ≠ "" ∧ p ∉ held)
  unixNow := 1700000000
  defaultBotName := "TestSlackBot"
  defaultBotID := "W012A3CDE"
  defaultNonBotUserID := "W012A3CDF"
  TYPE_MESSAGE := "message"

/-- A server with no route and empty logs whose bot is W012A3CDE. -/
def exampleServer : Server :=
  { newServer with BotID := "W012A3CDE" }

/-- The text `json.Marshal` writes in the concrete environment for the message
SendMessageToBot builds from the channel "C1" and the message "hi <b> & bye". -/
def exampleBody : String :=
  "\x7b\"type\":\"message\",\"channel\":\"C1\",\"user\":\"W012A3CDF\"," ++
    "\"text\":\"\\u003c@W012A3CDE\\u003e hi \\u003cb\\u003e \\u0026 bye\"," ++
    "\"ts\":\"1700000000\",\"replace_original\":false,\"delete_original\":false," ++
    "\"metadata\":\x7b\"event_type\":\"\",\"event_payload\":null\x7d,\"blocks\":null\x7d"

/-- Modelled from the spec: `json.Marshal` of the `slack.Message` the `Send...`
functions build, for Go strings given as their bytes: the five strings `Type`,
`Channel`, `User`, `Text` and `Timestamp` under their JSON names, each left out
when empty, then the members written for every message of `slack.wirePkg`. -/
def marshalMessageBytes (typ channel user text ts : List Nat) : String :=
  String.mk ('\x7b' :: (List.intercalate [',']
    (([("type", typ), ("channel", channel), ("user", user), ("text", text), ("ts", ts)].filterMap
        (fun nv => if nv.2 = [] then none else some (renderString nv.1 ++ ':' :: quoteBytes nv.2))) ++
      [renderString "replace_original" ++ ':' :: render (.bool false),
        renderString "delete_original" ++ ':' :: render (.bool false),
        renderString "metadata" ++ ':' :: render
          (.obj [("event_type", .str ""), ("event_payload", .null)]),
        renderString "blocks" ++ ':' :: render .null]) ++ ['\x7d']))

/-- Embedding of `SendMessageToBot` (server.go, line 250) for Go strings given
as their bytes: the message is built from the channel, the user constant, the
text "<@" + BotID + "> " + msg and the clock, it is marshalled, and the body is
observed. The constants and `BotID` are texts. -/
def Server.SendMessageToBotBytes (E : Env) (sts : Server) (channel msg : List Nat) : Server :=
  { sts with
    seenOutboundMessages := sts.seenOutboundMessages.observe
      (marshalMessageBytes (utf8Bytes E.TYPE_MESSAGE) channel (utf8Bytes E.defaultNonBotUserID)
        (utf8Bytes ("<@" ++ sts.BotID ++ "> ") ++ msg) (utf8Bytes (toString E.unixNow))) }

/-- The loop of `SawOutgoingMessage` for a Go string given as its bytes: the
comparison `evt.Text == msg` compares the bytes of the two strings. -/
def SawOutgoingMessageBytes.loop (E : Env) (msg : List Nat) : List String → Bool
  | [] => false
  | m :: rest =>
    match unmarshalMessageEvent E m with
    | (_, some _) => SawOutgoingMessageBytes.loop E msg rest
    | (evt, none) =>
      if utf8Bytes (eventText evt) = msg then true
      else SawOutgoingMessageBytes.loop E msg rest

/-- Embedding of `SawOutgoingMessage` (server.go, line 158) for a Go string given
as its bytes. -/
def Server.SawOutgoingMessageBytes (E : Env) (sts : Server) (msg : List Nat) : Bool :=
  SawOutgoingMessageBytes.loop E msg sts.seenOutboundMessages.get

end slacktest

namespace slacktest

/-- The body `json.Marshal` writes in the concrete environment for the message
SendMessageToBot builds from the channel "C1" and the Go string of the one byte
0xFF. -/
def invalidBody : String :=
  "\x7b\"type\":\"message\",\"channel\":\"C1\",\"user\":\"W012A3CDF\"," ++
    "\"text\":\"\\u003c@W012A3CDE\\u003e \\ufffd\"," ++
    "\"ts\":\"1700000000\",\"replace_original\":false,\"delete_original\":false," ++
    "\"metadata\":\x7b\"event_type\":\"\",\"event_payload\":null\x7d,\"blocks\":null\x7d"

/-- The server after the registration of a new pattern. -/
def Server.withRoute (sts : Server) (pattern : String) (h : Handler) : Server :=
  { sts with registered := pattern :: sts.registered, mux := (pattern, h) :: sts.mux }

end slacktest

namespace slack
open json

/-- Modelled from the spec: the struct `slack.Edited` of the root package, the
type of `Msg.Edited`; it is not among the embedded sources and mirrors `Edited`
of inner_events.go (line 549), a user and a timestamp. -/
def Edited : GoType :=
  .struct [
    ("User", "user", .string),
    ("Timestamp", "ts", .string)]

/-- A package in which `Msg` declares no further field and `slack.Edited` is
decoded as the struct `Edited`; every other foreign type keeps the document it
is decoded from. -/
def editedPkg : Pkg where
  msgRest := []
  foreign :=
    { zero := fun n =>
        if n = "slack.Edited" then zero minimalPkg.foreign Edited else .iface none,
      unmarshal := fun n j cur =>
        if n = "slack.Edited" then unmarshalValue minimalPkg.foreign Edited j cur
        else (.iface (some j), none) }

end slack

namespace slackevents
open json

/-- A deletion notification: a message frame with a subtype and a deleted
timestamp. -/
def frameDeleted : List (String × JSON) :=
  [("type", .str "message"), ("subtype", .str "message_deleted"),
    ("deleted_ts", .str "1700000000.000100")]

end slackevents

namespace slackevents
open json

/-- The JSON names of the fields of `MessageEvent` whose tag carries `omitempty`
(inner_events.go, lines 294 to 317). -/
def MessageEvent.omitempty : List String :=
  ["user_team", "source_team", "message", "root", "previous_message", "deleted_ts",
    "subtype", "bot_id", "username", "icons"]

/-- The JSON names of the fields of `Icon` whose tag carries `omitempty`
(inner_events.go, lines 556 and 557). -/
def Icon.omitempty : List String := ["icon_url", "icon_emoji"]

/-- The document `json.Marshal` writes for an `Icon`, a struct of two strings
with no encoder of its own. -/
def marshalIcon (v : GoVal) : JSON :=
  match v with
  | .struct vals =>
    .obj (marshalFields Icon.omitempty (fun _ _ w => marshalScalar w) vals Icon.fields)
  | _ => .null

/-- The document `json.Marshal` writes for the value of one field of a
`MessageEvent`: a string as a string, a nil pointer as `null`, the `Icon` behind
`Icons` as `marshalIcon` does, and the `slack.Msg` behind `Message`, `Root` or
`PreviousMessage` as the encoder `encMsg` of that type does, which lies in the
root package. -/
def marshalEventField (encMsg : GoVal → JSON) (n : String) (_t : GoType) (v : GoVal) : JSON :=
  match v with
  | .ptr (some m) => if n = "icons" then marshalIcon m else encMsg m
  | w => marshalScalar w

/-- The document `json.Marshal` writes for a `MessageEvent`, as a JSON value:
the type declares no `MarshalJSON`, so the fields are written in declaration
order under their JSON names, those tagged `omitempty` only when not empty. -/
def MessageEvent.Marshal (P : slack.Pkg) (encMsg : GoVal → JSON) (e : GoVal) : JSON :=
  match e with
  | .struct vals =>
    .obj (marshalFields MessageEvent.omitempty (marshalEventField encMsg) vals
      (MessageEvent P).fields)
  | _ => .null

/-- An encoder of the `slack.Msg` values of the minimal package: every field is
left out when empty, a string is written as a string, and a foreign value as the
document it keeps. -/
def exampleEncMsg (m : GoVal) : JSON :=
  match m with
  | .struct vals =>
    .obj (marshalFields ["type", "channel", "user", "text", "ts", "edited"]
      (fun _ _ v =>
        match v with
        | .ptr (some (.iface (some j))) => j
        | w => marshalScalar w) vals
      (slack.Msg slack.minimalPkg).fields)
  | _ => .null

/-- The encoder of the `slack.Msg` values of the package `slack.wirePkg`: the
type declares no `MarshalJSON`, so `json.Marshal` writes the fields in
declaration order, those tagged `omitempty` only when not empty. -/
def wireEncMsg (m : GoVal) : JSON :=
  marshalValue slack.wireOmitempty (slack.Msg slack.wirePkg) m

/-- A message frame with the payload at the root and an empty list of
attachments: the object with the members `"type":"message"` and
`"attachments":[]`. -/
def frameEmptyAttachments : JSON :=
  .obj [("type", .str "message"), ("attachments", .arr [])]

/-- The text `json.Marshal` writes for the record decoded from
`frameEmptyAttachments`: the member `attachments` is left out of `message`. -/
def reencodedEmptyAttachments : String :=
  "\x7b\"client_msg_id\":\"\",\"type\":\"message\",\"user\":\"\",\"text\":\"\"," ++
  "\"thread_ts\":\"\",\"ts\":\"\",\"channel\":\"\",\"channel_type\":\"\",\"event_ts\":\"\"," ++
  "\"message\":\x7b\"type\":\"message\",\"replace_original\":false," ++
  "\"delete_original\":false,\"metadata\":\x7b\"event_type\":\"\",\"event_payload\":null\x7d," ++
  "\"blocks\":null\x7d\x7d"

end slackevents

namespace slack

/-- Go type `url.Values`: each key with the list of its values. -/
abbrev Values := List (String × List String)

/-- Go type TokenResponse (tokens.go, line 32). The two `uint64` fields are
numbers below 2^64 that nothing here computes with; `SlackResponse` is the
embedded struct of that name, declared outside the embedded sources, of type
`R`. -/
structure TokenResponse (R : Type) where
  Token : String
  RefreshToken : String
  TeamId : String
  UserId : String
  IssuedAt : Nat
  ExpiresAt : Nat
  SlackResponse : R

/-- Go type Client: the two fields tokens.go reads. The other fields of the
client (endpoint, HTTP client, logger) are read by `getMethod` alone and belong
to the state it works on. -/
structure Client where
  configToken : String
  configRefreshToken : String

/-- What tokens.go takes from outside the embedded sources: the type
`context.Context` with `context.Background()`, the type `error`, the struct
`SlackResponse` with its zero value and its method `Err` (promoted to
`TokenResponse`), and the method `getMethod` of the client. `getMethod` works on
a state of type `Remote` (the network, the server and the rest of the client): it
receives the context, the API method, the token, the form values and the
response the pointer refers to, and returns the response afterwards, the error
and the state afterwards. -/
structure ClientEnv where
  Context : Type
  Background : Context
  Error : Type
  SlackResponse : Type
  zeroSlackResponse : SlackResponse
  Err : SlackResponse → Option Error
  Remote : Type
  getMethod : Remote → Client → Context → String → String → Values →
    TokenResponse SlackResponse → (TokenResponse SlackResponse × Option Error) × Remote

/-- The value `TokenResponse{}`. -/
def ClientEnv.zeroTokenResponse (E : ClientEnv) : TokenResponse E.SlackResponse :=
  { Token := "", RefreshToken := "", TeamId := "", UserId := "", IssuedAt := 0,
    ExpiresAt := 0, SlackResponse := E.zeroSlackResponse }

/-- Embedding of `func (api *Client) RotateTokensContext(ctx, refreshToken)`
(tokens.go, line 14). The result is the returned pointer (`none` for nil), the
returned error and the state `getMethod` leaves. -/
def Client.RotateTokensContext (E : ClientEnv) (api : Client) (remote : E.Remote)
    (ctx : E.Context) (refreshToken : String) :
    (Option (TokenResponse E.SlackResponse) × Option E.Error) × E.Remote :=
  let refreshToken := if refreshToken = "" then api.configRefreshToken else refreshToken
  let values : Values := [("refresh_token", [refreshToken])]
  let response := E.zeroTokenResponse
  match E.getMethod remote api ctx "tooling.tokens.rotate" api.configToken values response with
  | ((_, some err), remote1) => ((none, some err), remote1)
  | ((response, none), remote1) => ((some response, E.Err response.SlackResponse), remote1)

/-- Embedding of `func (api *Client) RotateTokens(refreshToken)` (tokens.go,
line 9). -/
def Client.RotateTokens (E : ClientEnv) (api : Client) (remote : E.Remote)
    (refreshToken : String) :
    (Option (TokenResponse E.SlackResponse) × Option E.Error) × E.Remote :=
  api.RotateTokensContext E remote E.Background refreshToken

/-- A request as `getMethod` receives it: the API method, the token and the form
values. -/
structure Request where
  path : String
  token : String
  values : Values
deriving DecidableEq

/-- A concrete environment whose state is the list of the requests made so far.
A request without a token fails in transport; any other request is answered: the
refresh token "expired" with the Slack error "invalid_refresh_token", every other
one with a new pair of tokens. A `SlackResponse` is its error text, empty for
success. -/
def recordingEnv : ClientEnv where
  Context := String
  Background := "background"
  Error := String
  SlackResponse := String
  zeroSlackResponse := ""
  Err := fun s => if s = "" then none else some s
  Remote := List Request
  getMethod := fun log _ _ path token values response =>
    let log1 := log ++ [{ path := path, token := token, values := values }]
    if token = "" then ((response, some "not_authed: no token"), log1)
    else if values = [("refresh_token", ["expired"])] then
      (({ response with SlackResponse := "invalid_refresh_token" }, none), log1)
    else
      (({ response with Token := "xoxe.xoxp-new", RefreshToken := "xoxe-new" }, none), log1)

end slack

namespace slacktest
open json

/-- Whether a body is a ping frame: it reads as a document whose "type" is
"ping". -/
def isPingFrame (body : String) : Bool :=
  match parse body with
  | none => false
  | some doc =>
    match slackevents.discriminator doc with
    | .ok d => decide (d = "ping")
    | .error _ => false

/-- The body of a ping frame. -/
def pingBody : String := "\x7b\"type\":\"ping\"\x7d"

end slacktest

namespace slackevents
open json

/-- Whether the members of an object carry a non-null "edited": the last member
spelling "edited" decides, as it does for a decoded field, and it is not `null`. -/
def carriesEdited (kvs : List (String × JSON)) : Bool :=
  match (members "edited" kvs).getLast? with
  | none => false
  | some .null => false
  | some _ => true

/-- A frame with an `edited` object at the root and a nested message without
one. -/
def frameRootEdited : List (String × JSON) :=
  [("type", .str "message"), ("subtype", .str "message_changed"),
    ("edited", .obj [("user", .str "U1"), ("ts", .str "1")]),
    ("message", .obj [("text", .str "new")])]

/-- A message frame whose "edited" member holds a number. -/
def frameEditedNumber : JSON :=
  .obj [("type", .str "message"), ("text", .str "hi"), ("edited", .num "5")]

end slackevents
/-! ## Lemmas on the struct decoder -/

namespace json

theorem saveError_none (s : Option UnmarshalError) : saveError s none = s := by
  cases s <;> rfl

theorem saveError_some (e : UnmarshalError) (n : Option UnmarshalError) :
    saveError (some e) n = some e := rfl

theorem saveError_eq_none {s n : Option UnmarshalError} (h : saveError s n = none) :
    s = none ∧ n = none := by
  cases s with
  | none => exact ⟨rfl, h⟩
  | some e => simp [saveError] at h

theorem getField_setField_ne {g g1 : String} (v : GoVal) (h : g1 ≠ g) :
    ∀ vals : List (String × GoVal), getField g1 (setField g v vals) = getField g1 vals
  | [] => rfl
  | (n, w) :: rest => by
    by_cases hn : n = g
    · subst hn
      have : ¬ n = g1 := fun h1 => h h1.symm
      simp [setField, getField, this]
    · by_cases h1 : n = g1
      · subst h1
        simp [setField, getField, h]
      · simp [setField, getField, hn, h1, getField_setField_ne v h rest]

theorem getField_setField_same {g : String} (v : GoVal) :
    ∀ vals : List (String × GoVal), (getField g vals).isSome →
      getField g (setField g v vals) = some v
  | [], h => by simp [getField] at h
  | (n, w) :: rest, h => by
    by_cases hn : n = g
    · simp [setField, getField, hn]
    · simp only [getField, hn, if_false] at h
      simp [setField, getField, hn, getField_setField_same v rest h]

theorem unmarshalField_eq (F : Foreign) (n : String) (j : JSON) (vals : List (String × GoVal)) :
    ∀ fields : List (String × String × GoType),
      unmarshalField F fields n j vals =
        match fields.find? (fun f => f.2.1 = n) with
        | none => (vals, none)
        | some f =>
          let r := unmarshalValue F f.2.2 j ((getField f.1 vals).getD (zero F f.2.2))
          (setField f.1 r.1 vals, r.2)
  | [] => by simp [unmarshalField]
  | (g, m, t) :: rest => by
    by_cases hm : m = n
    · simp [unmarshalField, hm]
    · simp [unmarshalField, hm, unmarshalField_eq F n j vals rest]

theorem unmarshalValue_struct_obj (F : Foreign) (fields : List (String × String × GoType))
    (kvs : List (String × JSON)) (cur : GoVal) :
    unmarshalValue F (.struct fields) (.obj kvs) cur =
      (.struct (kvs.foldl (memberStep F fields)
          ((match cur with
            | .struct vs => vs
            | _ => zeroFields F fields), none)).1,
        (kvs.foldl (memberStep F fields)
          ((match cur with
            | .struct vs => vs
            | _ => zeroFields F fields), none)).2) := by
  have hstep : (fun (acc : List (String × GoVal) × Option UnmarshalError) (kv : String × JSON) =>
        match selectField (fields.map (fun f => f.2.1)) kv.1 with
        | none => acc
        | some n =>
          let e := unmarshalField F fields n kv.2 acc.1
          (e.1, saveError acc.2 e.2)) = memberStep F fields := by
    funext acc kv
    unfold memberStep fieldFor
    cases hsel : selectField (fields.map (fun f => f.2.1)) kv.1 with
    | none => rfl
    | some n =>
      simp only [unmarshalField_eq]
      cases hfind : fields.find? (fun f => f.2.1 = n) with
      | none => simp [saveError_none]
      | some f => rfl
  cases cur <;> simp only [unmarshalValue, hstep]

end json

namespace json

theorem fieldFor_mem {fields : List (String × String × GoType)} {k : String}
    {f : String × String × GoType} (h : fieldFor fields k = some f) : f ∈ fields := by
  unfold fieldFor at h
  cases hsel : selectField (fields.map (fun f => f.2.1)) k with
  | none => simp [hsel] at h
  | some n =>
    simp only [hsel] at h
    exact List.mem_of_find?_eq_some h

theorem fieldFor_fold {fields : List (String × String × GoType)} {k : String}
    {f : String × String × GoType} (h : fieldFor fields k = some f) :
    foldName f.2.1 = foldName k := by
  unfold fieldFor at h
  cases hsel : selectField (fields.map (fun f => f.2.1)) k with
  | none => simp [hsel] at h
  | some n =>
    simp only [hsel] at h
    have hfn : f.2.1 = n := by simpa using List.find?_some h
    unfold selectField at hsel
    split at hsel
    · simp only [Option.some.injEq] at hsel
      rw [hfn, hsel]
    · have := List.find?_some hsel
      rw [hfn]
      simpa using this

/-- The value of one field after the decoding of an object: only the members
that select the field contribute, each decoded in turn into the field. -/
theorem foldl_memberStep_getField (F : Foreign) (fields : List (String × String × GoType))
    (g0 : String) (t0 : GoType) (hty : ∀ f ∈ fields, f.1 = g0 → f.2.2 = t0) :
    ∀ (kvs : List (String × JSON)) (acc : List (String × GoVal) × Option UnmarshalError)
      (c0 : GoVal), getField g0 acc.1 = some c0 →
      getField g0 (kvs.foldl (memberStep F fields) acc).1 =
        some (decodeAll F t0 ((kvs.filter (fun kv => hits fields g0 kv.1)).map Prod.snd) c0)
  | [], acc, c0, h => by simpa [decodeAll] using h
  | kv :: kvs, acc, c0, h => by
    rw [List.foldl_cons]
    cases hf : fieldFor fields kv.1 with
    | none =>
      have hstep : memberStep F fields acc kv = acc := by simp [memberStep, hf]
      have hh : hits fields g0 kv.1 = false := by simp [hits, hf]
      rw [hstep, List.filter_cons_of_neg (by simp [hh])]
      exact foldl_memberStep_getField F fields g0 t0 hty kvs acc c0 h
    | some f =>
      by_cases hg : f.1 = g0
      · have ht : f.2.2 = t0 := hty f (fieldFor_mem hf) hg
        have hh : hits fields g0 kv.1 = true := by simp [hits, hf, hg]
        rw [List.filter_cons_of_pos (by simp [hh])]
        have hstep : getField g0 (memberStep F fields acc kv).1 =
            some (unmarshalValue F t0 kv.2 c0).1 := by
          simp only [memberStep, hf, hg, ht, h, Option.getD_some]
          exact getField_setField_same _ _ (by simp [h])
        rw [foldl_memberStep_getField F fields g0 t0 hty kvs _ _ hstep]
        simp [decodeAll]
      · have hh : hits fields g0 kv.1 = false := by simp [hits, hf, hg]
        rw [List.filter_cons_of_neg (by simp [hh])]
        have hstep : getField g0 (memberStep F fields acc kv).1 = some c0 := by
          simp only [memberStep, hf]
          rw [getField_setField_ne _ (fun h1 => hg h1.symm)]
          exact h
        exact foldl_memberStep_getField F fields g0 t0 hty kvs _ c0 hstep

/-- An error, once saved, is the error returned. -/
theorem foldl_memberStep_error_some (F : Foreign) (fields : List (String × String × GoType)) :
    ∀ (kvs : List (String × JSON)) (acc : List (String × GoVal) × Option UnmarshalError),
      acc.2 ≠ none → (kvs.foldl (memberStep F fields) acc).2 ≠ none
  | [], acc, h => h
  | kv :: kvs, acc, h => by
    rw [List.foldl_cons]
    apply foldl_memberStep_error_some F fields kvs
    cases hacc : acc.2 with
    | none => exact absurd hacc h
    | some e =>
      unfold memberStep
      cases hf : fieldFor fields kv.1 with
      | none => simp [hacc]
      | some f => simp [hacc, saveError]

/-- A member whose value the decoder rejects, whatever the field holds, makes the
decoding of the object fail. -/
theorem foldl_memberStep_error_of_mem (F : Foreign) (fields : List (String × String × GoType))
    (kv : String × JSON) (f : String × String × GoType) (hf : fieldFor fields kv.1 = some f)
    (hbad : ∀ cur, (unmarshalValue F f.2.2 kv.2 cur).2 ≠ none) :
    ∀ (kvs : List (String × JSON)) (acc : List (String × GoVal) × Option UnmarshalError),
      kv ∈ kvs → (kvs.foldl (memberStep F fields) acc).2 ≠ none
  | [], _, h => by simp at h
  | kv1 :: kvs, acc, h => by
    rw [List.foldl_cons]
    rcases List.mem_cons.mp h with h1 | h1
    · subst h1
      apply foldl_memberStep_error_some
      simp only [memberStep, hf]
      cases hacc : acc.2 with
      | some e => simp [saveError]
      | none =>
        simp only [saveError]
        exact hbad _
    · exact foldl_memberStep_error_of_mem F fields kv f hf hbad kvs _ h1

/-- A value of a mismatching kind is rejected whatever the destination holds. -/
theorem unmarshalValue_kindMismatch (F : Foreign) :
    ∀ (t : GoType) (j : JSON) (cur : GoVal), kindMismatch t j = true →
      (unmarshalValue F t j cur).2 ≠ none
  | .string, j, cur, h => by cases j <;> simp_all [kindMismatch, unmarshalValue]
  | .bool, j, cur, h => by cases j <;> simp_all [kindMismatch, unmarshalValue]
  | .int, j, cur, h => by cases j <;> simp_all [kindMismatch, unmarshalValue, unmarshalInt]
  | .int64, j, cur, h => by cases j <;> simp_all [kindMismatch, unmarshalValue, unmarshalInt]
  | .iface, j, cur, h => by simp [kindMismatch] at h
  | .mapIface, j, cur, h => by cases j <;> simp_all [kindMismatch, unmarshalValue]
  | .ptr t, j, cur, h => by
    cases j with
    | null => simp [kindMismatch] at h
    | bool b =>
      simp only [kindMismatch] at h
      simpa [unmarshalValue] using unmarshalValue_kindMismatch F t _ _ h
    | num l =>
      simp only [kindMismatch] at h
      simpa [unmarshalValue] using unmarshalValue_kindMismatch F t _ _ h
    | str s =>
      simp only [kindMismatch] at h
      simpa [unmarshalValue] using unmarshalValue_kindMismatch F t _ _ h
    | arr xs =>
      simp only [kindMismatch] at h
      simpa [unmarshalValue] using unmarshalValue_kindMismatch F t _ _ h
    | obj kvs =>
      simp only [kindMismatch] at h
      simpa [unmarshalValue] using unmarshalValue_kindMismatch F t _ _ h
  | .slice t, j, cur, h => by cases j <;> simp_all [kindMismatch, unmarshalValue]
  | .struct fs, j, cur, h => by cases j <;> simp_all [kindMismatch, unmarshalValue]
  | .foreign n, j, cur, h => by simp [kindMismatch] at h

end json

namespace json

theorem find?_of_nodup_map {α β : Type} [DecidableEq β] (key : α → β) :
    ∀ (l : List α) (a : α), a ∈ l → (l.map key).Nodup →
      l.find? (fun x => decide (key x = key a)) = some a
  | [], a, h, _ => by simp at h
  | x :: l, a, h, hnd => by
    rw [List.map_cons, List.nodup_cons] at hnd
    rcases List.mem_cons.mp h with h1 | h1
    · subst h1
      simp [List.find?]
    · have hne : key x ≠ key a := by
        intro heq
        exact hnd.1 (heq ▸ List.mem_map_of_mem key h1)
      simp only [List.find?, hne, decide_False]
      exact find?_of_nodup_map key l a h1 hnd.2

theorem eq_of_nodup_map {α β : Type} (key : α → β) {l : List α} (hnd : (l.map key).Nodup)
    {a b : α} (ha : a ∈ l) (hb : b ∈ l) (h : key a = key b) : a = b :=
  List.inj_on_of_nodup_map hnd ha hb h

/-- Selection of a field in a struct whose JSON names are distinct up to case:
a member selects the field whose JSON name equals its key under case folding. -/
theorem fieldFor_eq_some_iff {fields : List (String × String × GoType)}
    (hnd : (fields.map (fun f => foldName f.2.1)).Nodup) (k : String)
    (f : String × String × GoType) :
    fieldFor fields k = some f ↔ f ∈ fields ∧ foldName f.2.1 = foldName k := by
  constructor
  · intro h
    exact ⟨fieldFor_mem h, fieldFor_fold h⟩
  · rintro ⟨hmem, hfold⟩
    have hfind : ∀ n, n = f.2.1 → fields.find? (fun x => decide (x.2.1 = n)) = some f := by
      intro n hn
      subst hn
      cases hx : fields.find? (fun x => decide (x.2.1 = f.2.1)) with
      | none =>
        have := List.find?_eq_none.mp hx f hmem
        simp at this
      | some x =>
        have hxm := List.mem_of_find?_eq_some hx
        have hxn : x.2.1 = f.2.1 := by simpa using List.find?_some hx
        have : x = f := eq_of_nodup_map _ hnd hxm hmem (by simp [hxn])
        rw [this]
    unfold fieldFor selectField
    by_cases hk : k ∈ fields.map (fun f => f.2.1)
    · obtain ⟨x, hxm, hxk⟩ := List.mem_map.mp hk
      have hxf : x = f := eq_of_nodup_map _ hnd hxm hmem (by simp [hxk, hfold])
      simp only [hk, if_true]
      exact hfind k (by rw [← hxk, hxf])
    · simp only [hk, if_false]
      cases hn : (fields.map (fun f => f.2.1)).find? (fun n => decide (foldName n = foldName k)) with
      | none =>
        have := List.find?_eq_none.mp hn f.2.1 (List.mem_map_of_mem (fun f => f.2.1) hmem)
        simp [hfold] at this
      | some n =>
        have hnm := List.mem_of_find?_eq_some hn
        have hnf : foldName n = foldName k := by simpa using List.find?_some hn
        obtain ⟨x, hxm, hxn⟩ := List.mem_map.mp hnm
        have hxf : x = f := eq_of_nodup_map _ hnd hxm hmem (by simp [hxn, hnf, hfold])
        exact hfind n (by rw [← hxn, hxf])

/-- In a struct whose Go names and JSON names are distinct, the members decoded
into a field are the members whose key spells its JSON name. -/
theorem hits_eq_decide {fields : List (String × String × GoType)}
    (hgo : (fields.map (fun f => f.1)).Nodup)
    (hnd : (fields.map (fun f => foldName f.2.1)).Nodup)
    {f0 : String × String × GoType} (hmem : f0 ∈ fields) (k : String) :
    hits fields f0.1 k = decide (foldName k = foldName f0.2.1) := by
  unfold hits
  cases hf : fieldFor fields k with
  | none =>
    have : ¬ foldName k = foldName f0.2.1 := by
      intro h
      have := (fieldFor_eq_some_iff hnd k f0).mpr ⟨hmem, h.symm⟩
      simp [hf] at this
    simp [this]
  | some f =>
    have hfm := fieldFor_mem hf
    have hff := fieldFor_fold hf
    by_cases hg : f.1 = f0.1
    · have : f = f0 := eq_of_nodup_map _ hgo hfm hmem hg
      subst this
      simp [hff]
    · have : ¬ foldName k = foldName f0.2.1 := by
        intro h
        have : f = f0 := eq_of_nodup_map _ hnd hfm hmem (by simp [hff, h])
        exact hg (by rw [this])
      simp [hg, this]

theorem filter_hits_eq_members {fields : List (String × String × GoType)}
    (hgo : (fields.map (fun f => f.1)).Nodup)
    (hnd : (fields.map (fun f => foldName f.2.1)).Nodup)
    {f0 : String × String × GoType} (hmem : f0 ∈ fields) (kvs : List (String × JSON)) :
    (kvs.filter (fun kv => hits fields f0.1 kv.1)).map Prod.snd = members f0.2.1 kvs := by
  unfold members
  congr 1
  apply List.filter_congr
  intro kv _
  rw [hits_eq_decide hgo hnd hmem]

theorem getField_zeroFields (F : Foreign) (f0 : String × String × GoType) :
    ∀ fields : List (String × String × GoType), (fields.map (fun f => f.1)).Nodup →
      f0 ∈ fields → getField f0.1 (zeroFields F fields) = some (zero F f0.2.2)
  | [], _, h => by simp at h
  | (g, n, t) :: rest, hnd, h => by
    rw [List.map_cons, List.nodup_cons] at hnd
    rcases List.mem_cons.mp h with h1 | h1
    · subst h1
      simp [zeroFields, getField]
    · have hne : ¬ g = f0.1 := by
        intro heq
        exact hnd.1 (heq ▸ List.mem_map_of_mem (fun f => f.1) h1)
      simp only [zeroFields, getField, hne, if_false]
      exact getField_zeroFields F f0 rest hnd.2 h1

/-- The value of a field after the decoding of an object into the zero value of
a struct whose Go names and JSON names are distinct: the members spelling the
JSON name of the field, decoded in turn from the zero value of the field. -/
theorem getField_after_decode (F : Foreign) {fields : List (String × String × GoType)}
    (hgo : (fields.map (fun f => f.1)).Nodup)
    (hnd : (fields.map (fun f => foldName f.2.1)).Nodup)
    {f0 : String × String × GoType} (hmem : f0 ∈ fields) (kvs : List (String × JSON)) :
    getField f0.1 (kvs.foldl (memberStep F fields) (zeroFields F fields, none)).1 =
      some (decodeAll F f0.2.2 (members f0.2.1 kvs) (zero F f0.2.2)) := by
  rw [← filter_hits_eq_members hgo hnd hmem]
  apply foldl_memberStep_getField F fields f0.1 f0.2.2
  · intro f hf hg
    rw [eq_of_nodup_map _ hgo hf hmem hg]
  · exact getField_zeroFields F f0 fields hgo hmem

/-- Outcome of a successful decode into the zero value of a struct: the document
is `null` and the value stays zero, or it is an object and the value is the one
the members leave. -/
theorem unmarshal_struct_ok (F : Foreign) (fields : List (String × String × GoType))
    (j : JSON) (a : GoVal)
    (h : Unmarshal F (some j) (.struct fields) (zero F (.struct fields)) = (a, none)) :
    (j = .null ∧ a = .struct (zeroFields F fields)) ∨
    (∃ kvs, j = .obj kvs ∧
      a = .struct (kvs.foldl (memberStep F fields) (zeroFields F fields, none)).1 ∧
      (kvs.foldl (memberStep F fields) (zeroFields F fields, none)).2 = none) := by
  simp only [Unmarshal, zero] at h
  cases j with
  | null =>
    left
    simp only [unmarshalValue, Prod.mk.injEq, and_true] at h
    exact ⟨rfl, h.symm⟩
  | obj kvs =>
    right
    rw [unmarshalValue_struct_obj] at h
    simp only [Prod.mk.injEq] at h
    exact ⟨kvs, rfl, h.1.symm, h.2⟩
  | bool b => simp [unmarshalValue] at h
  | num l => simp [unmarshalValue] at h
  | str s => simp [unmarshalValue] at h
  | arr xs => simp [unmarshalValue] at h

theorem decodeAll_string_nil (F : Foreign) (c : GoVal) : decodeAll F .string [] c = c := rfl

theorem decodeAll_ptr_null (F : Foreign) (t : GoType) :
    ∀ js : List JSON, (∀ j ∈ js, j = .null) → decodeAll F (.ptr t) js (.ptr none) = .ptr none
  | [], _ => rfl
  | j :: js, h => by
    have hj : j = .null := h j (List.mem_cons_self _ _)
    subst hj
    simp only [decodeAll, List.foldl_cons, unmarshalValue]
    exact decodeAll_ptr_null F t js (fun j hj => h j (List.mem_cons_of_mem _ hj))

end json

/-! ## MessageEvent.UnmarshalJSON -/

namespace slackevents
open json

theorem isNil_eq_false {x : Option GoVal} (h : isNil x = false) :
    ∃ m, x = some (.ptr (some m)) := by
  unfold isNil at h
  split at h
  · exact ⟨_, rfl⟩
  · simp at h

theorem MessageEvent_goNames_nodup (P : slack.Pkg) :
    ((MessageEvent P).fields.map (fun f => f.1)).Nodup := by
  have h : (MessageEvent P).fields.map (fun f => f.1) =
      (MessageEvent slack.minimalPkg).fields.map (fun f => f.1) := rfl
  rw [h]
  decide

theorem MessageEvent_jsonNames_nodup (P : slack.Pkg) :
    ((MessageEvent P).fields.map (fun f => foldName f.2.1)).Nodup := by
  have h : (MessageEvent P).fields.map (fun f => foldName f.2.1) =
      (MessageEvent slack.minimalPkg).fields.map (fun f => foldName f.2.1) := rfl
  rw [h]
  decide

/-- The first pass of `UnmarshalJSON`, when it succeeds on an object, leaves in
each field the members spelling its JSON name, decoded in turn. -/
theorem MessageEvent_field_after_decode (P : slack.Pkg) {f0 : String × String × GoType}
    (hmem : f0 ∈ (MessageEvent P).fields) (kvs : List (String × JSON)) :
    getField f0.1 (kvs.foldl (memberStep P.foreign (MessageEvent P).fields)
        (zeroFields P.foreign (MessageEvent P).fields, none)).1 =
      some (decodeAll P.foreign f0.2.2 (members f0.2.1 kvs) (zero P.foreign f0.2.2)) :=
  getField_after_decode P.foreign (MessageEvent_goNames_nodup P)
    (MessageEvent_jsonNames_nodup P) hmem kvs

/-- The outcomes of `UnmarshalJSON`: a first pass that fails leaves the receiver
alone; a first pass that yields `a` is followed by a second pass exactly when
`a.Message` is nil, and the receiver ends as `a` or as `a` with the second
result in `Message`. -/
theorem UnmarshalJSON_ok (P : slack.Pkg) (data : Option JSON) (e e1 : GoVal)
    (h : MessageEvent.UnmarshalJSON P data e = (e1, none)) :
    ∃ a, Unmarshal P.foreign data (MessageEvent P) (zero P.foreign (MessageEvent P)) = (a, none) ∧
      ((isNil (a.field "Message") = false ∧ e1 = a) ∨
       (isNil (a.field "Message") = true ∧
          ∃ m, Unmarshal P.foreign data (slack.Msg P) (zero P.foreign (slack.Msg P)) = (m, none) ∧
            e1 = a.withField "Message" (.ptr (some m)))) := by
  rcases hr1 : Unmarshal P.foreign data (MessageEvent P) (zero P.foreign (MessageEvent P))
    with ⟨a, err1⟩
  simp only [MessageEvent.UnmarshalJSON, hr1] at h
  cases err1 with
  | some err => simp at h
  | none =>
    refine ⟨a, rfl, ?_⟩
    simp only at h
    cases hnil : isNil (a.field "Message") with
    | false =>
      left
      simp only [hnil] at h
      simp only [Bool.false_eq_true, if_false, Prod.mk.injEq, and_true] at h
      exact ⟨rfl, h.symm⟩
    | true =>
      right
      simp only [hnil, if_true] at h
      rcases hr2 : Unmarshal P.foreign data (slack.Msg P) (zero P.foreign (slack.Msg P))
        with ⟨m, err2⟩
      simp only [hr2] at h
      cases err2 with
      | some err => simp at h
      | none =>
        simp only [Prod.mk.injEq, and_true] at h
        exact ⟨rfl, m, rfl, h.symm⟩

end slackevents

namespace json

theorem withField_field_same (a : GoVal) (g : String) (v : GoVal) (h : (a.field g).isSome) :
    (a.withField g v).field g = some v := by
  cases a <;> simp_all [GoVal.field, GoVal.withField, getField_setField_same]

theorem withField_field_ne (a : GoVal) {g g1 : String} (v : GoVal) (h : g1 ≠ g) :
    (a.withField g v).field g1 = a.field g1 := by
  cases a <;> simp [GoVal.field, GoVal.withField, getField_setField_ne v h]

/-- The value of a field after a successful decode of a document into the zero
value of a struct whose Go names and JSON names are distinct. -/
theorem field_after_unmarshal (F : Foreign) {fields : List (String × String × GoType)}
    (hgo : (fields.map (fun f => f.1)).Nodup)
    (hnd : (fields.map (fun f => foldName f.2.1)).Nodup)
    {f0 : String × String × GoType} (hmem : f0 ∈ fields) (j : JSON) (a : GoVal)
    (h : Unmarshal F (some j) (.struct fields) (zero F (.struct fields)) = (a, none)) :
    a.field f0.1 = some (decodeAll F f0.2.2 (docMembers f0.2.1 j) (zero F f0.2.2)) := by
  rcases unmarshal_struct_ok F fields j a h with ⟨hj, ha⟩ | ⟨kvs, hj, ha, _⟩
  · subst hj ha
    simp only [GoVal.field, docMembers, decodeAll, List.foldl_nil]
    exact getField_zeroFields F f0 fields hgo hmem
  · subst hj ha
    simp only [GoVal.field, docMembers]
    exact getField_after_decode F hgo hnd hmem kvs

theorem unmarshal_none (F : Foreign) (t : GoType) (dst : GoVal) :
    Unmarshal F none t dst = (dst, some .invalidDocument) := rfl

end json

namespace slackevents
open json

theorem MessageEvent_field_after_unmarshal (P : slack.Pkg) {f0 : String × String × GoType}
    (hmem : f0 ∈ (MessageEvent P).fields) (j : JSON) (a : GoVal)
    (h : Unmarshal P.foreign (some j) (MessageEvent P) (zero P.foreign (MessageEvent P)) = (a, none)) :
    a.field f0.1 = some (decodeAll P.foreign f0.2.2 (docMembers f0.2.1 j) (zero P.foreign f0.2.2)) :=
  field_after_unmarshal P.foreign (MessageEvent_goNames_nodup P) (MessageEvent_jsonNames_nodup P)
    hmem j a h

theorem MessageEvent_Message_mem (P : slack.Pkg) :
    ("Message", "message", GoType.ptr (slack.Msg P)) ∈ (MessageEvent P).fields := by
  simp [MessageEvent, GoType.fields]

/-- C1: whenever `MessageEvent.UnmarshalJSON` returns no error, the receiver's
`Message` field is a non-nil pointer afterwards, whatever the input was and
whether or not the document carried a "message" member. -/
theorem C1_message_non_nil (P : slack.Pkg) (data : Option JSON) (e e1 : GoVal)
    (h : MessageEvent.UnmarshalJSON P data e = (e1, none)) :
    ∃ m, e1.field "Message" = some (.ptr (some m)) := by
  obtain ⟨a, ha, hcase⟩ := UnmarshalJSON_ok P data e e1 h
  rcases hcase with ⟨hnil, he⟩ | ⟨_, m, _, he⟩
  · subst he
    exact isNil_eq_false hnil
  · subst he
    refine ⟨m, withField_field_same a _ _ ?_⟩
    cases data with
    | none => simp [unmarshal_none] at ha
    | some j =>
      rw [MessageEvent_field_after_unmarshal P (MessageEvent_Message_mem P) j a ha]
      rfl

end slackevents

namespace slackevents
open json

/-- C1 at the frame of the first scenario: decoding succeeds and `Message` is non-nil. -/
theorem C1_message_non_nil_witness :
    (MessageEvent.UnmarshalJSON slack.minimalPkg (some frameHello) zeroEvent).2 = none ∧
    ∃ m, (MessageEvent.UnmarshalJSON slack.minimalPkg (some frameHello) zeroEvent).1.field
      "Message" = some (.ptr (some m)) :=
  ⟨rfl, C1_message_non_nil slack.minimalPkg (some frameHello) zeroEvent _ (Prod.ext rfl rfl)⟩

/-- C2: when exactly one member of the document spells "message" and holds an
object, a successful `UnmarshalJSON` leaves in `Message` the decoding of that
nested object as `slack.Msg` into a fresh value, not the decoding of the root
document. -/
theorem C2_message_from_nested (P : slack.Pkg) (kvs inner : List (String × JSON))
    (e e1 : GoVal) (hmsg : members "message" kvs = [.obj inner])
    (h : MessageEvent.UnmarshalJSON P (some (.obj kvs)) e = (e1, none)) :
    e1.field "Message" = some (.ptr (some
      (unmarshalValue P.foreign (slack.Msg P) (.obj inner) (zero P.foreign (slack.Msg P))).1)) := by
  obtain ⟨a, ha, hcase⟩ := UnmarshalJSON_ok P _ e e1 h
  have hfield := MessageEvent_field_after_unmarshal P (MessageEvent_Message_mem P) _ a ha
  simp only [docMembers, hmsg, decodeAll, List.foldl_cons, List.foldl_nil] at hfield
  have hval : (unmarshalValue P.foreign (GoType.ptr (slack.Msg P)) (JSON.obj inner)
      (zero P.foreign (GoType.ptr (slack.Msg P)))).1 = .ptr (some
      (unmarshalValue P.foreign (slack.Msg P) (.obj inner) (zero P.foreign (slack.Msg P))).1) := by
    simp [unmarshalValue, zero]
  rw [hval] at hfield
  rcases hcase with ⟨_, he⟩ | ⟨hnil, _⟩
  · subst he
    exact hfield
  · rw [hfield] at hnil
    simp [isNil] at hnil

/-- C2 at the frame of the second scenario: one member spells "message", decoding
succeeds, `Message` is the decoding of the nested object, and `Message.Text` is
"edited", for every package and receiver. -/
theorem C2_message_from_nested_witness :
    members "message" [("type", .str "message"), ("subtype", .str "message_changed"),
      ("message", .obj [("text", .str "edited")])] = [.obj [("text", .str "edited")]] ∧
    (MessageEvent.UnmarshalJSON slack.minimalPkg (some frameEdited) zeroEvent).2 = none ∧
    (MessageEvent.UnmarshalJSON slack.minimalPkg (some frameEdited) zeroEvent).1.field "Message" =
      some (.ptr (some (unmarshalValue slack.minimalPkg.foreign (slack.Msg slack.minimalPkg)
        (.obj [("text", .str "edited")])
        (zero slack.minimalPkg.foreign (slack.Msg slack.minimalPkg))).1)) ∧
    (unmarshalValue slack.minimalPkg.foreign (slack.Msg slack.minimalPkg)
        (.obj [("text", .str "edited")])
        (zero slack.minimalPkg.foreign (slack.Msg slack.minimalPkg))).1.field "Text" =
      some (.str "edited") ∧
    ∀ (P : slack.Pkg) (e : GoVal),
      (MessageEvent.UnmarshalJSON P (some frameEdited) e).2 = none ∧
      (MessageEvent.UnmarshalJSON P (some frameEdited) e).1.fieldOfPtr "Message" "Text" =
        some (.str "edited") :=
  ⟨rfl, rfl,
    C2_message_from_nested slack.minimalPkg
      [("type", .str "message"), ("subtype", .str "message_changed"),
        ("message", .obj [("text", .str "edited")])]
      [("text", .str "edited")] zeroEvent _ rfl (Prod.ext rfl rfl), rfl,
    fun _ _ => ⟨rfl, rfl⟩⟩

end slackevents

namespace slackevents
open json

theorem minimalPkg_wellFormed : slack.minimalPkg.WellFormed := by
  constructor <;> decide

theorem Msg_field_after_unmarshal (P : slack.Pkg) (hwf : P.WellFormed)
    {f0 : String × String × GoType} (hmem : f0 ∈ (slack.Msg P).fields) (j : JSON) (m : GoVal)
    (h : Unmarshal P.foreign (some j) (slack.Msg P) (zero P.foreign (slack.Msg P)) = (m, none)) :
    m.field f0.1 = some (decodeAll P.foreign f0.2.2 (docMembers f0.2.1 j) (zero P.foreign f0.2.2)) :=
  field_after_unmarshal P.foreign hwf.1 hwf.2 hmem j m h

/-- C3: when the document is an object with no member spelling "message", or
with only `null` under it, a successful `UnmarshalJSON` leaves in `Message` the
decoding of the whole root document as `slack.Msg`; as `slack.Msg` is a
well-formed declaration, `Message.Text` and `Message.Channel` then equal the
top-level `Text` and `Channel` of the event. -/
theorem C3_message_from_root (P : slack.Pkg) (kvs : List (String × JSON)) (e e1 : GoVal)
    (hmsg : ∀ v ∈ members "message" kvs, v = .null)
    (h : MessageEvent.UnmarshalJSON P (some (.obj kvs)) e = (e1, none)) :
    e1.field "Message" = some (.ptr (some
      (unmarshalValue P.foreign (slack.Msg P) (.obj kvs) (zero P.foreign (slack.Msg P))).1)) ∧
    (P.WellFormed →
      (unmarshalValue P.foreign (slack.Msg P) (.obj kvs) (zero P.foreign (slack.Msg P))).1.field
          "Text" = e1.field "Text" ∧
      (unmarshalValue P.foreign (slack.Msg P) (.obj kvs) (zero P.foreign (slack.Msg P))).1.field
          "Channel" = e1.field "Channel") := by
  obtain ⟨a, ha, hcase⟩ := UnmarshalJSON_ok P _ e e1 h
  have hfield := MessageEvent_field_after_unmarshal P (MessageEvent_Message_mem P) _ a ha
  simp only [docMembers] at hfield
  have hz : zero P.foreign (GoType.ptr (slack.Msg P)) = .ptr none := rfl
  rw [hz, decodeAll_ptr_null P.foreign _ _ hmsg] at hfield
  rcases hcase with ⟨hnil, _⟩ | ⟨_, m, hm, he⟩
  · rw [hfield] at hnil
    simp [isNil] at hnil
  · have hm1 : (unmarshalValue P.foreign (slack.Msg P) (.obj kvs)
        (zero P.foreign (slack.Msg P))).1 = m := by
      have := congrArg Prod.fst hm
      simpa [Unmarshal] using this
    rw [hm1]
    subst he
    refine ⟨withField_field_same a _ _ (by simp [hfield]), fun hwf => ?_⟩
    have hT : ("Text", "text", GoType.string) ∈ (MessageEvent P).fields := by
      simp [MessageEvent, GoType.fields]
    have hC : ("Channel", "channel", GoType.string) ∈ (MessageEvent P).fields := by
      simp [MessageEvent, GoType.fields]
    have hT1 : ("Text", "text", GoType.string) ∈ (slack.Msg P).fields := by
      simp [slack.Msg, GoType.fields]
    have hC1 : ("Channel", "channel", GoType.string) ∈ (slack.Msg P).fields := by
      simp [slack.Msg, GoType.fields]
    rw [withField_field_ne a _ (by decide), withField_field_ne a _ (by decide),
      MessageEvent_field_after_unmarshal P hT _ a ha,
      MessageEvent_field_after_unmarshal P hC _ a ha,
      Msg_field_after_unmarshal P hwf hT1 _ m hm, Msg_field_after_unmarshal P hwf hC1 _ m hm]
    exact ⟨rfl, rfl⟩

/-- C3 at the frame of the first scenario: no member spells "message", decoding
succeeds, `Message` is the decoding of the root document, and `Message.Text`
equals the top-level `Text`, "hello". -/
theorem C3_message_from_root_witness :
    members "message"
      [("type", .str "message"), ("text", .str "hello"), ("channel", .str "C1")] = [] ∧
    (MessageEvent.UnmarshalJSON slack.minimalPkg (some frameHello) zeroEvent).2 = none ∧
    (MessageEvent.UnmarshalJSON slack.minimalPkg (some frameHello) zeroEvent).1.field "Message" =
      some (.ptr (some (unmarshalValue slack.minimalPkg.foreign (slack.Msg slack.minimalPkg)
        frameHello (zero slack.minimalPkg.foreign (slack.Msg slack.minimalPkg))).1)) ∧
    (unmarshalValue slack.minimalPkg.foreign (slack.Msg slack.minimalPkg)
        frameHello (zero slack.minimalPkg.foreign (slack.Msg slack.minimalPkg))).1.field "Text" =
      (MessageEvent.UnmarshalJSON slack.minimalPkg (some frameHello) zeroEvent).1.field "Text" ∧
    (MessageEvent.UnmarshalJSON slack.minimalPkg (some frameHello) zeroEvent).1.field "Text" =
      some (.str "hello") :=
  have hnone : ∀ v ∈ members "message"
      [("type", JSON.str "message"), ("text", JSON.str "hello"), ("channel", JSON.str "C1")],
      v = JSON.null := fun v hv => by
    have hnil : members "message"
        [("type", JSON.str "message"), ("text", JSON.str "hello"), ("channel", JSON.str "C1")] =
          [] := rfl
    rw [hnil] at hv
    cases hv
  have hall := C3_message_from_root slack.minimalPkg
    [("type", .str "message"), ("text", .str "hello"), ("channel", .str "C1")]
    zeroEvent _ hnone (Prod.ext rfl rfl)
  ⟨rfl, rfl, hall.1, (hall.2 minimalPkg_wellFormed).1, rfl⟩

/-- C4: for all strings t and c, for every package and every prior content of
the receiver, decoding the frame {"type":"message","text":t,"channel":c} with
`MessageEvent.UnmarshalJSON` returns no error and leaves a record with
Type = "message", Text = t and Channel = c. -/
theorem C4_plain_message (P : slack.Pkg) (t c : String) (e : GoVal) :
    (MessageEvent.UnmarshalJSON P
      (some (.obj [("type", .str "message"), ("text", .str t), ("channel", .str c)])) e).2 = none ∧
    (MessageEvent.UnmarshalJSON P
      (some (.obj [("type", .str "message"), ("text", .str t), ("channel", .str c)])) e).1.field
        "Type" = some (.str "message") ∧
    (MessageEvent.UnmarshalJSON P
      (some (.obj [("type", .str "message"), ("text", .str t), ("channel", .str c)])) e).1.field
        "Text" = some (.str t) ∧
    (MessageEvent.UnmarshalJSON P
      (some (.obj [("type", .str "message"), ("text", .str t), ("channel", .str c)])) e).1.field
        "Channel" = some (.str c) :=
  ⟨rfl, rfl, rfl, rfl⟩

end slackevents

namespace json

theorem decodeAll_string_same (F : Foreign) (d : String) :
    ∀ js : List JSON, (∀ v ∈ js, v = .str d) → decodeAll F .string js (.str d) = .str d
  | [], _ => rfl
  | j :: js, h => by
    have hj : j = .str d := h j (List.mem_cons_self _ _)
    subst hj
    simp only [decodeAll, List.foldl_cons, unmarshalValue]
    exact decodeAll_string_same F d js (fun v hv => h v (List.mem_cons_of_mem _ hv))

theorem decodeAll_string_tag (F : Foreign) (d : String) (js : List JSON) (c : GoVal)
    (hne : js ≠ []) (h : ∀ v ∈ js, v = .str d) : decodeAll F .string js c = .str d := by
  cases js with
  | nil => exact absurd rfl hne
  | cons j js =>
    have hj : j = .str d := h j (List.mem_cons_self _ _)
    subst hj
    simp only [decodeAll, List.foldl_cons, unmarshalValue]
    exact decodeAll_string_same F d js (fun v hv => h v (List.mem_cons_of_mem _ hv))

theorem GoType.isString_eq {t : GoType} (h : t.isString = true) : t = .string := by
  cases t <;> simp_all [GoType.isString]

/-- A successful decode of an object tagged `d` into the zero value of a struct
that declares `Type string` under "type" leaves `d` in `Type`. -/
theorem type_of_wellTagged (F : Foreign) (t : GoType) (hw : wellTagged t = true)
    (kvs : List (String × JSON)) (d : String) (hd : tagged d kvs) (a : GoVal)
    (h : Unmarshal F (some (.obj kvs)) t (zero F t) = (a, none)) :
    a.field "Type" = some (.str d) := by
  cases t with
  | struct fields =>
    simp only [wellTagged, Bool.and_eq_true, List.any_eq_true, decide_eq_true_eq] at hw
    obtain ⟨⟨⟨f, hf, ⟨hg, hn⟩, hs⟩, hgo⟩, hnd⟩ := hw
    have hfield := field_after_unmarshal F hgo hnd hf (.obj kvs) a h
    rw [hg, hn, GoType.isString_eq hs] at hfield
    rw [hfield]
    simp only [docMembers]
    rw [decodeAll_string_tag F d _ _ hd.1 hd.2]
  | string => simp [wellTagged] at hw
  | bool => simp [wellTagged] at hw
  | int => simp [wellTagged] at hw
  | int64 => simp [wellTagged] at hw
  | iface => simp [wellTagged] at hw
  | mapIface => simp [wellTagged] at hw
  | ptr t => simp [wellTagged] at hw
  | slice t => simp [wellTagged] at hw
  | foreign n => simp [wellTagged] at hw

theorem mem_of_lookup {β : Type} (k : String) (v : β) :
    ∀ l : List (String × β), l.lookup k = some v → (k, v) ∈ l
  | [], h => by simp [List.lookup] at h
  | (a, b) :: l, h => by
    by_cases hk : k = a
    · subst hk
      simp [List.lookup] at h
      simp [h]
    · have hbeq : (k == a) = false := by simpa using hk
      simp only [List.lookup, hbeq] at h
      exact List.mem_cons_of_mem _ (mem_of_lookup k v l h)

end json

namespace slackevents
open json

theorem mapping_wellTagged (P : slack.Pkg) :
    (EventsAPIInnerEventMapping P).all
      (fun x => x.1 == SharedChannelInviteRequested || wellTagged x.2.2) = true := rfl

theorem mapping_custom_decoder (P : slack.Pkg) :
    (EventsAPIInnerEventMapping P).filter (fun x => decide (x.2.1 = "MessageEvent")) =
      [(Message, "MessageEvent", MessageEvent P)] := rfl

end slackevents

namespace slackevents
open json

/-- C5, as the claim states it, fails: the shape registered for
shared_channel_invite_requested declares no `Type` field (its tag field is
`EventType`, under "event_type"), so a frame tagged with that discriminator
decodes without error into a record that carries no `Type`. -/
theorem C5_counterexample :
    tagged SharedChannelInviteRequested frameInviteRequested ∧
    ∀ P : slack.Pkg,
      lookupInnerEvent P SharedChannelInviteRequested =
        some ("SharedChannelInviteRequestedEvent", SharedChannelInviteRequestedEvent) ∧
      (unmarshalRegistered P
        ("SharedChannelInviteRequestedEvent", SharedChannelInviteRequestedEvent)
        (some (.obj frameInviteRequested))).2 = none ∧
      (unmarshalRegistered P
        ("SharedChannelInviteRequestedEvent", SharedChannelInviteRequestedEvent)
        (some (.obj frameInviteRequested))).1.field "Type" = none ∧
      (unmarshalRegistered P
        ("SharedChannelInviteRequestedEvent", SharedChannelInviteRequestedEvent)
        (some (.obj frameInviteRequested))).1.field "ChannelID" = some (.str "C1") := by
  refine ⟨⟨?_, ?_⟩, fun P => ⟨rfl, rfl, rfl, rfl⟩⟩
  · have h : members "type" frameInviteRequested = [.str SharedChannelInviteRequested] := rfl
    rw [h]
    simp
  · intro v hv
    have h : members "type" frameInviteRequested = [.str SharedChannelInviteRequested] := rfl
    rw [h] at hv
    simpa using hv

/-- C5 (amended): for every key D of EventsAPIInnerEventMapping other than
shared_channel_invite_requested, a successful decode of an object tagged D into
a fresh value of the type registered for D yields a record whose `Type` field
equals D. -/
theorem C5_registered_type_tag (P : slack.Pkg) (d : EventsAPIType) (target : String × GoType)
    (kvs : List (String × JSON)) (r : GoVal)
    (hreg : lookupInnerEvent P d = some target)
    (hd : d ≠ SharedChannelInviteRequested)
    (htag : tagged d kvs)
    (h : unmarshalRegistered P target (some (.obj kvs)) = (r, none)) :
    r.field "Type" = some (.str d) := by
  have hmem : (d, target) ∈ EventsAPIInnerEventMapping P := mem_of_lookup d target _ hreg
  have hall := List.all_eq_true.mp (mapping_wellTagged P) (d, target) hmem
  have hw : wellTagged target.2 = true := by
    simpa [hd] using hall
  unfold unmarshalRegistered at h
  by_cases hname : target.1 = "MessageEvent"
  · have hf : (d, target) ∈ (EventsAPIInnerEventMapping P).filter
        (fun x => decide (x.2.1 = "MessageEvent")) := by
      simp [List.mem_filter, hmem, hname]
    rw [mapping_custom_decoder P] at hf
    simp only [List.mem_singleton, Prod.mk.injEq] at hf
    obtain ⟨_, ht⟩ := hf
    subst ht
    simp only [if_true] at h
    obtain ⟨a, ha, hcase⟩ := UnmarshalJSON_ok P _ _ r h
    have hty := type_of_wellTagged P.foreign (MessageEvent P) hw kvs d htag a ha
    rcases hcase with ⟨_, he⟩ | ⟨_, m, _, he⟩
    · rw [he]
      exact hty
    · rw [he, withField_field_ne a _ (by decide)]
      exact hty
  · simp only [hname, if_false] at h
    exact type_of_wellTagged P.foreign target.2 hw kvs d htag r h

/-- C5 (amended) at the key app_mention and a frame tagged with it. -/
theorem C5_registered_type_tag_witness :
    lookupInnerEvent slack.minimalPkg AppMention = some ("AppMentionEvent", AppMentionEvent) ∧
    AppMention ≠ SharedChannelInviteRequested ∧
    tagged AppMention [("type", .str "app_mention"), ("user", .str "U1")] ∧
    (unmarshalRegistered slack.minimalPkg ("AppMentionEvent", AppMentionEvent)
      (some (.obj [("type", .str "app_mention"), ("user", .str "U1")]))).1.field "Type" =
        some (.str AppMention) :=
  have htag : tagged AppMention [("type", .str "app_mention"), ("user", .str "U1")] := by
    have h : members "type" [("type", JSON.str "app_mention"), ("user", JSON.str "U1")] =
        [.str AppMention] := rfl
    constructor
    · rw [h]
      simp
    · intro v hv
      rw [h] at hv
      simpa using hv
  ⟨rfl, by decide, htag,
    C5_registered_type_tag slack.minimalPkg AppMention ("AppMentionEvent", AppMentionEvent)
      [("type", .str "app_mention"), ("user", .str "U1")] _ rfl (by decide) htag
      (Prod.ext rfl rfl)⟩

/-- C6, as the claim states it, fails: the constant WorkflowStepExecute is
declared and is not a key of EventsAPIInnerEventMapping. -/
theorem C6_counterexample :
    WorkflowStepExecute ∈ declaredEventsAPITypes ∧
    ∀ P : slack.Pkg, lookupInnerEvent P WorkflowStepExecute = none :=
  ⟨by decide, fun _ => rfl⟩

theorem mapping_keys (P : slack.Pkg) :
    (EventsAPIInnerEventMapping P).map Prod.fst =
      (EventsAPIInnerEventMapping slack.minimalPkg).map Prod.fst := rfl

theorem lookup_isSome_of_mem {β : Type} (k : String) :
    ∀ l : List (String × β), k ∈ l.map Prod.fst → (l.lookup k).isSome
  | [], h => by simp at h
  | (a, b) :: l, h => by
    by_cases hk : k = a
    · subst hk
      simp [List.lookup]
    · have hbeq : (k == a) = false := by simpa using hk
      simp only [List.lookup, hbeq]
      apply lookup_isSome_of_mem k l
      simpa [hk] using h

/-- C6 (amended): every declared EventsAPIType constant other than
WorkflowStepExecute is a key of EventsAPIInnerEventMapping, and every key of the
mapping is a declared constant. -/
theorem C6_mapping_keys (P : slack.Pkg) (d : EventsAPIType) :
    (d ∈ declaredEventsAPITypes → d ≠ WorkflowStepExecute → (lookupInnerEvent P d).isSome) ∧
    ((lookupInnerEvent P d).isSome → d ∈ declaredEventsAPITypes) := by
  have hkeys : ∀ k, k ∈ (EventsAPIInnerEventMapping P).map Prod.fst ↔
      (k ∈ declaredEventsAPITypes ∧ k ≠ WorkflowStepExecute) := by
    intro k
    rw [mapping_keys P]
    have hl : (EventsAPIInnerEventMapping slack.minimalPkg).map Prod.fst =
        declaredEventsAPITypes.filter (fun x => decide (x ≠ WorkflowStepExecute)) := by decide
    rw [hl, List.mem_filter]
    simp
  constructor
  · intro hdecl hne
    exact lookup_isSome_of_mem d _ ((hkeys d).mpr ⟨hdecl, hne⟩)
  · intro hsome
    obtain ⟨t, ht⟩ := Option.isSome_iff_exists.mp hsome
    have hmem := mem_of_lookup d t _ ht
    exact ((hkeys d).mp (List.mem_map_of_mem Prod.fst hmem)).1

/-- C6 (amended) at the constant Message. -/
theorem C6_mapping_keys_witness :
    Message ∈ declaredEventsAPITypes ∧ Message ≠ WorkflowStepExecute ∧
    (lookupInnerEvent slack.minimalPkg Message).isSome :=
  ⟨by decide, by decide,
    (C6_mapping_keys slack.minimalPkg Message).1 (by decide) (by decide)⟩

/-- C7: the string values of the declared EventsAPIType constants are pairwise
distinct, and no key occurs twice in EventsAPIInnerEventMapping, so a key
selects one registered shape. -/
theorem C7_discriminators_unique :
    declaredEventsAPITypes.Nodup ∧
    ∀ P : slack.Pkg, ((EventsAPIInnerEventMapping P).map Prod.fst).Nodup ∧
      ∀ (d : EventsAPIType) (t1 t2 : String × GoType),
        (d, t1) ∈ EventsAPIInnerEventMapping P → (d, t2) ∈ EventsAPIInnerEventMapping P →
          t1 = t2 := by
  refine ⟨by decide, fun P => ?_⟩
  have hnd : ((EventsAPIInnerEventMapping P).map Prod.fst).Nodup := by
    rw [mapping_keys P]
    decide
  refine ⟨hnd, fun d t1 t2 h1 h2 => ?_⟩
  have := eq_of_nodup_map Prod.fst hnd h1 h2 rfl
  exact (Prod.mk.injEq _ _ _ _ ▸ this).2

end slackevents

namespace slackevents
open json

/-- C8: for every frame whose discriminator is not a key of
EventsAPIInnerEventMapping, the catalogue lookup reports absent and decoding
yields, without error, the fallback event: an `EventsAPIInnerEvent` whose `Type`
is the discriminator of the frame and whose untyped `Data` is the document. -/
theorem C8_unknown_discriminator_fallback (P : slack.Pkg) (doc : JSON) (d : EventsAPIType)
    (hd : discriminator doc = .ok d) (habsent : lookupInnerEvent P d = none) :
    decode P (some doc) = .ok (d, fallbackEvent d doc) ∧
    (fallbackEvent d doc).field "Type" = some (.str d) ∧
    (fallbackEvent d doc).field "Data" = some (.iface (some doc)) := by
  refine ⟨?_, rfl, rfl⟩
  simp only [decode, hd, habsent]

/-- C8 at a frame tagged custom_event, which is not a key of the catalogue. -/
theorem C8_unknown_discriminator_fallback_witness :
    discriminator (.obj [("type", .str "custom_event"), ("x", .num "1")]) = .ok "custom_event" ∧
    lookupInnerEvent slack.minimalPkg "custom_event" = none ∧
    decode slack.minimalPkg (some (.obj [("type", .str "custom_event"), ("x", .num "1")])) =
      .ok ("custom_event",
        fallbackEvent "custom_event" (.obj [("type", .str "custom_event"), ("x", .num "1")])) :=
  ⟨rfl, rfl,
    (C8_unknown_discriminator_fallback slack.minimalPkg
      (.obj [("type", .str "custom_event"), ("x", .num "1")]) "custom_event" rfl rfl).1⟩

/-- C9, as the claim states it, fails: the object {"text":"hi"} has no "type"
member, and `MessageEvent.UnmarshalJSON` decodes it without error, for every
package and receiver, into a record with an empty `Type`. -/
theorem C9_counterexample :
    members "type" [("text", .str "hi")] = [] ∧
    ∀ (P : slack.Pkg) (e : GoVal),
      (MessageEvent.UnmarshalJSON P (some (.obj [("text", .str "hi")])) e).2 = none ∧
      (MessageEvent.UnmarshalJSON P (some (.obj [("text", .str "hi")])) e).1.field "Type" =
        some (.str "") ∧
      (MessageEvent.UnmarshalJSON P (some (.obj [("text", .str "hi")])) e).1.field "Text" =
        some (.str "hi") :=
  ⟨rfl, fun _ _ => ⟨rfl, rfl, rfl⟩⟩

/-- C9 (amended): `MessageEvent.UnmarshalJSON` does not check for the
discriminator: whenever it decodes an object that has no "type" member without
error, the record it leaves has the empty string in `Type`. -/
theorem C9_missing_type_left_empty (P : slack.Pkg) (kvs : List (String × JSON)) (e e1 : GoVal)
    (hno : members "type" kvs = [])
    (h : MessageEvent.UnmarshalJSON P (some (.obj kvs)) e = (e1, none)) :
    e1.field "Type" = some (.str "") := by
  obtain ⟨a, ha, hcase⟩ := UnmarshalJSON_ok P _ e e1 h
  have hT : ("Type", "type", GoType.string) ∈ (MessageEvent P).fields := by
    simp [MessageEvent, GoType.fields]
  have hfield := MessageEvent_field_after_unmarshal P hT _ a ha
  simp only [docMembers, hno] at hfield
  rcases hcase with ⟨_, he⟩ | ⟨_, m, _, he⟩
  · rw [he, hfield]
    rfl
  · rw [he, withField_field_ne a _ (by decide), hfield]
    rfl

/-- C9 (amended) at the object {"text":"hi"}. -/
theorem C9_missing_type_left_empty_witness :
    members "type" [("text", .str "hi")] = [] ∧
    (MessageEvent.UnmarshalJSON slack.minimalPkg (some (.obj [("text", .str "hi")]))
      zeroEvent).2 = none ∧
    (MessageEvent.UnmarshalJSON slack.minimalPkg (some (.obj [("text", .str "hi")]))
      zeroEvent).1.field "Type" = some (.str "") :=
  ⟨rfl, rfl,
    C9_missing_type_left_empty slack.minimalPkg [("text", .str "hi")] zeroEvent _ rfl
      (Prod.ext rfl rfl)⟩

/-- C10, as the claim states it, fails: in {"type":"message","text":null} the
member "text" selects the string field `Text` and holds a value that is not a
string, and `MessageEvent.UnmarshalJSON` returns no error and leaves `Text` at
its default, the empty string. -/
theorem C10_counterexample :
    fieldFor (MessageEvent slack.minimalPkg).fields "text" = some ("Text", "text", .string) ∧
    ∀ (P : slack.Pkg) (e : GoVal),
      (MessageEvent.UnmarshalJSON P
        (some (.obj [("type", .str "message"), ("text", .null)])) e).2 = none ∧
      (MessageEvent.UnmarshalJSON P
        (some (.obj [("type", .str "message"), ("text", .null)])) e).1.field "Text" =
          some (.str "") :=
  ⟨rfl, fun _ _ => ⟨rfl, rfl⟩⟩

/-- C10 (amended): `MessageEvent.UnmarshalJSON` returns an error and leaves the
receiver as it was when the input is not a JSON document, when the document is
of a kind other than object or null, and when some member of the object selects
a field of the MessageEvent shape and holds a value, other than null, of a kind
the field's type is not decoded from. -/
theorem C10_decode_errors (P : slack.Pkg) (data : Option JSON) (e : GoVal)
    (h : data = none ∨
      (∃ j, data = some j ∧ kindMismatch (MessageEvent P) j = true) ∨
      (∃ kvs k v f, data = some (.obj kvs) ∧ (k, v) ∈ kvs ∧
        fieldFor (MessageEvent P).fields k = some f ∧ kindMismatch f.2.2 v = true)) :
    ∃ err, MessageEvent.UnmarshalJSON P data e = (e, some err) := by
  have hfirst : (Unmarshal P.foreign data (MessageEvent P)
      (zero P.foreign (MessageEvent P))).2 ≠ none := by
    rcases h with h | ⟨j, hj, hbad⟩ | ⟨kvs, k, v, f, hd, hmem, hf, hbad⟩
    · subst h
      simp [Unmarshal]
    · subst hj
      exact unmarshalValue_kindMismatch P.foreign _ j _ hbad
    · subst hd
      have hs : MessageEvent P = .struct (MessageEvent P).fields := rfl
      simp only [Unmarshal]
      rw [hs, unmarshalValue_struct_obj]
      exact foldl_memberStep_error_of_mem P.foreign _ (k, v) f hf
        (fun cur => unmarshalValue_kindMismatch P.foreign _ v cur hbad) kvs _ hmem
  rcases hr : Unmarshal P.foreign data (MessageEvent P) (zero P.foreign (MessageEvent P))
    with ⟨a, err1⟩
  rw [hr] at hfirst
  cases err1 with
  | none => exact absurd rfl hfirst
  | some err =>
    refine ⟨err, ?_⟩
    simp only [MessageEvent.UnmarshalJSON, hr]

/-- C10 (amended) at {"type":"message","text":5}: the member "text" selects the
string field `Text`, holds a number, and decoding fails with the receiver
unchanged. -/
theorem C10_decode_errors_witness :
    (("text", JSON.num "5") ∈ [("type", JSON.str "message"), ("text", JSON.num "5")] ∧
      fieldFor (MessageEvent slack.minimalPkg).fields "text" = some ("Text", "text", .string) ∧
      kindMismatch .string (.num "5") = true) ∧
    ∃ err, MessageEvent.UnmarshalJSON slack.minimalPkg
      (some (.obj [("type", .str "message"), ("text", .num "5")])) zeroEvent =
        (zeroEvent, some err) :=
  have hmem : ("text", JSON.num "5") ∈ [("type", JSON.str "message"), ("text", JSON.num "5")] :=
    List.mem_cons_of_mem _ (List.mem_cons_self _ _)
  ⟨⟨hmem, rfl, rfl⟩,
    C10_decode_errors slack.minimalPkg _ zeroEvent
      (Or.inr (Or.inr ⟨_, "text", .num "5", ("Text", "text", .string), rfl, hmem, rfl, rfl⟩))⟩

end slackevents

/-! ## MessageEvent.IsEdited -/

namespace slackevents
open json

/-- C14: for a MessageEvent whose `Message` is a pointer, nil or to a message
whose `Edited` is a pointer, `IsEdited` returns without a nil dereference; it
returns true exactly when `Message` is non-nil and `Message.Edited` is non-nil,
and false when `Message` is nil. -/
theorem C14_isEdited (e : GoVal) (p : Option GoVal)
    (hmsg : e.field "Message" = some (.ptr p))
    (hed : ∀ m, p = some m → ∃ q, m.field "Edited" = some (.ptr q)) :
    ∃ b, MessageEvent.IsEdited e = some b ∧
      (b = true ↔ ∃ m q, p = some m ∧ m.field "Edited" = some (.ptr (some q))) ∧
      (p = none → b = false) := by
  cases p with
  | none =>
    refine ⟨false, ?_, ?_, fun _ => rfl⟩
    · simp [MessageEvent.IsEdited, hmsg, neNil]
    · simp
  | some m =>
    obtain ⟨q, hq⟩ := hed m rfl
    cases q with
    | none =>
      refine ⟨false, ?_, ?_, fun h => nomatch h⟩
      · simp [MessageEvent.IsEdited, hmsg, neNil, selectThroughPtr, hq]
      · simp [hq]
    | some q =>
      refine ⟨true, ?_, ?_, fun h => nomatch h⟩
      · simp [MessageEvent.IsEdited, hmsg, neNil, selectThroughPtr, hq]
      · simp [hq]

/-- C14 at the zero event, whose `Message` is nil (the result is false), and at
the event decoded from a frame whose nested message carries an `edited` object
(the result is true). -/
theorem C14_isEdited_witness :
    zeroEvent.field "Message" = some (.ptr none) ∧
    MessageEvent.IsEdited zeroEvent = some false ∧
    MessageEvent.IsEdited
      (MessageEvent.UnmarshalJSON slack.minimalPkg (some slacktest.frameWithEdited)
        zeroEvent).1 = some true :=
  ⟨rfl,
    (by
      obtain ⟨b, hb, _, hnil⟩ := C14_isEdited zeroEvent none rfl (fun m hm => nomatch hm)
      rw [hb, hnil rfl]),
    rfl⟩

end slackevents

/-! ## The test server -/

namespace slacktest
open json

theorem lookup_cons_ne {β : Type} (q p : String) (h : β) (l : List (String × β))
    (hne : q ≠ p) : List.lookup q ((p, h) :: l) = List.lookup q l := by
  have hb : (q == p) = false := by simpa using hne
  simp [List.lookup, hb]

theorem lookup_cons_self {β : Type} (p : String) (h : β) (l : List (String × β)) :
    List.lookup p ((p, h) :: l) = some h := by
  simp [List.lookup]

theorem Handle_registered (E : Env) (sts : Server) (pattern : String) (h : Handler)
    (hreg : pattern ∈ sts.registered) : sts.Handle E pattern h = some sts := by
  simp [Server.Handle, hreg]

theorem Handle_fresh (E : Env) (sts s : Server) (pattern : String) (h : Handler)
    (hreg : pattern ∉ sts.registered) (hs : sts.Handle E pattern h = some s) :
    s = sts.withRoute pattern h := by
  simp only [Server.Handle, hreg, if_false, muxHandle] at hs
  by_cases hacc : E.muxAccepts (sts.mux.map Prod.fst) pattern = true
  · simp only [hacc, if_true, Option.some.injEq] at hs
    rw [← hs]
    rfl
  · simp [hacc] at hs

theorem handleAll_none (E : Env) : ∀ calls, Server.handleAll E none calls = none
  | [] => rfl
  | _ :: _ => rfl

/-- A sequence of `Handle` calls that does not panic keeps the two collections,
keeps the route of every pattern registered before, and binds every other
pattern to the handler of the first call that names it. -/
theorem handleAll_spec (E : Env) :
    ∀ (calls : List (String × Handler)) (sts s : Server),
      Server.handleAll E (some sts) calls = some s →
        s.seenInboundMessages = sts.seenInboundMessages ∧
        s.seenOutboundMessages = sts.seenOutboundMessages ∧
        (∀ q, q ∈ sts.registered → q ∈ s.registered) ∧
        (∀ q, q ∈ sts.registered → s.route q = sts.route q) ∧
        (∀ q h, q ∉ sts.registered →
          calls.find? (fun c => decide (c.1 = q)) = some (q, h) → s.route q = some h)
  | [], sts, s, hs => by
    simp only [Server.handleAll, Option.some.injEq] at hs
    subst hs
    exact ⟨rfl, rfl, fun _ h => h, fun _ _ => rfl, fun q h _ hf => by simp at hf⟩
  | (p, h) :: rest, sts, s, hs => by
    simp only [Server.handleAll] at hs
    by_cases hreg : p ∈ sts.registered
    · rw [Handle_registered E sts p h hreg] at hs
      obtain ⟨hin, hout, hsub, hkeep, hnew⟩ := handleAll_spec E rest sts s hs
      refine ⟨hin, hout, hsub, hkeep, ?_⟩
      intro q h1 hq hf
      have hne : ¬ p = q := fun heq => hq (heq ▸ hreg)
      rw [List.find?_cons_of_neg _ (by simpa using hne)] at hf
      exact hnew q h1 hq hf
    · cases hh : sts.Handle E p h with
      | none =>
        rw [hh, handleAll_none] at hs
        exact absurd hs (by simp)
      | some s1 =>
        rw [hh] at hs
        have hs1 := Handle_fresh E sts s1 p h hreg hh
        subst hs1
        obtain ⟨hin, hout, hsub, hkeep, hnew⟩ := handleAll_spec E rest _ s hs
        refine ⟨hin, hout, ?_, ?_, ?_⟩
        · intro q hq
          exact hsub q (List.mem_cons_of_mem _ hq)
        · intro q hq
          rw [hkeep q (List.mem_cons_of_mem _ hq)]
          have hne : q ≠ p := fun heq => hreg (heq ▸ hq)
          simp only [Server.route]
          exact lookup_cons_ne q p h sts.mux hne
        · intro q h1 hq hf
          by_cases hpq : p = q
          · subst hpq
            rw [List.find?_cons_of_pos _ (by simp)] at hf
            simp only [Option.some.injEq, Prod.mk.injEq, true_and] at hf
            subst hf
            rw [hkeep p (List.mem_cons_self _ _)]
            simp only [Server.route]
            exact lookup_cons_self p h sts.mux
          · rw [List.find?_cons_of_neg _ (by simpa using hpq)] at hf
            have hq1 : q ∉ p :: sts.registered := by
              intro hm
              rcases List.mem_cons.mp hm with hm | hm
              · exact hpq hm.symm
              · exact hq hm
            exact hnew q h1 hq1 hf

theorem handleAll_append (E : Env) (calls1 calls2 : List (String × Handler)) :
    ∀ s : Option Server,
      Server.handleAll E s (calls1 ++ calls2) =
        Server.handleAll E (Server.handleAll E s calls1) calls2 := by
  induction calls1 with
  | nil => intro s; cases s <;> cases calls2 <;> rfl
  | cons c calls1 ih =>
    intro s
    cases s with
    | none => simp [handleAll_none]
    | some sts =>
      obtain ⟨p, h⟩ := c
      simp only [List.cons_append, Server.handleAll]
      exact ih _

/-- C15: `Handle` on a pattern that is registered already leaves the server,
its registered set and its routes, as it was; and in the server NewTestServer
builds, every pattern is served by the handler of the first `Handle` call that
names it, the calls of the binders coming before the default ones: a handler
that a binder registers for a default pattern serves that pattern, the default
registration being a call on a registered pattern. -/
theorem C15_first_registration_wins (E : Env) :
    (∀ (sts : Server) (pattern : String) (h : Handler),
      pattern ∈ sts.registered → sts.Handle E pattern h = some sts) ∧
    (∀ (addr : String) (custom : List Binder) (s : Server) (pattern : String) (h : Handler),
      NewTestServer E addr custom = some s →
      (custom.flatten ++ defaultRoutes).find? (fun c => decide (c.1 = pattern)) =
          some (pattern, h) →
        s.route pattern = some h) := by
  refine ⟨Handle_registered E, fun addr custom s pattern h hs hf => ?_⟩
  unfold NewTestServer at hs
  rw [← handleAll_append] at hs
  cases hall : Server.handleAll E (some newServer) (custom.flatten ++ defaultRoutes) with
  | none => simp [hall] at hs
  | some s1 =>
    simp only [hall, Option.some.injEq] at hs
    obtain ⟨_, _, _, _, hnew⟩ := handleAll_spec E _ newServer s1 hall
    rw [← hs]
    exact hnew pattern h (by simp [newServer]) hf

end slacktest

namespace slacktest
open json

/-- C15 at a binder that registers its own handler for "/users.info": the
server is built, "/users.info" is served by that handler, and
"/users.lookupByEmail" keeps the default one. -/
theorem C15_first_registration_wins_witness :
    (NewTestServer exampleEnv "127.0.0.1:0" [customUsersInfo]).isSome = true ∧
    (∀ s, NewTestServer exampleEnv "127.0.0.1:0" [customUsersInfo] = some s →
      s.route "/users.info" = some (Handler.custom "mine") ∧
      s.route "/users.lookupByEmail" = some Handler.usersInfoHandler) :=
  ⟨by decide, fun s hs =>
    ⟨(C15_first_registration_wins exampleEnv).2 _ [customUsersInfo] s _ _ hs rfl,
      (C15_first_registration_wins exampleEnv).2 _ [customUsersInfo] s _ _ hs rfl⟩⟩

theorem SawOutgoingMessage_loop_iff (E : Env) (msg : String) :
    ∀ log : List String, SawOutgoingMessage.loop E msg log = true ↔
      ∃ m ∈ log, ∃ evt, unmarshalMessageEvent E m = (evt, none) ∧ eventText evt = msg
  | [] => by simp [SawOutgoingMessage.loop]
  | m :: rest => by
    have ih := SawOutgoingMessage_loop_iff E msg rest
    rcases hr : unmarshalMessageEvent E m with ⟨evt, err⟩
    cases err with
    | some err =>
      simp only [SawOutgoingMessage.loop, hr, ih, List.mem_cons, exists_eq_or_imp]
      simp
    | none =>
      by_cases ht : eventText evt = msg
      · simp [SawOutgoingMessage.loop, hr, ht]
      · simp only [SawOutgoingMessage.loop, hr, ht, if_false, ih, List.mem_cons,
          exists_eq_or_imp]
        simp [ht]

/-- C16: `SawOutgoingMessage(msg)` is true if and only if some body of the
outbound log decodes without error as a `slack.MessageEvent` whose `Text` equals
`msg`; a body that fails to decode contributes nothing. -/
theorem C16_saw_outgoing_message (E : Env) (sts : Server) (msg : String) :
    sts.SawOutgoingMessage E msg = true ↔
      ∃ m ∈ sts.GetSeenOutboundMessages, ∃ evt,
        unmarshalMessageEvent E m = (evt, none) ∧ eventText evt = msg :=
  SawOutgoingMessage_loop_iff E msg _

theorem bodyMatches_iff (E : Env) (pattern m : String) :
    bodyMatches E pattern m = true ↔
      ∃ re, E.compile pattern = some re ∧ ∃ evt,
        unmarshalMessageEvent E m = (evt, none) ∧ re (eventText evt) = true := by
  unfold bodyMatches regexp.MatchString
  rcases hr : unmarshalMessageEvent E m with ⟨evt, err⟩
  cases err with
  | some err => simp
  | none =>
    cases hc : E.compile pattern with
    | none => simp
    | some re =>
      cases hm : re (eventText evt) <;> simp [hm]

theorem SawOutgoingMessageMatching_loop_eq (E : Env) (pattern : String) :
    ∀ log : List String,
      SawOutgoingMessageMatching.loop E pattern log = log.any (bodyMatches E pattern)
  | [] => rfl
  | m :: rest => by
    have ih := SawOutgoingMessageMatching_loop_eq E pattern rest
    simp only [SawOutgoingMessageMatching.loop, List.any_cons, bodyMatches]
    rcases hr : unmarshalMessageEvent E m with ⟨evt, err⟩
    cases err with
    | some err => simpa using ih
    | none =>
      rcases hm : regexp.MatchString E.compile pattern (eventText evt) with ⟨ok, merr⟩
      cases ok <;> cases merr <;> simp [hm, ih]

theorem foldl_or_eq_any (f : String → Bool) :
    ∀ (log : List String) (b : Bool),
      log.foldl (fun found m => found || f m) b = (b || log.any f)
  | [], b => by simp
  | m :: rest, b => by
    simp only [List.foldl_cons, List.any_cons, foldl_or_eq_any f rest]
    cases b <;> cases f m <;> simp

/-- C17: `SawOutgoingMessageMatching(pattern)` is true if and only if the
pattern compiles and some body of the outbound log decodes without error as a
message event whose `Text` the compiled pattern matches; the loop that returns
at the first match computes what a scan of the whole log computes; and for a
pattern that does not compile the result is false whatever the log holds. -/
theorem C17_saw_outgoing_matching (E : Env) (sts : Server) (pattern : String) :
    (sts.SawOutgoingMessageMatching E pattern = true ↔
      ∃ re, E.compile pattern = some re ∧
        ∃ m ∈ sts.seenOutboundMessages.messages, ∃ evt,
          unmarshalMessageEvent E m = (evt, none) ∧ re (eventText evt) = true) ∧
    sts.SawOutgoingMessageMatching E pattern =
      matchesWholeLog E pattern sts.seenOutboundMessages.messages ∧
    (E.compile pattern = none → sts.SawOutgoingMessageMatching E pattern = false) := by
  have heq : sts.SawOutgoingMessageMatching E pattern =
      sts.seenOutboundMessages.messages.any (bodyMatches E pattern) :=
    SawOutgoingMessageMatching_loop_eq E pattern _
  have hiff : sts.SawOutgoingMessageMatching E pattern = true ↔
      ∃ re, E.compile pattern = some re ∧
        ∃ m ∈ sts.seenOutboundMessages.messages, ∃ evt,
          unmarshalMessageEvent E m = (evt, none) ∧ re (eventText evt) = true := by
    rw [heq, List.any_eq_true]
    constructor
    · rintro ⟨m, hm, hb⟩
      obtain ⟨re, hre, evt, hevt, hmatch⟩ := (bodyMatches_iff E pattern m).mp hb
      exact ⟨re, hre, m, hm, evt, hevt, hmatch⟩
    · rintro ⟨re, hre, m, hm, evt, hevt, hmatch⟩
      exact ⟨m, hm, (bodyMatches_iff E pattern m).mpr ⟨re, hre, evt, hevt, hmatch⟩⟩
  refine ⟨hiff, ?_, ?_⟩
  · rw [heq, matchesWholeLog, foldl_or_eq_any]
    simp
  · intro hnone
    cases hres : sts.SawOutgoingMessageMatching E pattern with
    | false => rfl
    | true =>
      obtain ⟨re, hre, _⟩ := hiff.mp hres
      rw [hnone] at hre
      exact absurd hre (by simp)

/-- C18: after `SendToWebsocket(a)` and then `SendToWebsocket(b)`,
`GetSeenOutboundMessages()` returns the bodies it returned before followed by
`a` and `b`, unchanged and in call order. -/
theorem C18_send_to_websocket_order (sts : Server) (a b : String) :
    ((sts.SendToWebsocket a).SendToWebsocket b).GetSeenOutboundMessages =
      sts.GetSeenOutboundMessages ++ [a, b] := by
  simp [Server.SendToWebsocket, Server.GetSeenOutboundMessages, messageCollection.observe,
    messageCollection.get]

theorem sendMessage_inbound (E : Env) (sts : Server) (m : GoVal) :
    (sts.sendMessage E m).seenInboundMessages = sts.seenInboundMessages := by
  unfold Server.sendMessage
  cases E.Marshal m <;> rfl

/-- C19: every outbound send operation leaves the inbound log as it was:
`GetSeenInboundMessages()` returns the same bodies afterwards, and so
`SawIncomingMessage(m)` returns the same result for every `m`. -/
theorem C19_sends_keep_inbound (E : Env) (sts : Server) (s channel msg q : String) :
    ((sts.SendToWebsocket s).GetSeenInboundMessages = sts.GetSeenInboundMessages ∧
      (sts.SendToWebsocket s).SawIncomingMessage E q = sts.SawIncomingMessage E q) ∧
    ((sts.SendMessageToBot E channel msg).GetSeenInboundMessages = sts.GetSeenInboundMessages ∧
      (sts.SendMessageToBot E channel msg).SawIncomingMessage E q =
        sts.SawIncomingMessage E q) ∧
    ((sts.SendDirectMessageToBot E msg).GetSeenInboundMessages = sts.GetSeenInboundMessages ∧
      (sts.SendDirectMessageToBot E msg).SawIncomingMessage E q =
        sts.SawIncomingMessage E q) ∧
    ((sts.SendMessageToChannel E channel msg).GetSeenInboundMessages =
        sts.GetSeenInboundMessages ∧
      (sts.SendMessageToChannel E channel msg).SawIncomingMessage E q =
        sts.SawIncomingMessage E q) ∧
    (sts.SendBotChannelInvite.GetSeenInboundMessages = sts.GetSeenInboundMessages ∧
      sts.SendBotChannelInvite.SawIncomingMessage E q = sts.SawIncomingMessage E q) ∧
    (sts.SendBotGroupInvite.GetSeenInboundMessages = sts.GetSeenInboundMessages ∧
      sts.SendBotGroupInvite.SawIncomingMessage E q = sts.SawIncomingMessage E q) := by
  have hsend : ∀ m, (sts.sendMessage E m).GetSeenInboundMessages = sts.GetSeenInboundMessages ∧
      (sts.sendMessage E m).SawIncomingMessage E q = sts.SawIncomingMessage E q := by
    intro m
    simp [Server.GetSeenInboundMessages, Server.SawIncomingMessage, sendMessage_inbound]
  exact ⟨⟨rfl, rfl⟩, hsend _, hsend _, hsend _, ⟨rfl, rfl⟩, ⟨rfl, rfl⟩⟩

end slacktest

/-! ## Members that select no field -/

namespace json

theorem memberStep_skip (F : Foreign) (fields : List (String × String × GoType))
    (acc : List (String × GoVal) × Option UnmarshalError) (k : String) (v : JSON)
    (h : fieldFor fields k = none) : memberStep F fields acc (k, v) = acc := by
  simp [memberStep, h]

theorem foldl_memberStep_insert (F : Foreign) (fields : List (String × String × GoType))
    (k : String) (v : JSON) (h : fieldFor fields k = none)
    (kvs1 kvs2 : List (String × JSON)) (acc : List (String × GoVal) × Option UnmarshalError) :
    (kvs1 ++ (k, v) :: kvs2).foldl (memberStep F fields) acc =
      (kvs1 ++ kvs2).foldl (memberStep F fields) acc := by
  rw [List.foldl_append, List.foldl_append, List.foldl_cons, memberStep_skip F fields _ k v h]

/-- A member that selects no field of a struct does not change what the decoding
of the object into the struct returns. -/
theorem unmarshal_insert (F : Foreign) (fields : List (String × String × GoType))
    (k : String) (v : JSON) (h : fieldFor fields k = none)
    (kvs1 kvs2 : List (String × JSON)) (cur : GoVal) :
    Unmarshal F (some (.obj (kvs1 ++ (k, v) :: kvs2))) (.struct fields) cur =
      Unmarshal F (some (.obj (kvs1 ++ kvs2))) (.struct fields) cur := by
  simp only [Unmarshal]
  rw [unmarshalValue_struct_obj, unmarshalValue_struct_obj, foldl_memberStep_insert F fields k v h]

end json

namespace slackevents
open json

/-- C11, as the claim states it, fails: "edited" is not a field of the
MessageEvent shape, and {"type":"message","text":"hi"} decodes without error,
but the same document extended with "edited": 5 does not: the second pass
decodes the root document as `slack.Msg`, whose field `Edited` rejects a number.
This holds in the package where `slack.Edited` is the struct of a user and a
timestamp, and in every package whose decoder of `slack.Edited` rejects the
number. -/
theorem C11_counterexample :
    fieldFor (MessageEvent slack.editedPkg).fields "edited" = none ∧
    (MessageEvent.UnmarshalJSON slack.editedPkg
      (some (.obj [("type", .str "message"), ("text", .str "hi")])) zeroEvent).2 = none ∧
    (MessageEvent.UnmarshalJSON slack.editedPkg
      (some (.obj [("type", .str "message"), ("text", .str "hi"), ("edited", .num "5")]))
      zeroEvent).2 = some (.typeMismatch "number") ∧
    ∀ (P : slack.Pkg) (e : GoVal),
      (P.foreign.unmarshal "slack.Edited" (.num "5") (P.foreign.zero "slack.Edited")).2 ≠ none →
      (MessageEvent.UnmarshalJSON P
        (some (.obj [("type", .str "message"), ("text", .str "hi")])) e).2 = none ∧
      (MessageEvent.UnmarshalJSON P
        (some (.obj [("type", .str "message"), ("text", .str "hi"), ("edited", .num "5")]))
        e).2 ≠ none := by
  refine ⟨rfl, rfl, rfl, fun P e hbad => ⟨rfl, ?_⟩⟩
  have h2 : (Unmarshal P.foreign
      (some (.obj [("type", .str "message"), ("text", .str "hi"), ("edited", .num "5")]))
      (slack.Msg P) (zero P.foreign (slack.Msg P))).2 =
      (P.foreign.unmarshal "slack.Edited" (.num "5") (P.foreign.zero "slack.Edited")).2 := rfl
  intro hok
  obtain ⟨a, ha, hcase⟩ := UnmarshalJSON_ok P _ e _ (Prod.ext rfl hok)
  have ha1 : a = (Unmarshal P.foreign
      (some (.obj [("type", .str "message"), ("text", .str "hi"), ("edited", .num "5")]))
      (MessageEvent P) (zero P.foreign (MessageEvent P))).1 := by rw [ha]
  rcases hcase with ⟨hnil, _⟩ | ⟨_, m, hm, _⟩
  · rw [ha1] at hnil
    have htrue : isNil ((Unmarshal P.foreign
        (some (.obj [("type", .str "message"), ("text", .str "hi"), ("edited", .num "5")]))
        (MessageEvent P) (zero P.foreign (MessageEvent P))).1.field "Message") = true := rfl
    rw [htrue] at hnil
    exact absurd hnil (by decide)
  · rw [hm] at h2
    exact hbad h2.symm

/-- C11 (amended): a key that selects no field of the MessageEvent shape leaves
the first pass as it was, so when the document and the document extended with
that key both decode without error, the two records agree on every top-level
field other than `Message`; and when the key selects no field of `slack.Msg`
either, the extended document decodes exactly as the document does, to the same
error or to the same record, wherever the member is inserted and whatever value
it holds. -/
theorem C11_unknown_fields_tolerated (P : slack.Pkg) (kvs1 kvs2 : List (String × JSON))
    (k : String) (v : JSON) (e : GoVal)
    (hevent : fieldFor (MessageEvent P).fields k = none) :
    (∀ e1 e2 : GoVal,
      MessageEvent.UnmarshalJSON P (some (.obj (kvs1 ++ (k, v) :: kvs2))) e = (e1, none) →
      MessageEvent.UnmarshalJSON P (some (.obj (kvs1 ++ kvs2))) e = (e2, none) →
      ∀ g, g ≠ "Message" → e1.field g = e2.field g) ∧
    (fieldFor (slack.Msg P).fields k = none →
      MessageEvent.UnmarshalJSON P (some (.obj (kvs1 ++ (k, v) :: kvs2))) e =
        MessageEvent.UnmarshalJSON P (some (.obj (kvs1 ++ kvs2))) e) := by
  have hfirst : Unmarshal P.foreign (some (.obj (kvs1 ++ (k, v) :: kvs2))) (MessageEvent P)
      (zero P.foreign (MessageEvent P)) =
      Unmarshal P.foreign (some (.obj (kvs1 ++ kvs2))) (MessageEvent P)
        (zero P.foreign (MessageEvent P)) :=
    unmarshal_insert P.foreign (MessageEvent P).fields k v hevent kvs1 kvs2 _
  constructor
  · intro e1 e2 h1 h2 g hg
    obtain ⟨a1, ha1, hc1⟩ := UnmarshalJSON_ok P _ e e1 h1
    obtain ⟨a2, ha2, hc2⟩ := UnmarshalJSON_ok P _ e e2 h2
    rw [hfirst, ha2] at ha1
    have ha : a2 = a1 := (Prod.mk.inj ha1).1
    subst ha
    have hf1 : e1.field g = a2.field g := by
      rcases hc1 with ⟨_, he⟩ | ⟨_, m, _, he⟩
      · rw [he]
      · rw [he, withField_field_ne a2 _ hg]
    have hf2 : e2.field g = a2.field g := by
      rcases hc2 with ⟨_, he⟩ | ⟨_, m, _, he⟩
      · rw [he]
      · rw [he, withField_field_ne a2 _ hg]
    rw [hf1, hf2]
  · intro hmsg
    have hsecond : Unmarshal P.foreign (some (.obj (kvs1 ++ (k, v) :: kvs2))) (slack.Msg P)
        (zero P.foreign (slack.Msg P)) =
        Unmarshal P.foreign (some (.obj (kvs1 ++ kvs2))) (slack.Msg P)
          (zero P.foreign (slack.Msg P)) :=
      unmarshal_insert P.foreign (slack.Msg P).fields k v hmsg kvs1 kvs2 _
    simp only [MessageEvent.UnmarshalJSON, hfirst, hsecond]

/-- C11 (amended) at the scenario frame extended with the member "team_domain",
which selects no field of MessageEvent and none of `slack.Msg`: the extended
frame decodes as the frame does, without error. -/
theorem C11_unknown_fields_tolerated_witness :
    fieldFor (MessageEvent slack.minimalPkg).fields "team_domain" = none ∧
    fieldFor (slack.Msg slack.minimalPkg).fields "team_domain" = none ∧
    MessageEvent.UnmarshalJSON slack.minimalPkg
      (some (.obj ([("type", .str "message"), ("text", .str "hello")] ++
        ("team_domain", .arr [.num "1"]) :: [("channel", .str "C1")]))) zeroEvent =
      MessageEvent.UnmarshalJSON slack.minimalPkg
        (some (.obj ([("type", .str "message"), ("text", .str "hello")] ++
          [("channel", .str "C1")]))) zeroEvent ∧
    (MessageEvent.UnmarshalJSON slack.minimalPkg
      (some (.obj ([("type", .str "message"), ("text", .str "hello")] ++
        [("channel", .str "C1")]))) zeroEvent).2 = none :=
  ⟨rfl, rfl,
    (C11_unknown_fields_tolerated slack.minimalPkg
      [("type", .str "message"), ("text", .str "hello")] [("channel", .str "C1")]
      "team_domain" (.arr [.num "1"]) zeroEvent rfl).2 rfl, rfl⟩

end slackevents

namespace json

theorem members_eq_nil_of_forall (name : String) (kvs : List (String × JSON))
    (h : ∀ kv ∈ kvs, foldName kv.1 ≠ foldName name) : members name kvs = [] := by
  unfold members
  rw [List.map_eq_nil_iff, List.filter_eq_nil_iff]
  intro kv hkv
  simpa using h kv hkv

end json

namespace slackevents
open json

/-- C13: for a frame whose members spell only "type", "subtype" and
"deleted_ts" (a deletion notification, with no "message" payload), a successful
`UnmarshalJSON` leaves in `Message` a non-nil message in which every field of
`slack.Msg` other than those three holds its zero value: no content field is
set. `slack.Msg` is taken to be a well-formed declaration. -/
theorem C13_deletion_payload (P : slack.Pkg) (kvs : List (String × JSON)) (e e1 : GoVal)
    (hwf : P.WellFormed)
    (honly : ∀ kv ∈ kvs, foldName kv.1 = foldName "type" ∨ foldName kv.1 = foldName "subtype" ∨
      foldName kv.1 = foldName "deleted_ts")
    (h : MessageEvent.UnmarshalJSON P (some (.obj kvs)) e = (e1, none)) :
    ∃ m, e1.field "Message" = some (.ptr (some m)) ∧
      ∀ f ∈ (slack.Msg P).fields,
        foldName f.2.1 ≠ foldName "type" → foldName f.2.1 ≠ foldName "subtype" →
        foldName f.2.1 ≠ foldName "deleted_ts" →
          m.field f.1 = some (zero P.foreign f.2.2) := by
  obtain ⟨a, ha, hcase⟩ := UnmarshalJSON_ok P _ e e1 h
  have hnomsg : members "message" kvs = [] := by
    apply members_eq_nil_of_forall
    intro kv hkv
    rcases honly kv hkv with h1 | h1 | h1 <;> rw [h1] <;> decide
  have hfield := MessageEvent_field_after_unmarshal P (MessageEvent_Message_mem P) _ a ha
  simp only [docMembers, hnomsg, decodeAll, List.foldl_nil] at hfield
  rcases hcase with ⟨hnil, _⟩ | ⟨_, m, hm, he⟩
  · rw [hfield] at hnil
    simp [isNil, zero] at hnil
  · refine ⟨m, ?_, ?_⟩
    · rw [he]
      exact withField_field_same a _ _ (by simp [hfield])
    · intro f hf h1 h2 h3
      rw [Msg_field_after_unmarshal P hwf hf _ m hm]
      have hnone : members f.2.1 kvs = [] := by
        apply members_eq_nil_of_forall
        intro kv hkv heq
        rcases honly kv hkv with h4 | h4 | h4
        · exact h1 (heq ▸ h4)
        · exact h2 (heq ▸ h4)
        · exact h3 (heq ▸ h4)
      simp only [docMembers, hnone, decodeAll, List.foldl_nil]

/-- C13 at the deletion frame {"type":"message","subtype":"message_deleted",
"deleted_ts":"1700000000.000100"}: decoding succeeds, `Message` is non-nil, its
`Text`, `Channel`, `User` and `Timestamp` are empty and its `Edited` is nil; its
`Type` is "message". -/
theorem C13_deletion_payload_witness :
    (MessageEvent.UnmarshalJSON slack.minimalPkg (some (.obj frameDeleted)) zeroEvent).2 = none ∧
    (∃ m, (MessageEvent.UnmarshalJSON slack.minimalPkg (some (.obj frameDeleted))
        zeroEvent).1.field "Message" = some (.ptr (some m)) ∧
      m.field "Text" = some (.str "") ∧ m.field "Channel" = some (.str "") ∧
      m.field "User" = some (.str "") ∧ m.field "Timestamp" = some (.str "") ∧
      m.field "Edited" = some (.ptr none)) ∧
    (MessageEvent.UnmarshalJSON slack.minimalPkg (some (.obj frameDeleted))
      zeroEvent).1.fieldOfPtr "Message" "Type" = some (.str "message") ∧
    (MessageEvent.UnmarshalJSON slack.minimalPkg (some (.obj frameDeleted))
      zeroEvent).1.field "DeletedTimeStamp" = some (.str "1700000000.000100") := by
  have honly : ∀ kv ∈ frameDeleted, foldName kv.1 = foldName "type" ∨
      foldName kv.1 = foldName "subtype" ∨ foldName kv.1 = foldName "deleted_ts" := by
    intro kv hkv
    simp only [frameDeleted, List.mem_cons, List.mem_singleton, List.not_mem_nil, or_false] at hkv
    rcases hkv with h | h | h <;> subst h <;> decide
  obtain ⟨m, hm, hzero⟩ := C13_deletion_payload slack.minimalPkg frameDeleted zeroEvent _
    minimalPkg_wellFormed honly (Prod.ext rfl rfl)
  refine ⟨rfl, ⟨m, hm, ?_, ?_, ?_, ?_, ?_⟩, rfl, rfl⟩
  · exact hzero ("Text", "text", .string) (by simp [slack.Msg, GoType.fields]) (by decide)
      (by decide) (by decide)
  · exact hzero ("Channel", "channel", .string) (by simp [slack.Msg, GoType.fields]) (by decide)
      (by decide) (by decide)
  · exact hzero ("User", "user", .string) (by simp [slack.Msg, GoType.fields]) (by decide)
      (by decide) (by decide)
  · exact hzero ("Timestamp", "ts", .string) (by simp [slack.Msg, GoType.fields]) (by decide)
      (by decide) (by decide)
  · exact hzero ("Edited", "edited", .ptr (.foreign "slack.Edited"))
      (by simp [slack.Msg, GoType.fields]) (by decide) (by decide) (by decide)

end slackevents

namespace slacktest
open json

theorem newMessage_text (E : Env) (channel user text : String) :
    (newMessage E channel user text).field "Text" = some (.str text) := rfl

theorem newMessage_channel (E : Env) (channel user text : String) :
    (newMessage E channel user text).field "Channel" = some (.str channel) := rfl

theorem eventText_of_field {evt : GoVal} {t : String} (h : evt.field "Text" = some (.str t)) :
    eventText evt = t := by
  simp [eventText, h]

end slacktest

/-! ## Encoding a struct and decoding it again -/

namespace json

theorem setField_map_fst (g : String) (v : GoVal) :
    ∀ vals : List (String × GoVal), (setField g v vals).map Prod.fst = vals.map Prod.fst
  | [] => rfl
  | (n, w) :: rest => by
    by_cases hn : n = g
    · simp [setField, hn]
    · simp [setField, hn, setField_map_fst g v rest]

theorem zeroFields_map_fst (F : Foreign) :
    ∀ fields : List (String × String × GoType),
      (zeroFields F fields).map Prod.fst = fields.map (fun f => f.1)
  | [] => rfl
  | (g, n, t) :: rest => by simp [zeroFields, zeroFields_map_fst F rest]

theorem memberStep_map_fst (F : Foreign) (fields : List (String × String × GoType))
    (acc : List (String × GoVal) × Option UnmarshalError) (kv : String × JSON) :
    (memberStep F fields acc kv).1.map Prod.fst = acc.1.map Prod.fst := by
  unfold memberStep
  cases fieldFor fields kv.1 with
  | none => rfl
  | some f => exact setField_map_fst _ _ _

theorem foldl_memberStep_map_fst (F : Foreign) (fields : List (String × String × GoType)) :
    ∀ (kvs : List (String × JSON)) (acc : List (String × GoVal) × Option UnmarshalError),
      (kvs.foldl (memberStep F fields) acc).1.map Prod.fst = acc.1.map Prod.fst
  | [], _ => rfl
  | kv :: kvs, acc => by
    rw [List.foldl_cons, foldl_memberStep_map_fst F fields kvs, memberStep_map_fst]

/-- Two field lists with the same Go names, all distinct, and the same value
under each name are equal. -/
theorem fields_ext :
    ∀ (l1 l2 : List (String × GoVal)), l1.map Prod.fst = l2.map Prod.fst →
      (l1.map Prod.fst).Nodup → (∀ g ∈ l1.map Prod.fst, getField g l1 = getField g l2) →
      l1 = l2
  | [], [], _, _, _ => rfl
  | [], _ :: _, h, _, _ => by simp at h
  | _ :: _, [], h, _, _ => by simp at h
  | (n1, w1) :: r1, (n2, w2) :: r2, h, hnd, hget => by
    simp only [List.map_cons, List.cons.injEq] at h
    obtain ⟨hn, hr⟩ := h
    subst hn
    rw [List.map_cons, List.nodup_cons] at hnd
    have hw : w1 = w2 := by
      have := hget n1 (by simp)
      simpa [getField] using this
    subst hw
    have hrest : r1 = r2 := by
      apply fields_ext r1 r2 hr hnd.2
      intro g hg
      have hne : ¬ n1 = g := fun heq => hnd.1 (heq ▸ hg)
      have := hget g (by simp [hg])
      simpa [getField, hne] using this
    rw [hrest]

/-- The members the encoder writes: each is the encoding of a field that has a
value and is not left out. -/
theorem mem_marshalFields (omitted : List String) (enc : String → GoType → GoVal → JSON)
    (vals : List (String × GoVal)) :
    ∀ (sub : List (String × String × GoType)) (kv : String × JSON),
      kv ∈ marshalFields omitted enc vals sub →
      ∃ f ∈ sub, ∃ v, getField f.1 vals = some v ∧ ¬ (f.2.1 ∈ omitted ∧ isEmptyValue v = true) ∧
        kv = (f.2.1, enc f.2.1 f.2.2 v)
  | [], kv, h => by simp [marshalFields] at h
  | (g, n, t) :: rest, kv, h => by
    unfold marshalFields at h
    cases hv : getField g vals with
    | none =>
      simp only [hv] at h
      obtain ⟨f, hf, v, h1, h2, h3⟩ := mem_marshalFields omitted enc vals rest kv h
      exact ⟨f, List.mem_cons_of_mem _ hf, v, h1, h2, h3⟩
    | some v =>
      simp only [hv] at h
      by_cases hom : n ∈ omitted ∧ isEmptyValue v = true
      · rw [if_pos hom] at h
        obtain ⟨f, hf, v1, h1, h2, h3⟩ := mem_marshalFields omitted enc vals rest kv h
        exact ⟨f, List.mem_cons_of_mem _ hf, v1, h1, h2, h3⟩
      · rw [if_neg hom] at h
        rcases List.mem_cons.mp h with h1 | h1
        · exact ⟨(g, n, t), List.mem_cons_self _ _, v, hv, hom, h1⟩
        · obtain ⟨f, hf, v1, h2, h3, h4⟩ := mem_marshalFields omitted enc vals rest kv h1
          exact ⟨f, List.mem_cons_of_mem _ hf, v1, h2, h3, h4⟩

/-- The keys the encoder writes are JSON names of the fields, in declaration
order. -/
theorem marshalFields_keys_sublist (omitted : List String)
    (enc : String → GoType → GoVal → JSON) (vals : List (String × GoVal)) :
    ∀ sub : List (String × String × GoType),
      List.Sublist ((marshalFields omitted enc vals sub).map Prod.fst) (sub.map (fun f => f.2.1))
  | [] => by simp [marshalFields]
  | (g, n, t) :: rest => by
    have ih := marshalFields_keys_sublist omitted enc vals rest
    unfold marshalFields
    cases hv : getField g vals with
    | none => exact List.Sublist.cons _ ih
    | some v =>
      by_cases hom : n ∈ omitted ∧ isEmptyValue v = true
      · simp only [if_pos hom]
        exact List.Sublist.cons _ ih
      · simp only [if_neg hom, List.map_cons]
        exact List.Sublist.cons₂ _ ih

theorem marshalFields_keys_nodup (omitted : List String)
    (enc : String → GoType → GoVal → JSON) (vals : List (String × GoVal))
    (sub : List (String × String × GoType))
    (hnd : (sub.map (fun f => foldName f.2.1)).Nodup) :
    ((marshalFields omitted enc vals sub).map (fun kv => foldName kv.1)).Nodup := by
  have h := (marshalFields_keys_sublist omitted enc vals sub).map foldName
  simp only [List.map_map] at h
  exact List.Nodup.sublist h hnd

/-- The members of the encoding that spell the JSON name of a field: none when
the field is left out, else the encoding of its value alone. -/
theorem members_marshalFields (omitted : List String) (enc : String → GoType → GoVal → JSON)
    (vals : List (String × GoVal)) (f0 : String × String × GoType) (v : GoVal)
    (hv : getField f0.1 vals = some v) :
    ∀ sub : List (String × String × GoType), (sub.map (fun f => foldName f.2.1)).Nodup →
      f0 ∈ sub →
      members f0.2.1 (marshalFields omitted enc vals sub) =
        if f0.2.1 ∈ omitted ∧ isEmptyValue v = true then [] else [enc f0.2.1 f0.2.2 v]
  | [], _, h => by simp at h
  | (g, n, t) :: rest, hnd, h => by
    rw [List.map_cons, List.nodup_cons] at hnd
    have hrestnil : ∀ f1 : String × String × GoType, foldName f1.2.1 ∉ rest.map (fun f => foldName f.2.1) →
        members f1.2.1 (marshalFields omitted enc vals rest) = [] := by
      intro f1 hnot
      apply members_eq_nil_of_forall
      intro kv hkv heq
      obtain ⟨f, hf, _, _, _, hkveq⟩ := mem_marshalFields omitted enc vals rest kv hkv
      apply hnot
      rw [hkveq] at heq
      rw [← heq]
      exact List.mem_map_of_mem (fun f => foldName f.2.1) hf
    rcases List.mem_cons.mp h with h1 | h1
    · subst h1
      unfold marshalFields
      simp only [hv]
      by_cases hom : n ∈ omitted ∧ isEmptyValue v = true
      · rw [if_pos hom, if_pos hom]
        exact hrestnil (g, n, t) hnd.1
      · rw [if_neg hom, if_neg hom]
        have := hrestnil (g, n, t) hnd.1
        unfold members at this ⊢
        simp only [List.filter_cons, decide_True, if_true, List.map_cons, this]
    · have hne : foldName n ≠ foldName f0.2.1 := by
        intro heq
        apply hnd.1
        rw [heq]
        exact List.mem_map_of_mem (fun f => foldName f.2.1) h1
      have ih := members_marshalFields omitted enc vals f0 v hv rest hnd.2 h1
      unfold marshalFields
      cases hg : getField g vals with
      | none => simpa using ih
      | some w =>
        by_cases hom : n ∈ omitted ∧ isEmptyValue w = true
        · simp only [if_pos hom]
          exact ih
        · simp only [if_neg hom]
          rw [← ih]
          unfold members
          simp [List.filter_cons, hne]

/-- No error is saved when the keys are distinct up to case and each member
decodes without error into the zero value its field still holds. -/
theorem foldl_memberStep_ok (F : Foreign) {fields : List (String × String × GoType)}
    (hgo : (fields.map (fun f => f.1)).Nodup)
    (hnd : (fields.map (fun f => foldName f.2.1)).Nodup) :
    ∀ (kvs : List (String × JSON)) (acc : List (String × GoVal) × Option UnmarshalError),
      acc.2 = none → (kvs.map (fun kv => foldName kv.1)).Nodup →
      (∀ kv ∈ kvs, ∃ f ∈ fields, foldName f.2.1 = foldName kv.1 ∧
        getField f.1 acc.1 = some (zero F f.2.2) ∧
        (unmarshalValue F f.2.2 kv.2 (zero F f.2.2)).2 = none) →
      (kvs.foldl (memberStep F fields) acc).2 = none
  | [], acc, h, _, _ => h
  | kv :: kvs, acc, h, hk, hall => by
    rw [List.foldl_cons]
    rw [List.map_cons, List.nodup_cons] at hk
    obtain ⟨f, hf, hfold, hget, hok⟩ := hall kv (List.mem_cons_self _ _)
    have hsel : fieldFor fields kv.1 = some f := (fieldFor_eq_some_iff hnd kv.1 f).mpr ⟨hf, hfold⟩
    have hstep : memberStep F fields acc kv =
        (setField f.1 (unmarshalValue F f.2.2 kv.2 (zero F f.2.2)).1 acc.1, none) := by
      simp only [memberStep, hsel, hget, Option.getD_some, h, hok, saveError]
    rw [hstep]
    apply foldl_memberStep_ok F hgo hnd kvs _ rfl hk.2
    intro kv1 hkv1
    obtain ⟨f1, hf1, hfold1, hget1, hok1⟩ := hall kv1 (List.mem_cons_of_mem _ hkv1)
    refine ⟨f1, hf1, hfold1, ?_, hok1⟩
    have hne : f1.1 ≠ f.1 := by
      intro heq
      have hff : f1 = f := eq_of_nodup_map _ hgo hf1 hf heq
      apply hk.1
      rw [← hfold, ← hff, hfold1]
      exact List.mem_map_of_mem (fun kv => foldName kv.1) hkv1
    show getField f1.1 (setField f.1 _ acc.1) = _
    rw [getField_setField_ne _ hne]
    exact hget1

/-- Decoding the encoding of a struct value into the zero value gives the value
back, when each field that is left out holds the zero value of its type and the
encoding of every other field decodes to the value of the field. -/
theorem unmarshal_marshalFields (F : Foreign) {fields : List (String × String × GoType)}
    (hgo : (fields.map (fun f => f.1)).Nodup)
    (hnd : (fields.map (fun f => foldName f.2.1)).Nodup)
    (omitted : List String) (enc : String → GoType → GoVal → JSON)
    (vals : List (String × GoVal)) (hnames : vals.map Prod.fst = fields.map (fun f => f.1))
    (hfield : ∀ f ∈ fields, ∀ v, getField f.1 vals = some v →
      if f.2.1 ∈ omitted ∧ isEmptyValue v = true then v = zero F f.2.2
      else unmarshalValue F f.2.2 (enc f.2.1 f.2.2 v) (zero F f.2.2) = (v, none)) :
    unmarshalValue F (.struct fields) (.obj (marshalFields omitted enc vals fields))
      (zero F (.struct fields)) = (.struct vals, none) := by
  rw [unmarshalValue_struct_obj]
  simp only [zero]
  have hhas : ∀ f ∈ fields, ∃ v, getField f.1 vals = some v := by
    intro f hf
    have hmem : f.1 ∈ vals.map Prod.fst := by
      rw [hnames]
      exact List.mem_map_of_mem (fun f => f.1) hf
    clear hfield hnames
    induction vals with
    | nil => simp at hmem
    | cons x rest ih =>
      by_cases hx : x.1 = f.1
      · exact ⟨x.2, by simp [getField, hx]⟩
      · have : f.1 ∈ rest.map Prod.fst := by
          rcases List.mem_cons.mp hmem with h1 | h1
          · exact absurd h1.symm hx
          · exact h1
        obtain ⟨v, hv⟩ := ih this
        exact ⟨v, by simp [getField, hx, hv]⟩
  have herr : ((marshalFields omitted enc vals fields).foldl (memberStep F fields)
      (zeroFields F fields, none)).2 = none := by
    apply foldl_memberStep_ok F hgo hnd _ _ rfl
      (marshalFields_keys_nodup omitted enc vals fields hnd)
    intro kv hkv
    obtain ⟨f, hf, v, hv, hom, hkveq⟩ := mem_marshalFields omitted enc vals fields kv hkv
    refine ⟨f, hf, by rw [hkveq], getField_zeroFields F f fields hgo hf, ?_⟩
    have := hfield f hf v hv
    rw [if_neg hom] at this
    rw [hkveq, this]
  have hvals : ((marshalFields omitted enc vals fields).foldl (memberStep F fields)
      (zeroFields F fields, none)).1 = vals := by
    apply fields_ext
    · rw [foldl_memberStep_map_fst, zeroFields_map_fst, hnames]
    · rw [foldl_memberStep_map_fst, zeroFields_map_fst]
      exact hgo
    · intro g hg
      rw [foldl_memberStep_map_fst, zeroFields_map_fst] at hg
      obtain ⟨f, hf, hfg⟩ := List.mem_map.mp hg
      subst hfg
      obtain ⟨v, hv⟩ := hhas f hf
      rw [getField_after_decode F hgo hnd hf, hv,
        members_marshalFields omitted enc vals f v hv fields hnd hf]
      have := hfield f hf v hv
      by_cases hom : f.2.1 ∈ omitted ∧ isEmptyValue v = true
      · rw [if_pos hom] at this ⊢
        rw [this]
        rfl
      · rw [if_neg hom] at this ⊢
        simp only [decodeAll, List.foldl_cons, List.foldl_nil, this]
  rw [herr, hvals]

end json

namespace json

theorem decodeAll_string_str (F : Foreign) :
    ∀ (js : List JSON) (s : String), ∃ s1, decodeAll F .string js (.str s) = .str s1
  | [], s => ⟨s, rfl⟩
  | j :: js, s => by
    have hstep : ∃ s2, (unmarshalValue F .string j (.str s)).1 = .str s2 := by
      cases j <;> simp [unmarshalValue]
    obtain ⟨s2, hs2⟩ := hstep
    obtain ⟨s1, hs1⟩ := decodeAll_string_str F js s2
    exact ⟨s1, by simp only [decodeAll, List.foldl_cons, hs2] at hs1 ⊢; exact hs1⟩

theorem decodeAll_ptr_ptr (F : Foreign) (t : GoType) :
    ∀ (js : List JSON) (p : Option GoVal), ∃ p1, decodeAll F (.ptr t) js (.ptr p) = .ptr p1
  | [], p => ⟨p, rfl⟩
  | j :: js, p => by
    have hstep : ∃ p2, (unmarshalValue F (.ptr t) j (.ptr p)).1 = .ptr p2 := by
      cases j <;> simp [unmarshalValue]
    obtain ⟨p2, hp2⟩ := hstep
    obtain ⟨p1, hp1⟩ := decodeAll_ptr_ptr F t js p2
    exact ⟨p1, by simp only [decodeAll, List.foldl_cons, hp2] at hp1 ⊢; exact hp1⟩

/-- Decoding a value other than `null` into a nil pointer allocates the zero
value of the pointee and decodes into it. -/
theorem unmarshalValue_ptr_nil (F : Foreign) (t : GoType) (j : JSON) (hj : j ≠ .null) :
    unmarshalValue F (.ptr t) j (.ptr none) =
      (.ptr (some (unmarshalValue F t j (zero F t)).1), (unmarshalValue F t j (zero F t)).2) := by
  cases j with
  | null => exact absurd rfl hj
  | bool x => simp [unmarshalValue]
  | num x => simp [unmarshalValue]
  | str x => simp [unmarshalValue]
  | arr x => simp [unmarshalValue]
  | obj x => simp [unmarshalValue]

/-- Decoding a value other than `null` into a non-nil pointer decodes into the
pointee. -/
theorem unmarshalValue_ptr_some (F : Foreign) (t : GoType) (j : JSON) (p : GoVal)
    (hj : j ≠ .null) :
    unmarshalValue F (.ptr t) j (.ptr (some p)) =
      (.ptr (some (unmarshalValue F t j p).1), (unmarshalValue F t j p).2) := by
  cases j with
  | null => exact absurd rfl hj
  | bool x => simp [unmarshalValue]
  | num x => simp [unmarshalValue]
  | str x => simp [unmarshalValue]
  | arr x => simp [unmarshalValue]
  | obj x => simp [unmarshalValue]

end json

namespace slackevents
open json

theorem Icon_memberStep (F : Foreign)
    (acc : List (String × GoVal) × Option UnmarshalError) (kv : String × JSON) (a b : String)
    (hacc : acc.1 = [("IconURL", .str a), ("IconEmoji", .str b)]) :
    ∃ a1 b1, (memberStep F Icon.fields acc kv).1 =
      [("IconURL", .str a1), ("IconEmoji", .str b1)] := by
  unfold memberStep
  cases hf : fieldFor Icon.fields kv.1 with
  | none => exact ⟨a, b, hacc⟩
  | some f =>
    have hmem := fieldFor_mem hf
    simp only [Icon, GoType.fields, List.mem_cons, List.mem_singleton, List.not_mem_nil,
      or_false] at hmem
    rcases hmem with rfl | rfl
    · simp only [hacc, getField, if_true, Option.getD_some, setField]
      obtain ⟨s1, hs1⟩ := decodeAll_string_str F [kv.2] a
      simp only [decodeAll, List.foldl_cons, List.foldl_nil] at hs1
      exact ⟨s1, b, by rw [hs1]⟩
    · have hne : ¬ "IconURL" = "IconEmoji" := by decide
      simp only [hacc, getField, hne, if_false, if_true, Option.getD_some, setField]
      obtain ⟨s1, hs1⟩ := decodeAll_string_str F [kv.2] b
      simp only [decodeAll, List.foldl_cons, List.foldl_nil] at hs1
      exact ⟨a, s1, by rw [hs1]⟩

theorem Icon_foldl (F : Foreign) :
    ∀ (kvs : List (String × JSON)) (acc : List (String × GoVal) × Option UnmarshalError)
      (a b : String), acc.1 = [("IconURL", .str a), ("IconEmoji", .str b)] →
      ∃ a1 b1, (kvs.foldl (memberStep F Icon.fields) acc).1 =
        [("IconURL", .str a1), ("IconEmoji", .str b1)]
  | [], acc, a, b, h => ⟨a, b, h⟩
  | kv :: kvs, acc, a, b, h => by
    obtain ⟨a2, b2, h2⟩ := Icon_memberStep F acc kv a b h
    rw [List.foldl_cons]
    exact Icon_foldl F kvs _ a2 b2 h2

/-- Decoding into an `Icon` leaves an `Icon`: a struct of two strings. -/
theorem Icon_unmarshal (F : Foreign) (j : JSON) (a b : String) :
    ∃ a1 b1, (unmarshalValue F Icon j (.struct [("IconURL", .str a), ("IconEmoji", .str b)])).1 =
      .struct [("IconURL", .str a1), ("IconEmoji", .str b1)] := by
  cases j with
  | obj kvs =>
    have h := unmarshalValue_struct_obj F Icon.fields kvs
      (.struct [("IconURL", .str a), ("IconEmoji", .str b)])
    obtain ⟨a1, b1, h1⟩ := Icon_foldl F kvs
      ([("IconURL", .str a), ("IconEmoji", .str b)], none) a b rfl
    refine ⟨a1, b1, ?_⟩
    show (unmarshalValue F (.struct Icon.fields) _ _).1 = _
    rw [h]
    simp only [h1]
  | null => exact ⟨a, b, rfl⟩
  | bool x => exact ⟨a, b, rfl⟩
  | num x => exact ⟨a, b, rfl⟩
  | str x => exact ⟨a, b, rfl⟩
  | arr x => exact ⟨a, b, rfl⟩

/-- What the field `Icons` can hold after a decode: the nil pointer, or a pointer
to a struct of two strings. -/
theorem decodeAll_Icon (F : Foreign) :
    ∀ (js : List JSON) (cur : GoVal),
      (cur = .ptr none ∨
        ∃ a b, cur = .ptr (some (.struct [("IconURL", .str a), ("IconEmoji", .str b)]))) →
      (decodeAll F (.ptr Icon) js cur = .ptr none ∨
        ∃ a b, decodeAll F (.ptr Icon) js cur =
          .ptr (some (.struct [("IconURL", .str a), ("IconEmoji", .str b)])))
  | [], cur, h => h
  | j :: js, cur, h => by
    have hstep : (unmarshalValue F (.ptr Icon) j cur).1 = .ptr none ∨
        ∃ a b, (unmarshalValue F (.ptr Icon) j cur).1 =
          .ptr (some (.struct [("IconURL", .str a), ("IconEmoji", .str b)])) := by
      by_cases hj : j = .null
      · left
        subst hj
        simp [unmarshalValue]
      · right
        rcases h with h | ⟨a, b, h⟩
        · subst h
          obtain ⟨a1, b1, h1⟩ := Icon_unmarshal F j "" ""
          refine ⟨a1, b1, ?_⟩
          rw [unmarshalValue_ptr_nil F Icon j hj]
          exact congrArg _ (congrArg _ h1)
        · subst h
          obtain ⟨a1, b1, h1⟩ := Icon_unmarshal F j a b
          refine ⟨a1, b1, ?_⟩
          rw [unmarshalValue_ptr_some F Icon j _ hj]
          exact congrArg _ (congrArg _ h1)
    simp only [decodeAll, List.foldl_cons]
    exact decodeAll_Icon F js _ hstep

/-- Decoding the encoding of an `Icon` gives the `Icon` back. -/
theorem Icon_roundtrip (F : Foreign) (a b : String) :
    unmarshalValue F Icon (marshalIcon (.struct [("IconURL", .str a), ("IconEmoji", .str b)]))
      (zero F Icon) = (.struct [("IconURL", .str a), ("IconEmoji", .str b)], none) := by
  have hgo : (Icon.fields.map (fun f => f.1)).Nodup := by decide
  have hnd : (Icon.fields.map (fun f => foldName f.2.1)).Nodup := by decide
  show unmarshalValue F (.struct Icon.fields) (.obj (marshalFields Icon.omitempty
    (fun _ _ w => marshalScalar w) _ Icon.fields)) (zero F (.struct Icon.fields)) = _
  apply unmarshal_marshalFields F hgo hnd
  · rfl
  · intro f hf v hv
    simp only [Icon, GoType.fields, List.mem_cons, List.mem_singleton, List.not_mem_nil,
      or_false] at hf
    rcases hf with rfl | rfl
    · simp only [getField, if_true, Option.some.injEq] at hv
      subst hv
      by_cases ha : a = ""
      · simp [Icon.omitempty, isEmptyValue, ha, zero]
      · simp [Icon.omitempty, isEmptyValue, ha, zero, marshalScalar, unmarshalValue]
    · have hne : ¬ "IconURL" = "IconEmoji" := by decide
      simp only [getField, hne, if_false, if_true, Option.some.injEq] at hv
      subst hv
      by_cases hb : b = ""
      · simp [Icon.omitempty, isEmptyValue, hb, zero]
      · simp [Icon.omitempty, isEmptyValue, hb, zero, marshalScalar, unmarshalValue]

end slackevents

namespace slackevents
open json

/-- The record a successful `UnmarshalJSON` leaves: a struct with the fields of
`MessageEvent`, a non-nil `Message`, and in every other field what the members
of some list of documents leave when decoded in turn from the zero value. -/
theorem UnmarshalJSON_record (P : slack.Pkg) (x : Option JSON) (e r : GoVal)
    (h : MessageEvent.UnmarshalJSON P x e = (r, none)) :
    ∃ rv, r = .struct rv ∧
      rv.map Prod.fst = (MessageEvent P).fields.map (fun f => f.1) ∧
      (∃ m, getField "Message" rv = some (.ptr (some m))) ∧
      ∀ f ∈ (MessageEvent P).fields, f.1 ≠ "Message" →
        ∃ js, getField f.1 rv = some (decodeAll P.foreign f.2.2 js (zero P.foreign f.2.2)) := by
  obtain ⟨a, ha, hcase⟩ := UnmarshalJSON_ok P x e r h
  cases x with
  | none => simp [unmarshal_none] at ha
  | some j =>
    have hshape : ∃ av, a = .struct av ∧
        av.map Prod.fst = (MessageEvent P).fields.map (fun f => f.1) := by
      rcases unmarshal_struct_ok P.foreign (MessageEvent P).fields j a ha with
        ⟨_, ha1⟩ | ⟨kvs, _, ha1, _⟩
      · exact ⟨_, ha1, zeroFields_map_fst _ _⟩
      · refine ⟨_, ha1, ?_⟩
        rw [foldl_memberStep_map_fst]
        exact zeroFields_map_fst _ _
    obtain ⟨av, hav, hnames⟩ := hshape
    have hfields : ∀ f ∈ (MessageEvent P).fields,
        getField f.1 av = some (decodeAll P.foreign f.2.2 (docMembers f.2.1 j)
          (zero P.foreign f.2.2)) := by
      intro f hf
      have := MessageEvent_field_after_unmarshal P hf j a ha
      rw [hav] at this
      exact this
    rcases hcase with ⟨hnil, he⟩ | ⟨_, m, _, he⟩
    · subst he
      refine ⟨av, hav, hnames, ?_, fun f hf _ => ⟨_, hfields f hf⟩⟩
      obtain ⟨m, hm⟩ := isNil_eq_false hnil
      rw [hav] at hm
      exact ⟨m, hm⟩
    · subst he
      subst hav
      refine ⟨setField "Message" (.ptr (some m)) av, rfl, ?_, ⟨m, ?_⟩, ?_⟩
      · rw [setField_map_fst]
        exact hnames
      · apply getField_setField_same
        rw [hfields _ (MessageEvent_Message_mem P)]
        rfl
      · intro f hf hne
        refine ⟨docMembers f.2.1 j, ?_⟩
        rw [getField_setField_ne _ hne]
        exact hfields f hf

/-- A string field of the record is written and read back, or left out and zero. -/
theorem roundtrip_string (F : Foreign) (encMsg : GoVal → JSON) (omitted : List String)
    (n : String) (js : List JSON) :
    if n ∈ omitted ∧ isEmptyValue (decodeAll F .string js (zero F .string)) = true then
      decodeAll F .string js (zero F .string) = zero F .string
    else unmarshalValue F .string
      (marshalEventField encMsg n .string (decodeAll F .string js (zero F .string)))
      (zero F .string) = (decodeAll F .string js (zero F .string), none) := by
  obtain ⟨s, hs⟩ := decodeAll_string_str F js ""
  have hz : zero F .string = .str "" := rfl
  rw [hz, hs]
  by_cases hom : n ∈ omitted ∧ isEmptyValue (.str s) = true
  · rw [if_pos hom]
    have : s = "" := by simpa [isEmptyValue] using hom.2
    rw [this]
  · rw [if_neg hom]
    simp [marshalEventField, marshalScalar, unmarshalValue]

/-- A field holding a pointer to a `slack.Msg` is written and read back when the
encoder of `slack.Msg` can be read back, or left out and nil. -/
theorem roundtrip_msg (P : slack.Pkg) (encMsg : GoVal → JSON) (n : String) (v : GoVal)
    (hn : n ∈ MessageEvent.omitempty) (hicons : n ≠ "icons")
    (hv : ∃ p, v = .ptr p)
    (hround : ∀ m, v = .ptr (some m) →
      encMsg m ≠ .null ∧
      unmarshalValue P.foreign (slack.Msg P) (encMsg m) (zero P.foreign (slack.Msg P)) =
        (m, none)) :
    if n ∈ MessageEvent.omitempty ∧ isEmptyValue v = true then
      v = zero P.foreign (.ptr (slack.Msg P))
    else unmarshalValue P.foreign (.ptr (slack.Msg P))
      (marshalEventField encMsg n (.ptr (slack.Msg P)) v)
      (zero P.foreign (.ptr (slack.Msg P))) = (v, none) := by
  obtain ⟨p, hp⟩ := hv
  subst hp
  cases p with
  | none =>
    rw [if_pos ⟨hn, rfl⟩]
    rfl
  | some m =>
    have hom : ¬ (n ∈ MessageEvent.omitempty ∧ isEmptyValue (.ptr (some m)) = true) := by
      simp [isEmptyValue]
    rw [if_neg hom]
    obtain ⟨hnull, hrt⟩ := hround m rfl
    have henc : marshalEventField encMsg n (.ptr (slack.Msg P)) (.ptr (some m)) = encMsg m := by
      simp [marshalEventField, hicons]
    have hz : zero P.foreign (.ptr (slack.Msg P)) = .ptr none := rfl
    rw [henc, hz, unmarshalValue_ptr_nil P.foreign (slack.Msg P) (encMsg m) hnull, hrt]

/-- The field `Icons` is written and read back, or left out and nil. -/
theorem roundtrip_icons (F : Foreign) (encMsg : GoVal → JSON) (js : List JSON) :
    if "icons" ∈ MessageEvent.omitempty ∧
        isEmptyValue (decodeAll F (.ptr Icon) js (zero F (.ptr Icon))) = true then
      decodeAll F (.ptr Icon) js (zero F (.ptr Icon)) = zero F (.ptr Icon)
    else unmarshalValue F (.ptr Icon)
      (marshalEventField encMsg "icons" (.ptr Icon)
        (decodeAll F (.ptr Icon) js (zero F (.ptr Icon))))
      (zero F (.ptr Icon)) = (decodeAll F (.ptr Icon) js (zero F (.ptr Icon)), none) := by
  have hz : zero F (.ptr Icon) = .ptr none := rfl
  rw [hz]
  rcases decodeAll_Icon F js (.ptr none) (Or.inl rfl) with h | ⟨a, b, h⟩
  · rw [h, if_pos ⟨by decide, rfl⟩]
  · rw [h]
    have hom : ¬ ("icons" ∈ MessageEvent.omitempty ∧
        isEmptyValue (.ptr (some (.struct [("IconURL", .str a), ("IconEmoji", .str b)]))) = true) := by
      simp [isEmptyValue]
    rw [if_neg hom]
    have henc : marshalEventField encMsg "icons" (.ptr Icon)
        (.ptr (some (.struct [("IconURL", .str a), ("IconEmoji", .str b)]))) =
        marshalIcon (.struct [("IconURL", .str a), ("IconEmoji", .str b)]) := by
      simp [marshalEventField]
    have hne : marshalIcon (.struct [("IconURL", .str a), ("IconEmoji", .str b)]) ≠ .null := by
      simp [marshalIcon]
    rw [henc, unmarshalValue_ptr_nil F Icon _ hne, Icon_roundtrip]

/-- C12 (amended): for every document on which `MessageEvent.UnmarshalJSON`
succeeds with the record `r`, if the encoder of `slack.Msg` writes, for each
message `r` points to through `Message`, `Root` or `PreviousMessage`, a document
other than `null` which the decoder of `slack.Msg` reads back to the same
message, then the document `json.Marshal` writes for `r` is decoded by
`UnmarshalJSON` without error into a record equal to `r`, whatever the receiver
holds. The encoder of `slack.Msg` lies in the root package and is a parameter. -/
theorem C12_normalization_idempotent (P : slack.Pkg) (encMsg : GoVal → JSON)
    (x : Option JSON) (e e2 r : GoVal)
    (h : MessageEvent.UnmarshalJSON P x e = (r, none))
    (hround : ∀ g ∈ ["Message", "Root", "PreviousMessage"], ∀ m,
      r.field g = some (.ptr (some m)) →
        encMsg m ≠ .null ∧
        unmarshalValue P.foreign (slack.Msg P) (encMsg m) (zero P.foreign (slack.Msg P)) =
          (m, none)) :
    MessageEvent.UnmarshalJSON P (some (MessageEvent.Marshal P encMsg r)) e2 = (r, none) := by
  obtain ⟨rv, hr, hnames, ⟨m0, hm0⟩, hrest⟩ := UnmarshalJSON_record P x e r h
  subst hr
  have hmsg : ∀ g ∈ ["Message", "Root", "PreviousMessage"], ∀ n, n ∈ MessageEvent.omitempty →
      n ≠ "icons" → ∀ v, getField g rv = some v → (∃ p, v = .ptr p) →
      if n ∈ MessageEvent.omitempty ∧ isEmptyValue v = true then
        v = zero P.foreign (.ptr (slack.Msg P))
      else unmarshalValue P.foreign (.ptr (slack.Msg P))
        (marshalEventField encMsg n (.ptr (slack.Msg P)) v)
        (zero P.foreign (.ptr (slack.Msg P))) = (v, none) := by
    intro g hg n hn hicons v hv hp
    apply roundtrip_msg P encMsg n v hn hicons hp
    intro m hm
    apply hround g hg m
    rw [← hm]
    exact hv
  have hptr : ∀ f ∈ (MessageEvent P).fields, ∀ v, getField f.1 rv = some v →
      f.2.2 = .ptr (slack.Msg P) → ∃ p, v = .ptr p := by
    intro f hf v hv ht
    by_cases hne : f.1 = "Message"
    · rw [hne, hm0] at hv
      exact ⟨_, (Option.some.inj hv).symm⟩
    · obtain ⟨js, hjs⟩ := hrest f hf hne
      rw [hjs, ht] at hv
      obtain ⟨p, hp⟩ := decodeAll_ptr_ptr P.foreign (slack.Msg P) js none
      exact ⟨p, by rw [← Option.some.inj hv]; exact hp⟩
  have hstr : ∀ f ∈ (MessageEvent P).fields, f.1 ≠ "Message" → f.2.2 = .string →
      ∀ v, getField f.1 rv = some v →
      if f.2.1 ∈ MessageEvent.omitempty ∧ isEmptyValue v = true then v = zero P.foreign f.2.2
      else unmarshalValue P.foreign f.2.2 (marshalEventField encMsg f.2.1 f.2.2 v)
        (zero P.foreign f.2.2) = (v, none) := by
    intro f hf hne ht v hv
    obtain ⟨js, hjs⟩ := hrest f hf hne
    rw [hjs] at hv
    rw [← Option.some.inj hv, ht]
    exact roundtrip_string P.foreign encMsg _ _ js
  have hfirst : unmarshalValue P.foreign (MessageEvent P)
      (.obj (marshalFields MessageEvent.omitempty (marshalEventField encMsg) rv
        (MessageEvent P).fields)) (zero P.foreign (MessageEvent P)) = (.struct rv, none) := by
    apply unmarshal_marshalFields P.foreign (MessageEvent_goNames_nodup P)
      (MessageEvent_jsonNames_nodup P) _ _ rv hnames
    intro f hf v hv
    have hf1 := hf
    simp only [MessageEvent, GoType.fields, List.mem_cons, List.mem_singleton,
      List.not_mem_nil, or_false] at hf1
    rcases hf1 with rfl | rfl | rfl | rfl | rfl | rfl | rfl | rfl | rfl | rfl | rfl | rfl |
      rfl | rfl | rfl | rfl | rfl | rfl | rfl
    · exact hstr _ hf (by decide) rfl v hv
    · exact hstr _ hf (by decide) rfl v hv
    · exact hstr _ hf (by decide) rfl v hv
    · exact hstr _ hf (by decide) rfl v hv
    · exact hstr _ hf (by decide) rfl v hv
    · exact hstr _ hf (by decide) rfl v hv
    · exact hstr _ hf (by decide) rfl v hv
    · exact hstr _ hf (by decide) rfl v hv
    · exact hstr _ hf (by decide) rfl v hv
    · exact hstr _ hf (by decide) rfl v hv
    · exact hstr _ hf (by decide) rfl v hv
    · exact hmsg "Message" (by decide) "message" (by decide) (by decide) v hv
        (hptr _ hf v hv rfl)
    · exact hmsg "Root" (by decide) "root" (by decide) (by decide) v hv (hptr _ hf v hv rfl)
    · exact hmsg "PreviousMessage" (by decide) "previous_message" (by decide) (by decide) v hv
        (hptr _ hf v hv rfl)
    · exact hstr _ hf (by decide) rfl v hv
    · exact hstr _ hf (by decide) rfl v hv
    · exact hstr _ hf (by decide) rfl v hv
    · exact hstr _ hf (by decide) rfl v hv
    · obtain ⟨js, hjs⟩ := hrest _ hf (by decide)
      rw [hjs] at hv
      rw [← Option.some.inj hv]
      exact roundtrip_icons P.foreign encMsg js
  have hnil : isNil ((GoVal.struct rv).field "Message") = false := by
    show isNil (getField "Message" rv) = false
    rw [hm0]
    rfl
  simp only [MessageEvent.UnmarshalJSON, MessageEvent.Marshal, Unmarshal, hfirst, hnil]
  simp

/-- C12 at the frame of the first scenario, in the minimal package: decoding
succeeds, the encoder of the example reads back on the message of the record, and
the encoding of the record decodes to the record. -/
theorem C12_normalization_idempotent_witness :
    (MessageEvent.UnmarshalJSON slack.minimalPkg (some frameHello) zeroEvent).2 = none ∧
    MessageEvent.UnmarshalJSON slack.minimalPkg
      (some (MessageEvent.Marshal slack.minimalPkg exampleEncMsg
        (MessageEvent.UnmarshalJSON slack.minimalPkg (some frameHello) zeroEvent).1)) zeroEvent =
      ((MessageEvent.UnmarshalJSON slack.minimalPkg (some frameHello) zeroEvent).1, none) :=
  ⟨rfl, C12_normalization_idempotent slack.minimalPkg exampleEncMsg (some frameHello)
    zeroEvent zeroEvent _ (Prod.ext rfl rfl) (by
      intro g hg m hm
      simp only [List.mem_cons, List.mem_singleton, List.not_mem_nil, or_false] at hg
      rcases hg with rfl | rfl | rfl
      · have h0 : (MessageEvent.UnmarshalJSON slack.minimalPkg (some frameHello)
            zeroEvent).1.field "Message" = some (.ptr (some (.struct [
              ("Type", .str "message"), ("Channel", .str "C1"), ("User", .str ""),
              ("Text", .str "hello"), ("Timestamp", .str ""), ("Edited", .ptr none)]))) := rfl
        rw [h0] at hm
        have hm1 := GoVal.ptr.inj (Option.some.inj hm)
        have hm2 := Option.some.inj hm1
        subst hm2
        exact ⟨fun hnull => JSON.noConfusion hnull, rfl⟩
      · have h0 : (MessageEvent.UnmarshalJSON slack.minimalPkg (some frameHello)
            zeroEvent).1.field "Root" = some (.ptr none) := rfl
        rw [h0] at hm
        exact Option.noConfusion (GoVal.ptr.inj (Option.some.inj hm))
      · have h0 : (MessageEvent.UnmarshalJSON slack.minimalPkg (some frameHello)
            zeroEvent).1.field "PreviousMessage" = some (.ptr none) := rfl
        rw [h0] at hm
        exact Option.noConfusion (GoVal.ptr.inj (Option.some.inj hm)))⟩

end slackevents

namespace slackevents
open json

set_option maxRecDepth 100000 in
/-- C12, counterexample: in the package `slack.wirePkg` the frame
`frameEmptyAttachments` is decoded without error, with an empty list of
attachments that is not nil behind `Message`; `json.Marshal` leaves the empty
list out under `omitempty`; the text it writes is decoded without error, with
the nil list of attachments behind `Message`, so the record decoded from the
encoding of the record is not the record. -/
theorem C12_counterexample :
    (MessageEvent.UnmarshalJSON slack.wirePkg (some frameEmptyAttachments) zeroEvent).2 = none ∧
    String.mk (render (MessageEvent.Marshal slack.wirePkg wireEncMsg
      (MessageEvent.UnmarshalJSON slack.wirePkg (some frameEmptyAttachments) zeroEvent).1)) =
      reencodedEmptyAttachments ∧
    parse reencodedEmptyAttachments = some (MessageEvent.Marshal slack.wirePkg wireEncMsg
      (MessageEvent.UnmarshalJSON slack.wirePkg (some frameEmptyAttachments) zeroEvent).1) ∧
    (MessageEvent.UnmarshalJSON slack.wirePkg (parse reencodedEmptyAttachments) zeroEvent).2 =
      none ∧
    (MessageEvent.UnmarshalJSON slack.wirePkg (some frameEmptyAttachments)
      zeroEvent).1.fieldOfPtr "Message" "Attachments" = some (.slice false 0 []) ∧
    (MessageEvent.UnmarshalJSON slack.wirePkg (parse reencodedEmptyAttachments)
      zeroEvent).1.fieldOfPtr "Message" "Attachments" = some (.slice true 0 []) ∧
    (MessageEvent.UnmarshalJSON slack.wirePkg (parse reencodedEmptyAttachments) zeroEvent).1 ≠
      (MessageEvent.UnmarshalJSON slack.wirePkg (some frameEmptyAttachments) zeroEvent).1 := by
  have hparse : parse reencodedEmptyAttachments = some (MessageEvent.Marshal slack.wirePkg
      wireEncMsg (MessageEvent.UnmarshalJSON slack.wirePkg (some frameEmptyAttachments)
        zeroEvent).1) := by
    rfl
  refine ⟨rfl, by decide, hparse, ?_, rfl, ?_, ?_⟩
  · rw [hparse]
    rfl
  · rw [hparse]
    rfl
  · rw [hparse]
    intro h
    have h2 := congrArg (fun v => GoVal.fieldOfPtr v "Message" "Attachments") h
    have h3 : (some (GoVal.slice true 0 []) : Option GoVal) = some (GoVal.slice false 0 []) := h2
    have h4 := GoVal.slice.inj (Option.some.inj h3)
    exact Bool.noConfusion h4.1

end slackevents

/-! ## The outbound log and ping frames -/

namespace slacktest
open json

/-- C21 fails on the code: `SendToWebsocket` records the body it is given as it
is, so a ping frame passed to it is among the bodies `GetSeenOutboundMessages`
returns. The body {"type":"ping"} is a ping frame, it is the one body returned
after it was sent to a server with an empty log, and every body sent through
`SendToWebsocket` is returned afterwards, whatever it is. -/
theorem C21_ping_recorded :
    isPingFrame pingBody = true ∧
    (newServer.SendToWebsocket pingBody).GetSeenOutboundMessages = [pingBody] ∧
    ∀ (sts : Server) (s : String), s ∈ (sts.SendToWebsocket s).GetSeenOutboundMessages := by
  refine ⟨by decide, rfl, fun sts s => ?_⟩
  simp [Server.SendToWebsocket, Server.GetSeenOutboundMessages, messageCollection.observe,
    messageCollection.get]

end slacktest

/-! ## tokens.go -/

namespace slack

/-- C22: `RotateTokens(refreshToken)` is `RotateTokensContext` with the
background context: for every client, every refresh token, every behaviour of
`getMethod` and every state it works on, both return the same response and the
same error, and leave the same state. -/
theorem C22_rotate_tokens_background (E : ClientEnv) (api : Client) (remote : E.Remote)
    (refreshToken : String) :
    api.RotateTokens E remote refreshToken =
      api.RotateTokensContext E remote E.Background refreshToken := rfl

/-- The one call `RotateTokensContext` makes, and what it returns from it. -/
theorem RotateTokensContext_eq (E : ClientEnv) (api : Client) (remote : E.Remote)
    (ctx : E.Context) (refreshToken : String) :
    api.RotateTokensContext E remote ctx refreshToken =
      match E.getMethod remote api ctx "tooling.tokens.rotate" api.configToken
        [("refresh_token",
          [if refreshToken = "" then api.configRefreshToken else refreshToken])]
        E.zeroTokenResponse with
      | ((_, some err), remote1) => ((none, some err), remote1)
      | ((response, none), remote1) =>
        ((some response, E.Err response.SlackResponse), remote1) := rfl

/-- In the recording environment a call of `getMethod` adds its request to the
requests made. -/
theorem recordingEnv_log (log : List Request) (api : Client) (ctx path token : String)
    (values : Values) (response : TokenResponse String) :
    (recordingEnv.getMethod log api ctx path token values response).2 =
      log ++ [Request.mk path token values] := by
  show (if token = "" then _ else if values = [("refresh_token", ["expired"])] then _ else _ :
    (TokenResponse String × Option String) × List Request).2 = _
  by_cases ht : token = ""
  · rw [if_pos ht]
  · rw [if_neg ht]
    by_cases hv : values = [("refresh_token", ["expired"])]
    · rw [if_pos hv]
    · rw [if_neg hv]

/-- The state `RotateTokensContext` leaves is the state its one call of
`getMethod` leaves. -/
theorem RotateTokensContext_state (E : ClientEnv) (api : Client) (remote : E.Remote)
    (ctx : E.Context) (refreshToken : String) :
    (api.RotateTokensContext E remote ctx refreshToken).2 =
      (E.getMethod remote api ctx "tooling.tokens.rotate" api.configToken
        [("refresh_token",
          [if refreshToken = "" then api.configRefreshToken else refreshToken])]
        E.zeroTokenResponse).2 := by
  rw [RotateTokensContext_eq]
  rcases E.getMethod remote api ctx "tooling.tokens.rotate" api.configToken
    [("refresh_token", [if refreshToken = "" then api.configRefreshToken else refreshToken])]
    E.zeroTokenResponse with ⟨⟨resp, err⟩, remote1⟩
  cases err <;> rfl

theorem RotateTokensContext_recorded (api : Client) (log : List Request) (ctx : String)
    (refreshToken : String) :
    (api.RotateTokensContext recordingEnv log ctx refreshToken).2 =
      log ++ [Request.mk "tooling.tokens.rotate" api.configToken
        [("refresh_token",
          [if refreshToken = "" then api.configRefreshToken else refreshToken])]] := by
  rw [RotateTokensContext_state recordingEnv api log ctx]
  exact recordingEnv_log log api ctx _ _ _ _

/-- C23: `RotateTokensContext` makes one request: the state it leaves is the
state one call of `getMethod` leaves, made under the given context to the method
"tooling.tokens.rotate" with the client's `configToken`, a zero response and the
single parameter refresh_token, whose single value is the argument when it is
not empty and the client's `configRefreshToken` when it is. In the recording
environment the requests made are exactly that one. -/
theorem C23_rotate_request (api : Client) (refreshToken : String) :
    (∀ (E : ClientEnv) (remote : E.Remote) (ctx : E.Context),
      (api.RotateTokensContext E remote ctx refreshToken).2 =
        (E.getMethod remote api ctx "tooling.tokens.rotate" api.configToken
          [("refresh_token",
            [if refreshToken = "" then api.configRefreshToken else refreshToken])]
          E.zeroTokenResponse).2) ∧
    (∀ (log : List Request) (ctx : String),
      (api.RotateTokensContext recordingEnv log ctx refreshToken).2 =
        log ++ [Request.mk "tooling.tokens.rotate" api.configToken
          [("refresh_token",
            [if refreshToken = "" then api.configRefreshToken else refreshToken])]]) ∧
    (refreshToken ≠ "" →
      (api.RotateTokensContext recordingEnv [] "ctx" refreshToken).2 =
        [Request.mk "tooling.tokens.rotate" api.configToken [("refresh_token", [refreshToken])]]) ∧
    (api.RotateTokensContext recordingEnv [] "ctx" "").2 =
      [Request.mk "tooling.tokens.rotate" api.configToken
        [("refresh_token", [api.configRefreshToken])]] := by
  refine ⟨fun E remote ctx => RotateTokensContext_state E api remote ctx refreshToken,
    fun log ctx => RotateTokensContext_recorded api log ctx refreshToken, fun hne => ?_, ?_⟩
  · have := RotateTokensContext_recorded api [] "ctx" refreshToken
    simpa [hne] using this
  · have := RotateTokensContext_recorded api [] "ctx" ""
    simpa using this

end slack

namespace slack

/-- C24: let the one request of `RotateTokensContext` leave the response `resp`
and return `err`. When the request fails (`err` is an error), the function
returns a nil response together with that error. When the request succeeds, it
returns the non-nil response `resp` together with `resp.Err()`. So a non-nil
response accompanies a non-nil error exactly when the request succeeded and the
decoded Slack response reports a failure. -/
theorem C24_rotate_errors (E : ClientEnv) (api : Client) (remote remote1 : E.Remote)
    (ctx : E.Context) (refreshToken : String) (resp : TokenResponse E.SlackResponse)
    (err : Option E.Error)
    (hcall : E.getMethod remote api ctx "tooling.tokens.rotate" api.configToken
      [("refresh_token", [if refreshToken = "" then api.configRefreshToken else refreshToken])]
      E.zeroTokenResponse = ((resp, err), remote1)) :
    (∀ e, err = some e →
      (api.RotateTokensContext E remote ctx refreshToken).1 = (none, some e)) ∧
    (err = none →
      (api.RotateTokensContext E remote ctx refreshToken).1 =
        (some resp, E.Err resp.SlackResponse)) ∧
    (((api.RotateTokensContext E remote ctx refreshToken).1.1.isSome = true ∧
        (api.RotateTokensContext E remote ctx refreshToken).1.2.isSome = true) ↔
      (err = none ∧ (E.Err resp.SlackResponse).isSome = true)) := by
  rw [RotateTokensContext_eq, hcall]
  cases err with
  | none => simp
  | some e => simp

/-- C24 in the recording environment: a client without a token gets a nil
response and the transport error; the refresh token "expired" gets a non-nil
response together with the error the Slack response carries; any other gets a
non-nil response and no error. -/
theorem C24_rotate_errors_witness :
    ((Client.mk "" "r0").RotateTokensContext recordingEnv [] "ctx" "r1").1 =
      (none, some "not_authed: no token") ∧
    ((Client.mk "xoxe-config" "r0").RotateTokensContext recordingEnv [] "ctx" "expired").1 =
      (some { recordingEnv.zeroTokenResponse with SlackResponse := "invalid_refresh_token" },
        some "invalid_refresh_token") ∧
    ((Client.mk "xoxe-config" "r0").RotateTokensContext recordingEnv [] "ctx" "r1").1 =
      (some { recordingEnv.zeroTokenResponse with
        Token := "xoxe.xoxp-new", RefreshToken := "xoxe-new" }, none) ∧
    ((((Client.mk "xoxe-config" "r0").RotateTokensContext recordingEnv [] "ctx"
          "expired").1.1.isSome = true ∧
        ((Client.mk "xoxe-config" "r0").RotateTokensContext recordingEnv [] "ctx"
          "expired").1.2.isSome = true) ↔
      ((none : Option String) = none ∧
        (recordingEnv.Err "invalid_refresh_token").isSome = true)) :=
  ⟨(C24_rotate_errors recordingEnv (Client.mk "" "r0") [] _ "ctx" "r1" _
      (some "not_authed: no token") rfl).1 _ rfl,
    rfl, rfl,
    (C24_rotate_errors recordingEnv (Client.mk "xoxe-config" "r0") [] _ "ctx" "expired"
      { recordingEnv.zeroTokenResponse with SlackResponse := "invalid_refresh_token" }
      none rfl).2.2⟩

end slack

/-! ## The receiver of MessageEvent.UnmarshalJSON -/

namespace slackevents
open json

/-- A successful `UnmarshalJSON` leaves the same record whatever the receiver
held. -/
theorem UnmarshalJSON_receiver (P : slack.Pkg) (x : Option JSON) (e e2 r : GoVal)
    (h : MessageEvent.UnmarshalJSON P x e = (r, none)) :
    MessageEvent.UnmarshalJSON P x e2 = (r, none) := by
  obtain ⟨a, ha, hcase⟩ := UnmarshalJSON_ok P x e r h
  rcases hcase with ⟨hnil, he⟩ | ⟨hnil, m, hm, he⟩
  · subst he
    simp [MessageEvent.UnmarshalJSON, ha, hnil]
  · subst he
    simp [MessageEvent.UnmarshalJSON, ha, hnil, hm]

/-- C26: the record a successful `MessageEvent.UnmarshalJSON` leaves depends on
the input alone: from every other receiver the call succeeds with the same
record, so decoding the document a second time into the receiver the first call
left, and decoding it once into a zero receiver, both give that record. -/
theorem C26_reentrant (P : slack.Pkg) (x : Option JSON) (e r : GoVal)
    (h : MessageEvent.UnmarshalJSON P x e = (r, none)) :
    (∀ e2, MessageEvent.UnmarshalJSON P x e2 = (r, none)) ∧
    MessageEvent.UnmarshalJSON P x r = (r, none) ∧
    MessageEvent.UnmarshalJSON P x (zero P.foreign (MessageEvent P)) = (r, none) :=
  ⟨fun e2 => UnmarshalJSON_receiver P x e e2 r h, UnmarshalJSON_receiver P x e r r h,
    UnmarshalJSON_receiver P x e _ r h⟩

/-- C26 at the frame of the first scenario, decoded into a receiver that holds
the record of the second scenario: nothing of that record survives. -/
theorem C26_reentrant_witness :
    (MessageEvent.UnmarshalJSON slack.minimalPkg (some frameHello)
      (MessageEvent.UnmarshalJSON slack.minimalPkg (some frameEdited) zeroEvent).1).2 = none ∧
    MessageEvent.UnmarshalJSON slack.minimalPkg (some frameHello)
      (MessageEvent.UnmarshalJSON slack.minimalPkg (some frameHello)
        (MessageEvent.UnmarshalJSON slack.minimalPkg (some frameEdited) zeroEvent).1).1 =
      MessageEvent.UnmarshalJSON slack.minimalPkg (some frameHello) zeroEvent ∧
    (MessageEvent.UnmarshalJSON slack.minimalPkg (some frameHello)
      (MessageEvent.UnmarshalJSON slack.minimalPkg (some frameEdited) zeroEvent).1).1.field
        "SubType" = some (.str "") :=
  ⟨rfl,
    ((C26_reentrant slack.minimalPkg (some frameHello)
      (MessageEvent.UnmarshalJSON slack.minimalPkg (some frameEdited) zeroEvent).1 _
      (Prod.ext rfl rfl)).2.1).trans
    ((C26_reentrant slack.minimalPkg (some frameHello)
      (MessageEvent.UnmarshalJSON slack.minimalPkg (some frameEdited) zeroEvent).1 _
      (Prod.ext rfl rfl)).1 zeroEvent).symm,
    rfl⟩

/-- C28, as the claim states it, fails: in the package where `slack.Edited` is
the struct of a user and a timestamp, the frame
{"type":"message","text":"hi","edited":5} passes the first pass and fails in the
second, which decodes the root as `slack.Msg`; the call returns the error, and
the receiver, zero before the call, holds the first-pass record afterwards, with
Type "message" and Text "hi". -/
theorem C28_counterexample :
    (MessageEvent.UnmarshalJSON slack.editedPkg (some frameEditedNumber) zeroEvent).2 =
      some (.typeMismatch "number") ∧
    zeroEvent.field "Type" = some (.str "") ∧
    (MessageEvent.UnmarshalJSON slack.editedPkg (some frameEditedNumber) zeroEvent).1.field
      "Type" = some (.str "message") ∧
    (MessageEvent.UnmarshalJSON slack.editedPkg (some frameEditedNumber) zeroEvent).1.field
      "Text" = some (.str "hi") ∧
    (MessageEvent.UnmarshalJSON slack.editedPkg (some frameEditedNumber) zeroEvent).1 ≠
      zeroEvent := by
  refine ⟨rfl, rfl, rfl, rfl, fun heq => ?_⟩
  have h1 : (MessageEvent.UnmarshalJSON slack.editedPkg (some frameEditedNumber)
      zeroEvent).1.field "Type" = zeroEvent.field "Type" := by rw [heq]
  have h2 : (MessageEvent.UnmarshalJSON slack.editedPkg (some frameEditedNumber)
      zeroEvent).1.field "Type" = some (.str "message") := rfl
  have h3 : zeroEvent.field "Type" = some (.str "") := rfl
  rw [h2, h3] at h1
  have h4 := GoVal.str.inj (Option.some.inj h1)
  exact absurd h4 (by decide)

/-- C28 (amended): when `MessageEvent.UnmarshalJSON` returns an error, either
the first pass failed with that error and the receiver holds the value it held
before the call, or the first pass succeeded with a record whose `Message` is
nil, the second pass (the root decoded as `slack.Msg`) failed with that error,
and the receiver holds the first-pass record. -/
theorem C28_failure_receiver (P : slack.Pkg) (x : Option JSON) (e e1 : GoVal)
    (err : UnmarshalError) (h : MessageEvent.UnmarshalJSON P x e = (e1, some err)) :
    ((Unmarshal P.foreign x (MessageEvent P) (zero P.foreign (MessageEvent P))).2 = some err ∧
      e1 = e) ∨
    (∃ a, Unmarshal P.foreign x (MessageEvent P) (zero P.foreign (MessageEvent P)) = (a, none) ∧
      isNil (a.field "Message") = true ∧
      (Unmarshal P.foreign x (slack.Msg P) (zero P.foreign (slack.Msg P))).2 = some err ∧
      e1 = a) := by
  rcases hr1 : Unmarshal P.foreign x (MessageEvent P) (zero P.foreign (MessageEvent P))
    with ⟨a, err1⟩
  simp only [MessageEvent.UnmarshalJSON, hr1] at h
  cases err1 with
  | some err0 =>
    left
    simp only [Prod.mk.injEq, Option.some.injEq] at h
    exact ⟨by rw [h.2], h.1.symm⟩
  | none =>
    right
    simp only at h
    cases hnil : isNil (a.field "Message") with
    | false => simp [hnil] at h
    | true =>
      simp only [hnil, if_true] at h
      rcases hr2 : Unmarshal P.foreign x (slack.Msg P) (zero P.foreign (slack.Msg P))
        with ⟨m, err2⟩
      simp only [hr2] at h
      cases err2 with
      | none => simp at h
      | some err0 =>
        simp only [Prod.mk.injEq, Option.some.injEq] at h
        exact ⟨a, rfl, hnil, by rw [h.2], h.1.symm⟩

/-- C28 (amended) at bytes that are not a JSON document, where the receiver is
left alone, and at the frame {"type":"message","text":"hi","edited":5} in the
package where `slack.Edited` is a struct, where the second pass fails. -/
theorem C28_failure_receiver_witness :
    MessageEvent.UnmarshalJSON slack.editedPkg none zeroEvent =
      (zeroEvent, some .invalidDocument) ∧
    (((Unmarshal slack.editedPkg.foreign (some frameEditedNumber)
          (MessageEvent slack.editedPkg)
          (zero slack.editedPkg.foreign (MessageEvent slack.editedPkg))).2 =
        some (.typeMismatch "number") ∧
      (MessageEvent.UnmarshalJSON slack.editedPkg (some frameEditedNumber) zeroEvent).1 =
        zeroEvent) ∨
    (∃ a, Unmarshal slack.editedPkg.foreign (some frameEditedNumber)
          (MessageEvent slack.editedPkg)
          (zero slack.editedPkg.foreign (MessageEvent slack.editedPkg)) = (a, none) ∧
      isNil (a.field "Message") = true ∧
      (Unmarshal slack.editedPkg.foreign (some frameEditedNumber) (slack.Msg slack.editedPkg)
        (zero slack.editedPkg.foreign (slack.Msg slack.editedPkg))).2 =
        some (.typeMismatch "number") ∧
      (MessageEvent.UnmarshalJSON slack.editedPkg (some frameEditedNumber) zeroEvent).1 = a)) :=
  ⟨rfl, C28_failure_receiver slack.editedPkg (some frameEditedNumber) zeroEvent _
    (.typeMismatch "number") (Prod.ext rfl rfl)⟩

/-- C29: after a successful `MessageEvent.UnmarshalJSON` on an object, the
top-level `Text`, `User`, `Channel` and `TimeStamp` hold what the members of the
root spelling "text", "user", "channel" and "ts" leave when decoded in turn from
the empty string; nothing nested under "message" enters them. -/
theorem C29_top_level_from_root (P : slack.Pkg) (kvs : List (String × JSON)) (e e1 : GoVal)
    (h : MessageEvent.UnmarshalJSON P (some (.obj kvs)) e = (e1, none)) :
    e1.field "Text" = some (decodeAll P.foreign .string (members "text" kvs) (.str "")) ∧
    e1.field "User" = some (decodeAll P.foreign .string (members "user" kvs) (.str "")) ∧
    e1.field "Channel" = some (decodeAll P.foreign .string (members "channel" kvs) (.str "")) ∧
    e1.field "TimeStamp" = some (decodeAll P.foreign .string (members "ts" kvs) (.str "")) := by
  obtain ⟨a, ha, hcase⟩ := UnmarshalJSON_ok P _ e e1 h
  have hall : ∀ g n, (g, n, GoType.string) ∈ (MessageEvent P).fields → g ≠ "Message" →
      e1.field g = some (decodeAll P.foreign .string (members n kvs) (.str "")) := by
    intro g n hmem hne
    have hf := MessageEvent_field_after_unmarshal P hmem _ a ha
    rcases hcase with ⟨_, he⟩ | ⟨_, m, _, he⟩
    · subst he
      exact hf
    · subst he
      rw [withField_field_ne a _ hne]
      exact hf
  refine ⟨hall "Text" "text" ?_ (by decide), hall "User" "user" ?_ (by decide),
    hall "Channel" "channel" ?_ (by decide), hall "TimeStamp" "ts" ?_ (by decide)⟩ <;>
  simp [MessageEvent, GoType.fields]

/-- C29 at the frame of the second scenario: the root has no member spelling
"text", the top-level `Text` is the empty string, and `Message.Text` is
"edited", for every package and every receiver. -/
theorem C29_top_level_from_root_witness :
    (MessageEvent.UnmarshalJSON slack.minimalPkg (some frameEdited) zeroEvent).2 = none ∧
    (MessageEvent.UnmarshalJSON slack.minimalPkg (some frameEdited) zeroEvent).1.field "Text" =
      some (decodeAll slack.minimalPkg.foreign .string
        (members "text" [("type", .str "message"), ("subtype", .str "message_changed"),
          ("message", .obj [("text", .str "edited")])]) (.str "")) ∧
    members "text" [("type", .str "message"), ("subtype", .str "message_changed"),
      ("message", .obj [("text", .str "edited")])] = [] ∧
    ∀ (P : slack.Pkg) (e : GoVal),
      (MessageEvent.UnmarshalJSON P (some frameEdited) e).2 = none ∧
      (MessageEvent.UnmarshalJSON P (some frameEdited) e).1.field "Text" = some (.str "") ∧
      (MessageEvent.UnmarshalJSON P (some frameEdited) e).1.field "User" = some (.str "") ∧
      (MessageEvent.UnmarshalJSON P (some frameEdited) e).1.field "Channel" = some (.str "") ∧
      (MessageEvent.UnmarshalJSON P (some frameEdited) e).1.field "TimeStamp" =
        some (.str "") ∧
      (MessageEvent.UnmarshalJSON P (some frameEdited) e).1.fieldOfPtr "Message" "Text" =
        some (.str "edited") :=
  ⟨rfl,
    (C29_top_level_from_root slack.minimalPkg
      [("type", .str "message"), ("subtype", .str "message_changed"),
        ("message", .obj [("text", .str "edited")])] zeroEvent _ (Prod.ext rfl rfl)).1,
    rfl, fun _ _ => ⟨rfl, rfl, rfl, rfl, rfl, rfl⟩⟩

end slackevents

namespace json

/-- A pointer field after successive decodes is non-nil exactly when the last
value decoded into it is not `null`; with no value it stays as it was. -/
theorem decodeAll_ptr_isSome (F : Foreign) (t : GoType) :
    ∀ (js : List JSON) (p : Option GoVal),
      ∃ q, decodeAll F (.ptr t) js (.ptr p) = .ptr q ∧
        q.isSome = (match js.getLast? with
          | none => p.isSome
          | some .null => false
          | some _ => true)
  | [], p => ⟨p, rfl, rfl⟩
  | j :: js, p => by
    have hstep : ∃ p2, (unmarshalValue F (.ptr t) j (.ptr p)).1 = .ptr p2 ∧
        p2.isSome = (match j with
          | .null => false
          | _ => true) := by
      cases j <;> simp [unmarshalValue]
    obtain ⟨p2, hp2, hsome⟩ := hstep
    obtain ⟨q, hq, hlast⟩ := decodeAll_ptr_isSome F t js p2
    refine ⟨q, by simp only [decodeAll, List.foldl_cons, hp2] at hq ⊢; exact hq, ?_⟩
    rw [hlast]
    cases js with
    | nil =>
      simp only [List.getLast?_nil, List.getLast?_singleton, hsome]
      cases j <;> rfl
    | cons j2 js2 =>
      rw [List.getLast?_cons_cons]
      cases hl : (j2 :: js2).getLast? with
      | none => simp at hl
      | some v => cases v <;> rfl

end json

namespace slackevents
open json

/-- The field `Edited` of the message an object decodes to, for a well-formed
declaration of `slack.Msg`: a pointer, non-nil exactly when the object carries a
non-null "edited". -/
theorem Msg_Edited_after_decode (P : slack.Pkg) (hwf : P.WellFormed)
    (kvs : List (String × JSON)) :
    ∃ q, (unmarshalValue P.foreign (slack.Msg P) (.obj kvs)
        (zero P.foreign (slack.Msg P))).1.field "Edited" = some (.ptr q) ∧
      q.isSome = carriesEdited kvs := by
  have hmem : ("Edited", "edited", GoType.ptr (.foreign "slack.Edited")) ∈
      (slack.Msg P).fields := by
    simp [slack.Msg, GoType.fields]
  have hget := getField_after_decode P.foreign hwf.1 hwf.2 hmem kvs
  have hval : (unmarshalValue P.foreign (slack.Msg P) (.obj kvs)
      (zero P.foreign (slack.Msg P))).1.field "Edited" =
      some (decodeAll P.foreign (.ptr (.foreign "slack.Edited")) (members "edited" kvs)
        (.ptr none)) := by
    have hobj := unmarshalValue_struct_obj P.foreign (slack.Msg P).fields kvs
      (zero P.foreign (slack.Msg P))
    have hobj1 : (unmarshalValue P.foreign (slack.Msg P) (.obj kvs)
        (zero P.foreign (slack.Msg P))).1 =
        .struct (kvs.foldl (memberStep P.foreign (slack.Msg P).fields)
          (zeroFields P.foreign (slack.Msg P).fields, none)).1 := congrArg Prod.fst hobj
    rw [hobj1]
    exact hget
  obtain ⟨q, hq, hsome⟩ := decodeAll_ptr_isSome P.foreign (.foreign "slack.Edited")
    (members "edited" kvs) none
  refine ⟨q, by rw [hval, hq], ?_⟩
  rw [hsome]
  unfold carriesEdited
  cases (members "edited" kvs).getLast? with
  | none => rfl
  | some v => cases v <;> rfl

/-- The result of `IsEdited` on an event whose `Message` points to a message
whose `Edited` is a pointer. -/
theorem IsEdited_of_fields (e m : GoVal) (q : Option GoVal)
    (hmsg : e.field "Message" = some (.ptr (some m)))
    (hed : m.field "Edited" = some (.ptr q)) :
    MessageEvent.IsEdited e = some q.isSome := by
  simp [MessageEvent.IsEdited, hmsg, neNil, selectThroughPtr, hed]

/-- The `Message` a successful `UnmarshalJSON` leaves when one member spells
"message" and holds an object: the decoding of that object. -/
theorem Message_of_nested (P : slack.Pkg) (kvs inner : List (String × JSON))
    (e e1 : GoVal) (hmsg : members "message" kvs = [.obj inner])
    (h : MessageEvent.UnmarshalJSON P (some (.obj kvs)) e = (e1, none)) :
    e1.field "Message" = some (.ptr (some
      (unmarshalValue P.foreign (slack.Msg P) (.obj inner) (zero P.foreign (slack.Msg P))).1)) := by
  obtain ⟨a, ha, hcase⟩ := UnmarshalJSON_ok P _ e e1 h
  have hfield := MessageEvent_field_after_unmarshal P (MessageEvent_Message_mem P) _ a ha
  simp only [docMembers, hmsg, decodeAll, List.foldl_cons, List.foldl_nil] at hfield
  have hz : zero P.foreign (GoType.ptr (slack.Msg P)) = .ptr none := rfl
  rw [hz, unmarshalValue_ptr_nil P.foreign (slack.Msg P) (.obj inner)
    (fun hnull => JSON.noConfusion hnull)] at hfield
  rcases hcase with ⟨_, he⟩ | ⟨hnil, _⟩
  · subst he
    exact hfield
  · rw [hfield] at hnil
    simp [isNil] at hnil

/-- The `Message` a successful `UnmarshalJSON` leaves when no member spelling
"message" holds anything but `null`: the decoding of the root. -/
theorem Message_of_root (P : slack.Pkg) (kvs : List (String × JSON)) (e e1 : GoVal)
    (hmsg : ∀ v ∈ members "message" kvs, v = .null)
    (h : MessageEvent.UnmarshalJSON P (some (.obj kvs)) e = (e1, none)) :
    e1.field "Message" = some (.ptr (some
      (unmarshalValue P.foreign (slack.Msg P) (.obj kvs) (zero P.foreign (slack.Msg P))).1)) := by
  obtain ⟨a, ha, hcase⟩ := UnmarshalJSON_ok P _ e e1 h
  have hfield := MessageEvent_field_after_unmarshal P (MessageEvent_Message_mem P) _ a ha
  simp only [docMembers] at hfield
  have hz : zero P.foreign (GoType.ptr (slack.Msg P)) = .ptr none := rfl
  rw [hz, decodeAll_ptr_null P.foreign _ _ hmsg] at hfield
  rcases hcase with ⟨hnil, _⟩ | ⟨_, m, hm, he⟩
  · rw [hfield] at hnil
    simp [isNil] at hnil
  · have hm1 : (unmarshalValue P.foreign (slack.Msg P) (.obj kvs)
        (zero P.foreign (slack.Msg P))).1 = m := by
      have := congrArg Prod.fst hm
      simpa [Unmarshal] using this
    rw [hm1]
    subst he
    exact withField_field_same a _ _ (by simp [hfield])


end slackevents

namespace slackevents
open json

theorem mem_members {name : String} {kvs : List (String × JSON)} {v : JSON}
    (h : v ∈ members name kvs) : ∃ kv ∈ kvs, foldName kv.1 = foldName name ∧ kv.2 = v := by
  unfold members at h
  obtain ⟨kv, hkv, hv⟩ := List.mem_map.mp h
  rw [List.mem_filter] at hkv
  exact ⟨kv, hkv.1, by simpa using hkv.2, hv⟩

/-- When the decoder of `slack.Edited` rejects every value that is neither `null`
nor an object, as the decoder of a struct does, an object that decodes as
`slack.Msg` without error holds only `null` and objects under "edited". -/
theorem edited_members_of_ok (P : slack.Pkg) (hwf : P.WellFormed)
    (hrej : ∀ j cur, j ≠ .null → (∀ o, j ≠ .obj o) →
      (P.foreign.unmarshal "slack.Edited" j cur).2 ≠ none)
    (kvs : List (String × JSON)) (acc : List (String × GoVal) × Option UnmarshalError)
    (herr : (kvs.foldl (memberStep P.foreign (slack.Msg P).fields) acc).2 = none) :
    ∀ v ∈ members "edited" kvs, v = .null ∨ ∃ o, v = .obj o := by
  intro v hv
  by_contra hbad
  have hnull : v ≠ .null := fun h => hbad (Or.inl h)
  have hobj : ∀ o, v ≠ .obj o := fun o h => hbad (Or.inr ⟨o, h⟩)
  obtain ⟨kv, hkv, hfold, hval⟩ := mem_members hv
  have hmem : ("Edited", "edited", GoType.ptr (.foreign "slack.Edited")) ∈
      (slack.Msg P).fields := by
    simp [slack.Msg, GoType.fields]
  have hsel : fieldFor (slack.Msg P).fields kv.1 =
      some ("Edited", "edited", GoType.ptr (.foreign "slack.Edited")) :=
    (fieldFor_eq_some_iff hwf.2 kv.1 _).mpr ⟨hmem, hfold.symm⟩
  refine foldl_memberStep_error_of_mem P.foreign (slack.Msg P).fields kv _ hsel ?_ kvs acc hkv
    herr
  intro cur
  rw [hval]
  show (unmarshalValue P.foreign (.ptr (.foreign "slack.Edited")) v cur).2 ≠ none
  cases cur with
  | ptr p =>
    cases p with
    | none =>
      rw [unmarshalValue_ptr_nil P.foreign _ v hnull]
      exact hrej v _ hnull hobj
    | some c =>
      rw [unmarshalValue_ptr_some P.foreign _ v c hnull]
      exact hrej v _ hnull hobj
  | str s => cases v <;> first | exact absurd rfl hnull | exact hrej _ _ hnull hobj
  | bool s => cases v <;> first | exact absurd rfl hnull | exact hrej _ _ hnull hobj
  | int s => cases v <;> first | exact absurd rfl hnull | exact hrej _ _ hnull hobj
  | iface s => cases v <;> first | exact absurd rfl hnull | exact hrej _ _ hnull hobj
  | map s => cases v <;> first | exact absurd rfl hnull | exact hrej _ _ hnull hobj
  | slice a b c => cases v <;> first | exact absurd rfl hnull | exact hrej _ _ hnull hobj
  | struct s => cases v <;> first | exact absurd rfl hnull | exact hrej _ _ hnull hobj

end slackevents

namespace json

/-- Decoding a value other than `null` into a pointer decodes into some pointee:
the one the pointer holds, or a zero value. -/
theorem unmarshalValue_ptr_any (F : Foreign) (t : GoType) (j : JSON) (cur : GoVal)
    (hj : j ≠ .null) :
    ∃ pointee, unmarshalValue F (.ptr t) j cur =
      (.ptr (some (unmarshalValue F t j pointee).1), (unmarshalValue F t j pointee).2) := by
  cases cur with
  | ptr p =>
    cases p with
    | none => exact ⟨_, unmarshalValue_ptr_nil F t j hj⟩
    | some c => exact ⟨_, unmarshalValue_ptr_some F t j c hj⟩
  | str s => cases j <;> first | exact absurd rfl hj | exact ⟨zero F t, rfl⟩
  | bool s => cases j <;> first | exact absurd rfl hj | exact ⟨zero F t, rfl⟩
  | int s => cases j <;> first | exact absurd rfl hj | exact ⟨zero F t, rfl⟩
  | iface s => cases j <;> first | exact absurd rfl hj | exact ⟨zero F t, rfl⟩
  | map s => cases j <;> first | exact absurd rfl hj | exact ⟨zero F t, rfl⟩
  | slice a b c => cases j <;> first | exact absurd rfl hj | exact ⟨zero F t, rfl⟩
  | struct s => cases j <;> first | exact absurd rfl hj | exact ⟨zero F t, rfl⟩

end json

namespace slackevents
open json

/-- When the decoder of `slack.Edited` rejects every value that is neither `null`
nor an object, a successful `UnmarshalJSON` on a document whose one member
spelling "message" holds an object means that object holds only `null` and
objects under "edited". -/
theorem edited_members_nested (P : slack.Pkg) (hwf : P.WellFormed)
    (hrej : ∀ j cur, j ≠ .null → (∀ o, j ≠ .obj o) →
      (P.foreign.unmarshal "slack.Edited" j cur).2 ≠ none)
    (kvs inner : List (String × JSON)) (e e1 : GoVal)
    (hmsg : members "message" kvs = [.obj inner])
    (h : MessageEvent.UnmarshalJSON P (some (.obj kvs)) e = (e1, none)) :
    ∀ v ∈ members "edited" inner, v = .null ∨ ∃ o, v = .obj o := by
  obtain ⟨a, ha, _⟩ := UnmarshalJSON_ok P _ e e1 h
  have hfirst : (kvs.foldl (memberStep P.foreign (MessageEvent P).fields)
      (zeroFields P.foreign (MessageEvent P).fields, none)).2 = none := by
    rcases unmarshal_struct_ok P.foreign (MessageEvent P).fields _ a ha with
      ⟨hnull, _⟩ | ⟨kvs1, hkvs, _, herr⟩
    · exact JSON.noConfusion hnull
    · rw [JSON.obj.inj hkvs]
      exact herr
  have hin : JSON.obj inner ∈ members "message" kvs := by
    rw [hmsg]
    exact List.mem_singleton_self _
  obtain ⟨kv, hkv, hfold, hval⟩ := mem_members hin
  have hsel : fieldFor (MessageEvent P).fields kv.1 =
      some ("Message", "message", GoType.ptr (slack.Msg P)) :=
    (fieldFor_eq_some_iff (MessageEvent_jsonNames_nodup P) kv.1 _).mpr
      ⟨MessageEvent_Message_mem P, hfold.symm⟩
  by_contra hcontra
  refine foldl_memberStep_error_of_mem P.foreign (MessageEvent P).fields kv _ hsel ?_ kvs _ hkv
    hfirst
  intro cur hnone
  apply hcontra
  rw [hval] at hnone
  obtain ⟨pointee, hp⟩ := unmarshalValue_ptr_any P.foreign (slack.Msg P) (.obj inner) cur
    (fun hnull => JSON.noConfusion hnull)
  have hnone1 : (unmarshalValue P.foreign (slack.Msg P) (.obj inner) pointee).2 = none := by
    have := congrArg Prod.snd hp
    rw [← this]
    exact hnone
  have hobj := unmarshalValue_struct_obj P.foreign (slack.Msg P).fields inner pointee
  have hnone2 := (congrArg Prod.snd hobj).symm.trans hnone1
  exact edited_members_of_ok P hwf hrej inner _ hnone2

/-- The same when no member spelling "message" holds anything but `null`: the
root holds only `null` and objects under "edited". -/
theorem edited_members_root (P : slack.Pkg) (hwf : P.WellFormed)
    (hrej : ∀ j cur, j ≠ .null → (∀ o, j ≠ .obj o) →
      (P.foreign.unmarshal "slack.Edited" j cur).2 ≠ none)
    (kvs : List (String × JSON)) (e e1 : GoVal)
    (hmsg : ∀ v ∈ members "message" kvs, v = .null)
    (h : MessageEvent.UnmarshalJSON P (some (.obj kvs)) e = (e1, none)) :
    ∀ v ∈ members "edited" kvs, v = .null ∨ ∃ o, v = .obj o := by
  obtain ⟨a, ha, hcase⟩ := UnmarshalJSON_ok P _ e e1 h
  have hfield := MessageEvent_field_after_unmarshal P (MessageEvent_Message_mem P) _ a ha
  simp only [docMembers] at hfield
  have hz : zero P.foreign (GoType.ptr (slack.Msg P)) = .ptr none := rfl
  rw [hz, decodeAll_ptr_null P.foreign _ _ hmsg] at hfield
  rcases hcase with ⟨hnil, _⟩ | ⟨_, m, hm, _⟩
  · rw [hfield] at hnil
    simp [isNil] at hnil
  · have hobj := unmarshalValue_struct_obj P.foreign (slack.Msg P).fields kvs
      (zero P.foreign (slack.Msg P))
    have hnone : (unmarshalValue P.foreign (slack.Msg P) (.obj kvs)
        (zero P.foreign (slack.Msg P))).2 = none := congrArg Prod.snd hm
    exact edited_members_of_ok P hwf hrej kvs _ ((congrArg Prod.snd hobj).symm.trans hnone)

end slackevents

namespace slackevents
open json

/-- C27: after a successful `MessageEvent.UnmarshalJSON` on an object, with
`slack.Msg` a well-formed declaration, `IsEdited()` returns whether the payload
normalization chose carries a non-null "edited": when one member spells
"message" and holds an object, that object decides, whatever the root carries
under "edited"; when no member spelling "message" holds anything but `null`, the
root decides. When the decoder of `slack.Edited` rejects what is neither `null`
nor an object, as the decoder of a struct does, every "edited" of the chosen
payload is `null` or an object, so a non-null one is an object. -/
theorem C27_isEdited_after_decode (P : slack.Pkg) (hwf : P.WellFormed)
    (kvs : List (String × JSON)) (e e1 : GoVal)
    (h : MessageEvent.UnmarshalJSON P (some (.obj kvs)) e = (e1, none)) :
    (∀ inner, members "message" kvs = [.obj inner] →
      MessageEvent.IsEdited e1 = some (carriesEdited inner)) ∧
    ((∀ v ∈ members "message" kvs, v = .null) →
      MessageEvent.IsEdited e1 = some (carriesEdited kvs)) ∧
    ((∀ j cur, j ≠ .null → (∀ o, j ≠ .obj o) →
        (P.foreign.unmarshal "slack.Edited" j cur).2 ≠ none) →
      (∀ inner, members "message" kvs = [.obj inner] →
        ∀ v ∈ members "edited" inner, v = .null ∨ ∃ o, v = .obj o) ∧
      ((∀ v ∈ members "message" kvs, v = .null) →
        ∀ v ∈ members "edited" kvs, v = .null ∨ ∃ o, v = .obj o)) := by
  refine ⟨?_, ?_, fun hrej => ⟨fun inner hmsg => edited_members_nested P hwf hrej kvs inner e e1
    hmsg h, fun hmsg => edited_members_root P hwf hrej kvs e e1 hmsg h⟩⟩
  · intro inner hmsg
    obtain ⟨q, hq, hsome⟩ := Msg_Edited_after_decode P hwf inner
    rw [IsEdited_of_fields e1 _ q (Message_of_nested P kvs inner e e1 hmsg h) hq, hsome]
  · intro hmsg
    obtain ⟨q, hq, hsome⟩ := Msg_Edited_after_decode P hwf kvs
    rw [IsEdited_of_fields e1 _ q (Message_of_root P kvs e e1 hmsg h) hq, hsome]

/-- C27 at a frame whose root carries an `edited` object and whose nested message
carries none: `IsEdited()` is false; and at a frame whose nested message carries
one, where it is true. -/
theorem C27_isEdited_after_decode_witness :
    (MessageEvent.UnmarshalJSON slack.minimalPkg (some (.obj frameRootEdited)) zeroEvent).2 =
      none ∧
    members "message" frameRootEdited = [.obj [("text", .str "new")]] ∧
    carriesEdited frameRootEdited = true ∧
    carriesEdited [("text", .str "new")] = false ∧
    MessageEvent.IsEdited
      (MessageEvent.UnmarshalJSON slack.minimalPkg (some (.obj frameRootEdited)) zeroEvent).1 =
      some (carriesEdited [("text", .str "new")]) ∧
    MessageEvent.IsEdited
      (MessageEvent.UnmarshalJSON slack.minimalPkg (some slacktest.frameWithEdited)
        zeroEvent).1 = some true :=
  ⟨rfl, rfl, rfl, rfl,
    (C27_isEdited_after_decode slack.minimalPkg minimalPkg_wellFormed frameRootEdited zeroEvent _
      (Prod.ext rfl rfl)).1 _ rfl,
    rfl⟩

end slackevents

/-! ## Writing JSON text and reading it back -/

namespace json

theorem hexValue_hexDigit : ∀ k, k < 16 → hexValue (hexDigit k) = some k := by
  decide

/-- Four digits `00XY` are read as the code unit they write, below 256. -/
theorem hex4_low (n : Nat) (h : n < 256) :
    hex4 '0' '0' (hexDigit (n / 16)) (hexDigit (n % 16)) = some n := by
  have h1 : hexValue '0' = some 0 := by decide
  have h2 := hexValue_hexDigit (n / 16) (by omega)
  have h3 := hexValue_hexDigit (n % 16) (by omega)
  simp only [hex4, h1, h2, h3]
  congr 1
  omega

/-- The digits `202X` are read as the code unit they write. -/
theorem hex4_2020 (n : Nat) (h : n = 0x2028 ∨ n = 0x2029) :
    hex4 '2' '0' '2' (hexDigit (n % 16)) = some n := by
  rcases h with h | h <;> subst h <;> decide

/-- Reading the text written for one rune gives the rune back. -/
theorem parseStringBody_escapeRune (c : Char) (fuel : Nat) (tail acc : List Char) :
    parseStringBody (fuel + 1) (escapeRune c ++ tail) acc = parseStringBody fuel tail (c :: acc) := by
  unfold escapeRune
  by_cases h1 : c = '"'
  · subst h1
    simp [parseStringBody]
  by_cases h2 : c = '\\'
  · subst h2
    simp [parseStringBody]
  by_cases h3 : c.toNat = 8
  · have hc : c = Char.ofNat 8 := by rw [← h3, Char.ofNat_toNat]
    subst hc
    simp [parseStringBody]
  by_cases h4 : c.toNat = 12
  · have hc : c = Char.ofNat 12 := by rw [← h4, Char.ofNat_toNat]
    subst hc
    simp [parseStringBody]
  by_cases h5 : c = '\n'
  · subst h5
    simp [parseStringBody]
  by_cases h6 : c = '\r'
  · subst h6
    simp [parseStringBody]
  by_cases h7 : c = '\t'
  · subst h7
    simp [parseStringBody]
  simp only [h1, h2, h3, h4, h5, h6, h7, if_false]
  by_cases h8 : c.toNat < 32 ∨ c = '<' ∨ c = '>' ∨ c = '&'
  · have hlt : c.toNat < 256 := by
      rcases h8 with h | h | h | h
      · omega
      · subst h; decide
      · subst h; decide
      · subst h; decide
    have hhex := hex4_low c.toNat hlt
    simp only [h8, if_true, List.cons_append, List.nil_append]
    rw [parseStringBody]
    simp only [show ¬ ('\\' = '"') by decide, if_false, if_true,
      show ¬ ('u' = '"') by decide, show ¬ ('u' = '\\') by decide, show ¬ ('u' = '/') by decide,
      show ¬ ('u' = 'b') by decide, show ¬ ('u' = 'f') by decide, show ¬ ('u' = 'n') by decide,
      show ¬ ('u' = 'r') by decide, show ¬ ('u' = 't') by decide, hhex]
    have hns : ¬ (0xD800 ≤ c.toNat ∧ c.toNat < 0xDC00) := by omega
    have hns2 : ¬ (0xD800 ≤ c.toNat ∧ c.toNat < 0xE000) := by omega
    simp only [hns, if_false, runeOfUnit, hns2, Char.ofNat_toNat]
  · simp only [h8, if_false]
    by_cases h9 : c.toNat = 0x2028 ∨ c.toNat = 0x2029
    · have hhex := hex4_2020 c.toNat h9
      simp only [h9, if_true, List.cons_append, List.nil_append]
      rw [parseStringBody]
      simp only [show ¬ ('\\' = '"') by decide, if_false, if_true,
        show ¬ ('u' = '"') by decide, show ¬ ('u' = '\\') by decide,
        show ¬ ('u' = '/') by decide, show ¬ ('u' = 'b') by decide, show ¬ ('u' = 'f') by decide,
        show ¬ ('u' = 'n') by decide, show ¬ ('u' = 'r') by decide, show ¬ ('u' = 't') by decide,
        hhex]
      have hns : ¬ (0xD800 ≤ c.toNat ∧ c.toNat < 0xDC00) := by omega
      have hns2 : ¬ (0xD800 ≤ c.toNat ∧ c.toNat < 0xE000) := by omega
      simp only [hns, if_false, runeOfUnit, hns2, Char.ofNat_toNat]
    · simp only [h9, if_false, List.cons_append, List.nil_append]
      have hge : ¬ c.toNat < 32 := fun h => h8 (Or.inl h)
      simp [parseStringBody, h1, h2, hge]

/-- Reading the text written for the runes of a string, up to the closing quote,
gives the string back. -/
theorem parseStringBody_escaped :
    ∀ (cs : List Char) (fuel : Nat) (acc rest : List Char), cs.length < fuel →
      parseStringBody fuel (cs.flatMap escapeRune ++ '"' :: rest) acc =
        some (String.mk (acc.reverse ++ cs), rest)
  | [], fuel, acc, rest, h => by
    obtain ⟨f, rfl⟩ : ∃ f, fuel = f + 1 := ⟨fuel - 1, by simp at h; omega⟩
    simp [parseStringBody]
  | c :: cs, fuel, acc, rest, h => by
    obtain ⟨f, rfl⟩ : ∃ f, fuel = f + 1 := ⟨fuel - 1, by simp at h; omega⟩
    rw [List.flatMap_cons, List.append_assoc, parseStringBody_escapeRune,
      parseStringBody_escaped cs f (c :: acc) rest (by simp at h; omega)]
    simp

theorem escapeRune_length (c : Char) : 1 ≤ (escapeRune c).length := by
  unfold escapeRune
  repeat (first | split | simp)

theorem flatMap_escapeRune_length :
    ∀ cs : List Char, cs.length ≤ (cs.flatMap escapeRune).length
  | [] => by simp
  | c :: cs => by
    rw [List.flatMap_cons, List.length_append, List.length_cons]
    have := escapeRune_length c
    have := flatMap_escapeRune_length cs
    omega

/-- The text of a JSON string, after its opening quote, is read back as the
string. -/
theorem parseString_render (s : String) (rest : List Char) :
    parseStringBody ((s.data.flatMap escapeRune ++ '"' :: rest).length + 1)
      (s.data.flatMap escapeRune ++ '"' :: rest) [] = some (s, rest) := by
  have h := parseStringBody_escaped s.data
    ((s.data.flatMap escapeRune ++ '"' :: rest).length + 1) [] rest (by
      have := flatMap_escapeRune_length s.data
      simp only [List.length_append, List.length_cons]
      omega)
  rw [h]
  simp

end json

namespace json

theorem skipSpace_cons_of_not_space (c : Char) (cs : List Char) (h : isSpace c = false) :
    skipSpace (c :: cs) = c :: cs := by
  simp [skipSpace, h]

theorem renderString_append (s : String) (rest : List Char) :
    renderString s ++ rest = '"' :: (s.data.flatMap escapeRune ++ '"' :: rest) := by
  simp [renderString]

mutual
/-- A document built from `null`, booleans, strings and objects is read back from
the text written for it, whatever follows the text. -/
theorem parseValue_render : ∀ (j : JSON), plain j = true → ∀ (fuel : Nat) (rest : List Char),
    (render j).length ≤ fuel → parseValue fuel (render j ++ rest) = some (j, rest)
  | .null, _, fuel, rest, hf => by
    obtain ⟨f, rfl⟩ : ∃ f, fuel = f + 1 := ⟨fuel - 1, by simp [render] at hf; omega⟩
    simp [render, parseValue, skipSpace, isSpace, stripChars]
  | .bool true, _, fuel, rest, hf => by
    obtain ⟨f, rfl⟩ : ∃ f, fuel = f + 1 := ⟨fuel - 1, by simp [render] at hf; omega⟩
    simp [render, parseValue, skipSpace, isSpace, stripChars]
  | .bool false, _, fuel, rest, hf => by
    obtain ⟨f, rfl⟩ : ∃ f, fuel = f + 1 := ⟨fuel - 1, by simp [render] at hf; omega⟩
    simp [render, parseValue, skipSpace, isSpace, stripChars]
  | .str s, _, fuel, rest, hf => by
    obtain ⟨f, rfl⟩ : ∃ f, fuel = f + 1 := ⟨fuel - 1, by simp [render, renderString] at hf; omega⟩
    simp only [render, renderString_append, parseValue]
    rw [skipSpace_cons_of_not_space _ _ (by decide)]
    simp only [show ¬ ('"' = '\x7b') by decide, show ¬ ('"' = '[') by decide, if_false, if_true,
      parseString_render]
  | .num _, hp, _, _, _ => by simp [plain] at hp
  | .arr _, hp, _, _, _ => by simp [plain] at hp
  | .obj [], _, fuel, rest, hf => by
    obtain ⟨f, rfl⟩ : ∃ f, fuel = f + 1 := ⟨fuel - 1, by simp [render] at hf; omega⟩
    simp [render, renderMembers, parseValue, skipSpace, isSpace]
  | .obj (kv :: kvs), hp, fuel, rest, hf => by
    obtain ⟨f, rfl⟩ : ∃ f, fuel = f + 1 := ⟨fuel - 1, by simp [render] at hf; omega⟩
    have hlen : (renderMembers (kv :: kvs)).length ≤ f := by
      simp only [render, List.length_cons, List.length_append, List.length_nil] at hf
      omega
    have hmem := parseMembers_render (kv :: kvs) (by simp) (by simpa [plain] using hp) f rest hlen
    have hstart : ∃ tl, renderMembers (kv :: kvs) ++ '\x7d' :: rest = '"' :: tl := by
      obtain ⟨k, v⟩ := kv
      cases kvs with
      | nil => exact ⟨_, by simp [renderMembers, renderString]; rfl⟩
      | cons kv2 kvs2 => exact ⟨_, by simp [renderMembers, renderString]; rfl⟩
    obtain ⟨tl, htl⟩ := hstart
    have hrender : render (.obj (kv :: kvs)) ++ rest =
        '\x7b' :: (renderMembers (kv :: kvs) ++ '\x7d' :: rest) := by
      simp [render]
    rw [hrender, parseValue, skipSpace_cons_of_not_space _ _ (by decide)]
    simp only [if_true]
    rw [htl] at hmem ⊢
    rw [skipSpace_cons_of_not_space _ _ (by decide)]
    simp only [hmem]
    rfl
/-- The members of such an object are read back from the text written for them
and the closing brace. -/
theorem parseMembers_render : ∀ (kvs : List (String × JSON)), kvs ≠ [] →
    plainMembers kvs = true → ∀ (fuel : Nat) (rest : List Char),
    (renderMembers kvs).length ≤ fuel →
    parseMembers fuel (renderMembers kvs ++ '\x7d' :: rest) = some (kvs, rest)
  | [], hne, _, _, _, _ => absurd rfl hne
  | [(k, v)], _, hp, fuel, rest, hf => by
    have hpv : plain v = true := by simpa [plainMembers] using hp
    have hlen : (render v).length + 3 ≤ fuel := by
      simp only [renderMembers, renderString, List.length_cons, List.length_append,
        List.length_nil] at hf
      omega
    obtain ⟨f, rfl⟩ : ∃ f, fuel = f + 1 := ⟨fuel - 1, by omega⟩
    have hv := parseValue_render v hpv f ('\x7d' :: rest) (by omega)
    have htext : renderMembers [(k, v)] ++ '\x7d' :: rest =
        '"' :: (k.data.flatMap escapeRune ++ '"' :: (':' :: (render v ++ '\x7d' :: rest))) := by
      simp [renderMembers, renderString]
    rw [htext, parseMembers, skipSpace_cons_of_not_space _ _ (by decide)]
    simp only [parseString_render]
    rw [skipSpace_cons_of_not_space _ _ (by decide)]
    simp only [hv]
    rw [skipSpace_cons_of_not_space _ _ (by decide)]
    rfl
  | (k, v) :: kv2 :: rest2, _, hp, fuel, rest, hf => by
    have hpv : plain v = true := by
      simp only [plainMembers, Bool.and_eq_true] at hp
      exact hp.1
    have hpr : plainMembers (kv2 :: rest2) = true := by
      simp only [plainMembers, Bool.and_eq_true] at hp
      simp only [plainMembers, Bool.and_eq_true]
      exact hp.2
    have hlen : (render v).length + (renderMembers (kv2 :: rest2)).length + 4 ≤ fuel := by
      simp only [renderMembers, renderString, List.length_cons, List.length_append,
        List.length_nil] at hf
      omega
    obtain ⟨f, rfl⟩ : ∃ f, fuel = f + 1 := ⟨fuel - 1, by omega⟩
    have hv := parseValue_render v hpv f
      (',' :: (renderMembers (kv2 :: rest2) ++ '\x7d' :: rest)) (by omega)
    have hr := parseMembers_render (kv2 :: rest2) (by simp) hpr f rest (by omega)
    have htext : renderMembers ((k, v) :: kv2 :: rest2) ++ '\x7d' :: rest =
        '"' :: (k.data.flatMap escapeRune ++ '"' :: (':' :: (render v ++
          ',' :: (renderMembers (kv2 :: rest2) ++ '\x7d' :: rest)))) := by
      simp [renderMembers, renderString]
    rw [htext, parseMembers, skipSpace_cons_of_not_space _ _ (by decide)]
    simp only [parseString_render]
    rw [skipSpace_cons_of_not_space _ _ (by decide)]
    simp only [hv]
    rw [skipSpace_cons_of_not_space _ _ (by decide)]
    simp only [hr]
end

/-- The text written for a document built from `null`, booleans, strings and
objects is read as that document. -/
theorem parse_render (j : JSON) (h : plain j = true) : parse (String.mk (render j)) = some j := by
  have hv := parseValue_render j h ((render j).length + 1) [] (by omega)
  simp only [List.append_nil] at hv
  simp [parse, String.length, hv, skipSpace]

end json

namespace json

theorem marshalStruct_eq_marshalFields (omitted : List String) (vals : List (String × GoVal)) :
    ∀ fields : List (String × String × GoType),
      marshalStruct omitted vals fields =
        marshalFields omitted (fun _ t v => marshalValue omitted t v) vals fields
  | [] => by simp [marshalStruct, marshalFields]
  | (g, n, t) :: rest => by
    simp only [marshalStruct, marshalFields, marshalStruct_eq_marshalFields omitted vals rest]

theorem plainMembers_of_forall :
    ∀ kvs : List (String × JSON), (∀ kv ∈ kvs, plain kv.2 = true) → plainMembers kvs = true
  | [], _ => rfl
  | (k, v) :: rest, h => by
    simp only [plainMembers, Bool.and_eq_true]
    exact ⟨h (k, v) (List.mem_cons_self _ _),
      plainMembers_of_forall rest (fun kv hkv => h kv (List.mem_cons_of_mem _ hkv))⟩

end json

namespace slacktest
open json

/-- The message the `Send...` functions build in the package `slack.wirePkg`. -/
theorem newMessage_wire (E : Env) (channel user text : String) :
    newMessage E.wire channel user text = .struct [
      ("Type", .str E.TYPE_MESSAGE), ("Channel", .str channel), ("User", .str user),
      ("Text", .str text), ("Timestamp", .str (toString E.unixNow)), ("Edited", .ptr none),
      ("Attachments", .slice true 0 []), ("ReplaceOriginal", .bool false),
      ("DeleteOriginal", .bool false),
      ("Metadata", .struct [("EventType", .str ""), ("EventPayload", .map none)]),
      ("Blocks", .iface none)] := rfl

theorem wireMessage_goNames_nodup :
    ((slack.Message slack.wirePkg []).fields.map (fun f => f.1)).Nodup := by decide

theorem wireMessage_jsonNames_nodup :
    ((slack.Message slack.wirePkg []).fields.map (fun f => foldName f.2.1)).Nodup := by decide

/-- A string field of the message is written and read back, or left out and
empty. -/
theorem wire_string_field (n : String) (s : String) :
    if n ∈ slack.wireOmitempty ∧ isEmptyValue (.str s) = true then
      GoVal.str s = zero slack.wirePkg.foreign .string
    else unmarshalValue slack.wirePkg.foreign .string
      (marshalValue slack.wireOmitempty .string (.str s)) (zero slack.wirePkg.foreign .string) =
        (.str s, none) := by
  by_cases hom : n ∈ slack.wireOmitempty ∧ isEmptyValue (.str s) = true
  · rw [if_pos hom]
    have : s = "" := by simpa [isEmptyValue] using hom.2
    rw [this]
    rfl
  · rw [if_neg hom]
    simp [marshalValue, marshalScalar, unmarshalValue]

/-- The document written for a message the `Send...` functions build decodes,
as a `slack.Message` or a `slack.MessageEvent` of the package, to that message. -/
theorem unmarshal_marshal_newMessage (E : Env) (channel user text : String) :
    unmarshalValue slack.wirePkg.foreign (slack.Message slack.wirePkg [])
      (marshalValue slack.wireOmitempty (slack.Message slack.wirePkg [])
        (newMessage E.wire channel user text))
      (zero slack.wirePkg.foreign (slack.Message slack.wirePkg [])) =
      (newMessage E.wire channel user text, none) := by
  rw [newMessage_wire]
  show unmarshalValue slack.wirePkg.foreign (.struct (slack.Message slack.wirePkg []).fields)
    (.obj (marshalStruct slack.wireOmitempty _ (slack.Message slack.wirePkg []).fields))
    (zero slack.wirePkg.foreign (.struct (slack.Message slack.wirePkg []).fields)) = _
  rw [marshalStruct_eq_marshalFields]
  apply unmarshal_marshalFields slack.wirePkg.foreign wireMessage_goNames_nodup
    wireMessage_jsonNames_nodup
  · rfl
  · intro f hf v hv
    simp only [slack.Message, slack.Msg, slack.wirePkg, GoType.fields, List.cons_append,
      List.nil_append, List.append_nil, List.mem_cons, List.mem_singleton, List.not_mem_nil,
      or_false] at hf
    rcases hf with rfl | rfl | rfl | rfl | rfl | rfl | rfl | rfl | rfl | rfl | rfl
    · have hv1 : v = .str E.TYPE_MESSAGE := (Option.some.inj hv).symm
      subst hv1
      exact wire_string_field _ _
    · have hv1 : v = .str channel := (Option.some.inj hv).symm
      subst hv1
      exact wire_string_field _ _
    · have hv1 : v = .str user := (Option.some.inj hv).symm
      subst hv1
      exact wire_string_field _ _
    · have hv1 : v = .str text := (Option.some.inj hv).symm
      subst hv1
      exact wire_string_field _ _
    · have hv1 : v = .str (toString E.unixNow) := (Option.some.inj hv).symm
      subst hv1
      exact wire_string_field _ _
    · have hv1 : v = .ptr none := (Option.some.inj hv).symm
      subst hv1
      rw [if_pos ⟨by decide, rfl⟩]
      rfl
    · have hv1 : v = .slice true 0 [] := (Option.some.inj hv).symm
      subst hv1
      rw [if_pos ⟨by decide, rfl⟩]
      rfl
    · have hv1 : v = .bool false := (Option.some.inj hv).symm
      subst hv1
      rw [if_neg (by decide)]
      rfl
    · have hv1 : v = .bool false := (Option.some.inj hv).symm
      subst hv1
      rw [if_neg (by decide)]
      rfl
    · have hv1 : v = .struct [("EventType", .str ""), ("EventPayload", .map none)] :=
        (Option.some.inj hv).symm
      subst hv1
      rw [if_neg (by decide)]
      rfl
    · have hv1 : v = .iface none := (Option.some.inj hv).symm
      subst hv1
      rw [if_neg (by decide)]
      rfl

/-- The document written for a message the `Send...` functions build is made of
`null`, booleans, strings and objects. -/
theorem plain_marshal_newMessage (E : Env) (channel user text : String) :
    plain (marshalValue slack.wireOmitempty (slack.Message slack.wirePkg [])
      (newMessage E.wire channel user text)) = true := by
  rw [newMessage_wire]
  show plain (.obj (marshalStruct slack.wireOmitempty _ (slack.Message slack.wirePkg []).fields)) =
    true
  rw [marshalStruct_eq_marshalFields]
  simp only [plain]
  apply plainMembers_of_forall
  intro kv hkv
  obtain ⟨f, hf, v, hv, _, hkveq⟩ := mem_marshalFields _ _ _ _ kv hkv
  rw [hkveq]
  simp only [slack.Message, slack.Msg, slack.wirePkg, GoType.fields, List.cons_append,
    List.nil_append, List.append_nil, List.mem_cons, List.mem_singleton, List.not_mem_nil,
    or_false] at hf
  rcases hf with rfl | rfl | rfl | rfl | rfl | rfl | rfl | rfl | rfl | rfl | rfl <;>
  · have hv1 := (Option.some.inj hv).symm
    subst hv1
    rfl

end slacktest

namespace slacktest
open json

/-- In the package `slack.wirePkg`, the body `json.Marshal` writes for a message
the `Send...` functions build is read and decoded, without error, to that
message. -/
theorem unmarshalMessageEvent_marshal (E : Env) (channel user text : String) :
    E.wire.Marshal (newMessage E.wire channel user text) =
      .ok (String.mk (render (marshalValue slack.wireOmitempty (slack.Message slack.wirePkg [])
        (newMessage E.wire channel user text)))) ∧
    unmarshalMessageEvent E.wire
      (String.mk (render (marshalValue slack.wireOmitempty (slack.Message slack.wirePkg [])
        (newMessage E.wire channel user text)))) =
      (newMessage E.wire channel user text, none) := by
  constructor
  · show marshalMessage (newMessage E.wire channel user text) = _
    rw [newMessage_wire]
    rfl
  · show Unmarshal slack.wirePkg.foreign (parse _) (slack.Message slack.wirePkg [])
      (zero slack.wirePkg.foreign (slack.Message slack.wirePkg [])) = _
    rw [parse_render _ (plain_marshal_newMessage E channel user text)]
    exact unmarshal_marshal_newMessage E channel user text

end slacktest

/-! ## Go strings as bytes -/

namespace json

theorem Char_toNat_valid (c : Char) :
    c.toNat < 0xD800 ∨ (0xDFFF < c.toNat ∧ c.toNat < 0x110000) := by
  have h := c.valid
  simp only [UInt32.isValidChar, Nat.isValidChar] at h
  exact h

theorem isCont_of (b : Nat) (h1 : 0x80 ≤ b) (h2 : b < 0xC0) : isCont b = true := by
  simp [isCont, h1, h2]

/-- Decoding the UTF-8 encoding of a rune gives the rune and the length of the
encoding. -/
theorem decodeRune_encodeRune (c : Char) (rest : List Nat) :
    decodeRune (encodeRune c ++ rest) = (c, (encodeRune c).length) := by
  have hv := Char_toNat_valid c
  have hc := Char.ofNat_toNat c
  unfold encodeRune
  by_cases h1 : c.toNat < 0x80
  · simp only [h1, if_true, List.cons_append, List.nil_append, decodeRune, hc, List.length_cons,
      List.length_nil]
  · simp only [h1, if_false]
    by_cases h2 : c.toNat < 0x800
    · simp only [h2, if_true, List.cons_append, List.nil_append, decodeRune, List.length_cons,
        List.length_nil]
      rw [if_neg (by omega), if_pos (by omega), isCont_of _ (by omega) (by omega)]
      simp only [if_true]
      have : (0xC0 + c.toNat / 64 - 0xC0) * 64 + (0x80 + c.toNat % 64 - 0x80) = c.toNat := by
        omega
      rw [this, hc]
    · simp only [h2, if_false]
      by_cases h3 : c.toNat < 0x10000
      · simp only [h3, if_true, List.cons_append, List.nil_append, decodeRune, List.length_cons,
          List.length_nil]
        rw [if_neg (by omega), if_neg (by omega), if_pos (by omega),
          isCont_of (0x80 + c.toNat % 64) (by omega) (by omega)]
        have hcond : (if 0xE0 + c.toNat / 4096 = 0xE0 then 0xA0 else 0x80) ≤
            0x80 + c.toNat / 64 % 64 ∧
            0x80 + c.toNat / 64 % 64 < (if 0xE0 + c.toNat / 4096 = 0xED then 0xA0 else 0xC0) ∧
            true = true := by
          refine ⟨?_, ?_, rfl⟩
          · split <;> omega
          · split <;> omega
        rw [if_pos hcond]
        have : (0xE0 + c.toNat / 4096 - 0xE0) * 4096 + (0x80 + c.toNat / 64 % 64 - 0x80) * 64 +
            (0x80 + c.toNat % 64 - 0x80) = c.toNat := by omega
        rw [this, hc]
      · simp only [h3, if_false, List.cons_append, List.nil_append, decodeRune, List.length_cons,
          List.length_nil]
        rw [if_neg (by omega), if_neg (by omega), if_neg (by omega), if_pos (by omega),
          isCont_of (0x80 + c.toNat / 64 % 64) (by omega) (by omega),
          isCont_of (0x80 + c.toNat % 64) (by omega) (by omega)]
        have hcond : (if 0xF0 + c.toNat / 262144 = 0xF0 then 0x90 else 0x80) ≤
            0x80 + c.toNat / 4096 % 64 ∧
            0x80 + c.toNat / 4096 % 64 <
              (if 0xF0 + c.toNat / 262144 = 0xF4 then 0x90 else 0xC0) ∧
            true = true ∧ true = true := by
          refine ⟨?_, ?_, rfl, rfl⟩
          · split <;> omega
          · split <;> omega
        rw [if_pos hcond]
        have : (0xF0 + c.toNat / 262144 - 0xF0) * 262144 +
            (0x80 + c.toNat / 4096 % 64 - 0x80) * 4096 +
            (0x80 + c.toNat / 64 % 64 - 0x80) * 64 + (0x80 + c.toNat % 64 - 0x80) = c.toNat := by
          omega
        rw [this, hc]

end json

namespace json

theorem encodeRune_pos (c : Char) : 1 ≤ (encodeRune c).length := by
  unfold encodeRune
  split
  · simp
  · split
    · simp
    · split <;> simp

theorem encodeRune_ne_nil (c : Char) : encodeRune c ≠ [] := by
  intro h
  have := encodeRune_pos c
  rw [h] at this
  simp at this

/-- A rune whose encoding takes one byte is not U+FFFD. -/
theorem encodeRune_length_one (c : Char) (h : (encodeRune c).length = 1) :
    c ≠ Char.ofNat 0xFFFD := by
  intro hc
  subst hc
  revert h
  decide

theorem length_le_flatMap_encodeRune :
    ∀ cs : List Char, cs.length ≤ (cs.flatMap encodeRune).length
  | [] => by simp
  | c :: cs => by
    rw [List.flatMap_cons, List.length_append, List.length_cons]
    have := encodeRune_pos c
    have := length_le_flatMap_encodeRune cs
    omega

/-- The text written for the bytes of a text is the text written for its runes. -/
theorem quoteRunes_utf8 :
    ∀ (cs : List Char) (fuel : Nat), cs.length ≤ fuel →
      quoteRunes fuel (cs.flatMap encodeRune) = cs.flatMap escapeRune
  | [], fuel, _ => by cases fuel <;> simp [quoteRunes]
  | c :: cs, fuel, h => by
    obtain ⟨f, rfl⟩ : ∃ f, fuel = f + 1 := ⟨fuel - 1, by simp at h; omega⟩
    rw [List.flatMap_cons, List.flatMap_cons]
    obtain ⟨b, bs, hb⟩ : ∃ b bs, encodeRune c ++ cs.flatMap encodeRune = b :: bs := by
      cases hx : encodeRune c ++ cs.flatMap encodeRune with
      | nil =>
        exact absurd (List.append_eq_nil.mp hx).1 (encodeRune_ne_nil c)
      | cons b bs => exact ⟨b, bs, rfl⟩
    have hdec : decodeRune (b :: bs) = (c, (encodeRune c).length) := by
      rw [← hb]
      exact decodeRune_encodeRune c _
    rw [hb]
    simp only [quoteRunes, hdec]
    have hno : ¬ (c = Char.ofNat 0xFFFD ∧ (encodeRune c).length = 1) :=
      fun hh => encodeRune_length_one c hh.2 hh.1
    rw [if_neg hno, ← hb, List.drop_left, quoteRunes_utf8 cs f (by simp at h; omega)]

theorem quoteBytes_utf8 (s : String) : quoteBytes (utf8Bytes s) = renderString s := by
  unfold quoteBytes utf8Bytes renderString
  rw [quoteRunes_utf8 s.data _ (length_le_flatMap_encodeRune s.data)]

theorem utf8Bytes_eq_nil (s : String) : utf8Bytes s = [] ↔ s = "" := by
  unfold utf8Bytes
  constructor
  · intro h
    cases hs : s.data with
    | nil =>
      have : s = String.mk [] := by rw [← hs]
      exact this
    | cons c cs =>
      rw [hs, List.flatMap_cons] at h
      exact absurd (List.append_eq_nil.mp h).1 (encodeRune_ne_nil c)
  · intro h
    subst h
    rfl

theorem utf8Bytes_append (a b : String) : utf8Bytes (a ++ b) = utf8Bytes a ++ utf8Bytes b := by
  simp [utf8Bytes, String.data_append, List.flatMap_append]

/-- Two texts with the same bytes are equal. -/
theorem flatMap_encodeRune_injective :
    ∀ (xs ys : List Char), xs.flatMap encodeRune = ys.flatMap encodeRune → xs = ys
  | [], [], _ => rfl
  | [], d :: ys, h => by
    rw [List.flatMap_cons] at h
    exact absurd (List.append_eq_nil.mp h.symm).1 (encodeRune_ne_nil d)
  | c :: xs, [], h => by
    rw [List.flatMap_cons] at h
    exact absurd (List.append_eq_nil.mp h).1 (encodeRune_ne_nil c)
  | c :: xs, d :: ys, h => by
    rw [List.flatMap_cons, List.flatMap_cons] at h
    have h1 := decodeRune_encodeRune c (xs.flatMap encodeRune)
    have h2 := decodeRune_encodeRune d (ys.flatMap encodeRune)
    rw [h, h2] at h1
    have hcd : d = c := congrArg Prod.fst h1
    subst hcd
    have hrest := List.append_cancel_left h
    rw [flatMap_encodeRune_injective xs ys hrest]

theorem utf8Bytes_injective (a b : String) (h : utf8Bytes a = utf8Bytes b) : a = b := by
  have := flatMap_encodeRune_injective a.data b.data h
  exact String.ext this

end json

namespace json

theorem renderMembers_intercalate :
    ∀ kvs : List (String × JSON),
      renderMembers kvs =
        List.intercalate [','] (kvs.map (fun kv => renderString kv.1 ++ ':' :: render kv.2))
  | [] => rfl
  | [(k, v)] => by simp [renderMembers, List.intercalate]
  | (k, v) :: kv :: rest => by
    have ih := renderMembers_intercalate (kv :: rest)
    simp only [renderMembers, ih]
    simp [List.intercalate, List.intersperse]

theorem render_obj (kvs : List (String × JSON)) :
    render (.obj kvs) = '\x7b' :: (renderMembers kvs ++ ['\x7d']) := by
  cases kvs <;> simp [render]

/-- The member written for a string field tagged `omitempty`. -/
theorem marshalStruct_string (omitted : List String) (vals : List (String × GoVal))
    (g n : String) (s : String) (rest : List (String × String × GoType))
    (hget : getField g vals = some (.str s)) (hn : n ∈ omitted) :
    marshalStruct omitted vals ((g, n, .string) :: rest) =
      (if s = "" then [] else [(n, JSON.str s)]) ++ marshalStruct omitted vals rest := by
  simp only [marshalStruct, hget, hn, isEmptyValue, true_and, decide_eq_true_eq]
  by_cases hs : s = ""
  · simp [hs]
  · simp [hs, marshalValue, marshalScalar]

end json

namespace slacktest
open json

/-- The members of the document written for a message the `Send...` functions
build: the five strings that are not empty, then the four members written for
every message. -/
theorem marshal_newMessage_members (E : Env) (channel user text : String) :
    marshalValue slack.wireOmitempty (slack.Message slack.wirePkg [])
      (newMessage E.wire channel user text) =
      .obj ((if E.TYPE_MESSAGE = "" then [] else [("type", JSON.str E.TYPE_MESSAGE)]) ++
        ((if channel = "" then [] else [("channel", JSON.str channel)]) ++
        ((if user = "" then [] else [("user", JSON.str user)]) ++
        ((if text = "" then [] else [("text", JSON.str text)]) ++
        ((if toString E.unixNow = "" then [] else [("ts", JSON.str (toString E.unixNow))]) ++
        [("replace_original", .bool false), ("delete_original", .bool false),
          ("metadata", .obj [("event_type", .str ""), ("event_payload", .null)]),
          ("blocks", .null)]))))) := by
  rw [newMessage_wire]
  show JSON.obj (marshalStruct slack.wireOmitempty _
    (("Type", "type", GoType.string) :: ("Channel", "channel", GoType.string) ::
      ("User", "user", GoType.string) :: ("Text", "text", GoType.string) ::
      ("Timestamp", "ts", GoType.string) :: _)) = _
  apply congrArg JSON.obj
  refine (marshalStruct_string _ _ _ _ E.TYPE_MESSAGE _ ?_ ?_).trans ?_
  · exact rfl
  · decide
  apply congrArg
  refine (marshalStruct_string _ _ _ _ channel _ ?_ ?_).trans ?_
  · exact rfl
  · decide
  apply congrArg
  refine (marshalStruct_string _ _ _ _ user _ ?_ ?_).trans ?_
  · exact rfl
  · decide
  apply congrArg
  refine (marshalStruct_string _ _ _ _ text _ ?_ ?_).trans ?_
  · exact rfl
  · decide
  apply congrArg
  refine (marshalStruct_string _ _ _ _ (toString E.unixNow) _ ?_ ?_).trans ?_
  · exact rfl
  · decide
  apply congrArg
  rfl

theorem filterMap_member (n : String) (s : String) :
    [(n, utf8Bytes s)].filterMap
        (fun nv => if nv.2 = [] then none else some (renderString nv.1 ++ ':' :: quoteBytes nv.2)) =
      (if s = "" then [] else [(n, JSON.str s)]).map
        (fun kv => renderString kv.1 ++ ':' :: render kv.2) := by
  by_cases hs : s = ""
  · subst hs
    rfl
  · have hne : ¬ utf8Bytes s = [] := fun h => hs ((utf8Bytes_eq_nil s).mp h)
    simp [hs, hne, quoteBytes_utf8, render]

/-- For texts, the body written from the bytes of the strings is the body
written from the strings. -/
theorem marshalMessageBytes_utf8 (E : Env) (channel user text : String) :
    marshalMessageBytes (utf8Bytes E.TYPE_MESSAGE) (utf8Bytes channel) (utf8Bytes user)
        (utf8Bytes text) (utf8Bytes (toString E.unixNow)) =
      String.mk (render (marshalValue slack.wireOmitempty (slack.Message slack.wirePkg [])
        (newMessage E.wire channel user text))) := by
  rw [marshal_newMessage_members]
  unfold marshalMessageBytes
  congr 1
  have hobj : ∀ kvs : List (String × JSON), render (.obj kvs) =
      '\x7b' :: (List.intercalate [',']
        (kvs.map (fun kv => renderString kv.1 ++ ':' :: render kv.2)) ++ ['\x7d']) := by
    intro kvs
    rw [render_obj, renderMembers_intercalate]
  refine Eq.trans ?_ (hobj _).symm
  simp only [List.map_append]
  have hsplit : ∀ (a b c d e : String × List Nat)
      (f : String × List Nat → Option (List Char)),
      [a, b, c, d, e].filterMap f =
        [a].filterMap f ++ ([b].filterMap f ++ ([c].filterMap f ++ ([d].filterMap f ++
          [e].filterMap f))) := by
    intro a b c d e f
    rw [← List.filterMap_append, ← List.filterMap_append, ← List.filterMap_append,
      ← List.filterMap_append]
    rfl
  rw [hsplit, filterMap_member, filterMap_member, filterMap_member, filterMap_member,
    filterMap_member]
  simp only [List.append_assoc]
  rfl

end slacktest

namespace slacktest
open json

/-- For texts, `SendMessageToBot` on the bytes of the strings is `SendMessageToBot`
on the strings. -/
theorem SendMessageToBotBytes_utf8 (E : Env) (sts : Server) (channel msg : String) :
    sts.SendMessageToBotBytes E.wire (utf8Bytes channel) (utf8Bytes msg) =
      sts.SendMessageToBot E.wire channel msg := by
  have hm := (unmarshalMessageEvent_marshal E channel E.defaultNonBotUserID
    ("<@" ++ sts.BotID ++ "> " ++ msg)).1
  have hm1 : E.wire.Marshal (newMessage E.wire channel E.wire.defaultNonBotUserID
      ("<@" ++ sts.BotID ++ "> " ++ msg)) = .ok _ := hm
  have hbytes := marshalMessageBytes_utf8 E channel E.defaultNonBotUserID
    ("<@" ++ sts.BotID ++ "> " ++ msg)
  have happ : utf8Bytes ("<@" ++ sts.BotID ++ "> " ++ msg) =
      utf8Bytes ("<@" ++ sts.BotID ++ "> ") ++ utf8Bytes msg := by
    rw [← utf8Bytes_append]
  rw [happ] at hbytes
  have hb1 : marshalMessageBytes (utf8Bytes E.wire.TYPE_MESSAGE) (utf8Bytes channel)
      (utf8Bytes E.wire.defaultNonBotUserID)
      (utf8Bytes ("<@" ++ sts.BotID ++ "> ") ++ utf8Bytes msg)
      (utf8Bytes (toString E.wire.unixNow)) = _ := hbytes
  simp only [Server.SendMessageToBotBytes, Server.SendMessageToBot, Server.sendMessage, hm1, hb1]

theorem SawOutgoingMessageBytes_loop_utf8 (E : Env) (msg : String) :
    ∀ log : List String,
      SawOutgoingMessageBytes.loop E (utf8Bytes msg) log = SawOutgoingMessage.loop E msg log
  | [] => rfl
  | m :: rest => by
    have ih := SawOutgoingMessageBytes_loop_utf8 E msg rest
    simp only [SawOutgoingMessageBytes.loop, SawOutgoingMessage.loop]
    rcases unmarshalMessageEvent E m with ⟨evt, err⟩
    cases err with
    | some err => exact ih
    | none =>
      by_cases ht : eventText evt = msg
      · simp [ht]
      · have hne : ¬ utf8Bytes (eventText evt) = utf8Bytes msg :=
          fun h => ht (utf8Bytes_injective _ _ h)
        simp only [ht, hne, if_false]
        exact ih

/-- For a text, `SawOutgoingMessage` on the bytes of the string is
`SawOutgoingMessage` on the string. -/
theorem SawOutgoingMessageBytes_utf8 (E : Env) (sts : Server) (msg : String) :
    sts.SawOutgoingMessageBytes E (utf8Bytes msg) = sts.SawOutgoingMessage E msg :=
  SawOutgoingMessageBytes_loop_utf8 E msg _

end slacktest

namespace slacktest
open json

/-- C20 (amended): for all texts `channel` and `msg` (Go strings that are valid
UTF-8), in the package `slack.wirePkg` and with the reader and writer of JSON
text of this development, `SendMessageToBot(channel, msg)` makes the outbound log
grow by exactly one body, the one `json.Marshal` returns for the message; that
body is read and decoded without error as a message frame with
Type = TYPE_MESSAGE, Channel = channel and Text = "<@" + BotID + "> " + msg, and
`SawOutgoingMessage` of that text returns true afterwards. The same holds of the
embedding on bytes, which on the bytes of texts is the embedding on texts. -/
theorem C20_send_message_to_bot (E : Env) (sts : Server) (channel msg : String) :
    (∃ body evt,
      E.wire.Marshal (newMessage E.wire channel E.defaultNonBotUserID
        ("<@" ++ sts.BotID ++ "> " ++ msg)) = .ok body ∧
      (sts.SendMessageToBot E.wire channel msg).GetSeenOutboundMessages =
        sts.GetSeenOutboundMessages ++ [body] ∧
      unmarshalMessageEvent E.wire body = (evt, none) ∧
      evt.field "Type" = some (.str E.TYPE_MESSAGE) ∧
      evt.field "Channel" = some (.str channel) ∧
      evt.field "Text" = some (.str ("<@" ++ sts.BotID ++ "> " ++ msg))) ∧
    (sts.SendMessageToBot E.wire channel msg).SawOutgoingMessage E.wire
      ("<@" ++ sts.BotID ++ "> " ++ msg) = true ∧
    sts.SendMessageToBotBytes E.wire (utf8Bytes channel) (utf8Bytes msg) =
      sts.SendMessageToBot E.wire channel msg ∧
    (sts.SendMessageToBotBytes E.wire (utf8Bytes channel)
      (utf8Bytes msg)).SawOutgoingMessageBytes E.wire
        (utf8Bytes ("<@" ++ sts.BotID ++ "> ") ++ utf8Bytes msg) = true := by
  obtain ⟨hmarshal, hdecode⟩ := unmarshalMessageEvent_marshal E channel E.defaultNonBotUserID
    ("<@" ++ sts.BotID ++ "> " ++ msg)
  have hlog : (sts.SendMessageToBot E.wire channel msg).GetSeenOutboundMessages =
      sts.GetSeenOutboundMessages ++ [String.mk (render (marshalValue slack.wireOmitempty
        (slack.Message slack.wirePkg [])
        (newMessage E.wire channel E.defaultNonBotUserID
          ("<@" ++ sts.BotID ++ "> " ++ msg))))] := by
    have hm : E.wire.Marshal (newMessage E.wire channel E.wire.defaultNonBotUserID
        ("<@" ++ sts.BotID ++ "> " ++ msg)) = .ok _ := hmarshal
    simp [Server.SendMessageToBot, Server.sendMessage, hm, Server.GetSeenOutboundMessages,
      messageCollection.get, messageCollection.observe]
  have hsaw : (sts.SendMessageToBot E.wire channel msg).SawOutgoingMessage E.wire
      ("<@" ++ sts.BotID ++ "> " ++ msg) = true := by
    apply (SawOutgoingMessage_loop_iff E.wire ("<@" ++ sts.BotID ++ "> " ++ msg)
      (sts.SendMessageToBot E.wire channel msg).GetSeenOutboundMessages).mpr
    refine ⟨_, ?_, _, hdecode, eventText_of_field (newMessage_text _ _ _ _)⟩
    rw [hlog]
    simp
  refine ⟨⟨_, _, hmarshal, hlog, hdecode, rfl, rfl, rfl⟩, hsaw,
    SendMessageToBotBytes_utf8 E sts channel msg, ?_⟩
  rw [SendMessageToBotBytes_utf8, ← utf8Bytes_append, SawOutgoingMessageBytes_utf8]
  exact hsaw

end slacktest

namespace slacktest
open json

set_option maxRecDepth 100000 in
/-- C20, as the claim states it, fails for a Go string that is not valid UTF-8:
`json.Marshal` writes `\ufffd` in place of the byte 0xFF, so after
`SendMessageToBot("C1", "\xff")` the one recorded body decodes without error to
the Text "<@W012A3CDE> " followed by U+FFFD, whose bytes are not those of
"<@W012A3CDE> " followed by 0xFF, and `SawOutgoingMessage` of that string returns
false. -/
theorem C20_counterexample :
    (exampleServer.SendMessageToBotBytes exampleEnv (utf8Bytes "C1")
      [0xFF]).GetSeenOutboundMessages = [invalidBody] ∧
    (unmarshalMessageEvent exampleEnv invalidBody).2 = none ∧
    (unmarshalMessageEvent exampleEnv invalidBody).1.field "Channel" = some (.str "C1") ∧
    (unmarshalMessageEvent exampleEnv invalidBody).1.field "Text" =
      some (.str "<@W012A3CDE> \uFFFD") ∧
    utf8Bytes "<@W012A3CDE> \uFFFD" ≠ utf8Bytes ("<@" ++ exampleServer.BotID ++ "> ") ++ [0xFF] ∧
    (exampleServer.SendMessageToBotBytes exampleEnv (utf8Bytes "C1")
      [0xFF]).SawOutgoingMessageBytes exampleEnv
        (utf8Bytes ("<@" ++ exampleServer.BotID ++ "> ") ++ [0xFF]) = false := by
  refine ⟨by decide, rfl, rfl, rfl, by decide, ?_⟩
  have hlog : (exampleServer.SendMessageToBotBytes exampleEnv (utf8Bytes "C1")
      [0xFF]).seenOutboundMessages.get = [invalidBody] := by decide
  have hdec : unmarshalMessageEvent exampleEnv invalidBody =
      ((unmarshalMessageEvent exampleEnv invalidBody).1, none) := Prod.ext rfl rfl
  have htext : eventText (unmarshalMessageEvent exampleEnv invalidBody).1 =
      "<@W012A3CDE> \uFFFD" := rfl
  unfold Server.SawOutgoingMessageBytes
  rw [hlog]
  simp only [SawOutgoingMessageBytes.loop]
  rw [hdec]
  simp only [htext]
  decide

end slacktest
